import Mathlib

/-! Real-mode emulation for VMX (`xen/arch/x86/hvm/vmx/realmode.c`)

A shallow embedding of the real-mode emulator glue: the exception delivery
unit, the memory access shim, port I/O, and the I/O completion handler.

C integers are natural numbers reduced modulo the width of their C type at
every point where the C code truncates.  `unsigned long` is 64 bits wide
(the x86_64 build), `unsigned int`/`uint32_t` 32 bits, `uint16_t` 16 bits.
-/

namespace Realmode

/-! ## C integer conversions -/

/-- Conversion to `uint8_t`. -/
def u8 (x : Nat) : Nat := x % 2 ^ 8

/-- Conversion to `uint16_t`. -/
def u16 (x : Nat) : Nat := x % 2 ^ 16

/-- Conversion to `uint32_t` / `unsigned int`. -/
def u32 (x : Nat) : Nat := x % 2 ^ 32

/-- Conversion to `unsigned long` (64 bits). -/
def u64 (x : Nat) : Nat := x % 2 ^ 64

/-- The C expression `~c` for a non-negative `int` constant `c`, converted to
`unsigned long` by the usual arithmetic conversions (sign extension). -/
def not_ulong (c : Nat) : Nat := 2 ^ 64 - 1 - c

/-! ## Constants -/

def TRAP_double_fault : Nat := 8
def TRAP_gp_fault : Nat := 13

def X86_EFLAGS_TF : Nat := 0x00000100
def X86_EFLAGS_IF : Nat := 0x00000200
def X86_EFLAGS_RF : Nat := 0x00010000
def X86_EFLAGS_AC : Nat := 0x00040000

def X86EMUL_OKAY : Int := 0
def X86EMUL_UNHANDLEABLE : Int := 1

def IOREQ_READ : Nat := 1
def IOREQ_WRITE : Nat := 0
def IOREQ_TYPE_PIO : Nat := 0
def IOREQ_TYPE_COPY : Nat := 1

def PAGE_SHIFT : Nat := 12

/-! ## Data model -/

/-- The ten segment registers cached in `seg_reg[10]`. -/
inductive x86_segment where
  | x86_seg_es | x86_seg_cs | x86_seg_ss | x86_seg_ds | x86_seg_fs
  | x86_seg_gs | x86_seg_tr | x86_seg_ldtr | x86_seg_gdtr | x86_seg_idtr
  deriving DecidableEq, Repr

open x86_segment

/-- Attribute word of a segment: the `db` bit and the remaining bits. -/
structure segment_attributes where
  db : Bool
  other : Nat
  deriving DecidableEq, Repr

/-- Cached segment state (`struct segment_register`): `u16 sel`, attributes,
`u32 limit`, `u64 base`. -/
structure segment_register where
  sel : Nat
  attr : segment_attributes
  limit : Nat
  base : Nat
  deriving DecidableEq, Repr

/-- The guest register block (`struct cpu_user_regs`); every field is a
64-bit machine word. -/
structure cpu_user_regs where
  eip : Nat
  esp : Nat
  eflags : Nat
  eax : Nat
  ebx : Nat
  ecx : Nat
  edx : Nat
  esi : Nat
  edi : Nat
  ebp : Nat
  deriving DecidableEq, Repr

/-- The emulator context (`struct realmode_emulate_ctxt`), with the fields of
the embedded `x86_emulate_ctxt` other than the `regs` pointer. -/
structure realmode_emulate_ctxt where
  addr_size : Nat
  sp_size : Nat
  insn_buf : List Nat
  insn_buf_eip : Nat
  seg_reg : x86_segment → segment_register

/-- Guest physical memory: which page frames are RAM, and the byte stored at
each physical address. -/
structure GuestMem where
  ram : Nat → Bool
  byte : Nat → Nat

/-- The I/O continuation state in `curr->arch.hvm_vmx`. -/
structure arch_vmx_struct where
  real_mode_io_in_progress : Bool
  real_mode_io_completed : Bool
  real_mode_io_data : Nat
  deriving DecidableEq, Repr

/-- An I/O request handed to the device model (`ioreq_t`). -/
structure ioreq_t where
  type : Nat
  addr : Nat
  count : Nat
  size : Nat
  data : Nat
  dir : Nat
  deriving DecidableEq, Repr

/-- Everything the emulator reads or writes: the register block, the
emulator context, guest memory, the per-vCPU continuation state, the queue of
forwarded I/O requests, the VMCS fields it touches, the guest control
registers, the number of triple faults raised, the debug console and the
runtime's own view of the segment registers. -/
structure Machine where
  regs : cpu_user_regs
  rm_ctxt : realmode_emulate_ctxt
  mem : GuestMem
  hvm_vmx : arch_vmx_struct
  ioreqs : List ioreq_t
  guest_interruptibility_info : Nat
  vm_entry_intr_info : Nat
  guest_cr : Nat → Nat
  triple_faults : Nat
  debug_console : List Nat
  guest_seg : x86_segment → segment_register

/-! ## Runtime services used by the emulator -/

/-- Store one byte of guest memory. -/
def GuestMem.store (m : GuestMem) (addr b : Nat) : GuestMem :=
  { m with byte := fun a => if a = addr then u8 b else m.byte a }

/-- Copy loop shared by the two guest-physical copy routines, reading
direction: bytes are copied in address order into `buf` from index `i` on,
until a page that is not RAM is reached; the result is the buffer and the
number of bytes not copied. -/
def copy_from_loop (m : GuestMem) : Nat → Nat → Nat → List Nat → List Nat × Nat
  | 0, _, _, buf => (buf, 0)
  | todo + 1, addr, i, buf =>
    if m.ram (addr >>> PAGE_SHIFT) then
      copy_from_loop m todo (addr + 1) (i + 1) (buf.set i (u8 (m.byte addr)))
    else (buf, todo + 1)

/-- Modelled from the spec: `copy_from_guest_phys(dst, gpa, bytes)` is not in
the sources; it copies into `dst` and returns the residual byte count (zero
means full success, equal to `bytes` means the region is fully unbacked). -/
def hvm_copy_from_guest_phys (m : GuestMem) (buf : List Nat) (addr size : Nat) :
    List Nat × Nat :=
  copy_from_loop m size addr 0 buf

/-- Copy loop, writing direction: the bytes of `buf` are stored in address
order until a page that is not RAM is reached. -/
def copy_to_loop : Nat → GuestMem → Nat → List Nat → GuestMem × Nat
  | 0, m, _, _ => (m, 0)
  | todo + 1, m, addr, buf =>
    if m.ram (addr >>> PAGE_SHIFT) then
      copy_to_loop todo (m.store addr (buf.headD 0)) (addr + 1) buf.tail
    else (m, todo + 1)

/-- Modelled from the spec: `copy_to_guest_phys(gpa, src, bytes)` is not in
the sources; it stores into guest memory and returns the residual byte count
(the number of bytes not copied). -/
def hvm_copy_to_guest_phys (m : GuestMem) (addr : Nat) (buf : List Nat) (size : Nat) :
    GuestMem × Nat :=
  copy_to_loop size m addr buf

/-- Little-endian value of a byte buffer. -/
def le_value : List Nat → Nat
  | [] => 0
  | b :: bs => b + 2 ^ 8 * le_value bs

/-- The `n` little-endian bytes of a value. -/
def le_bytes : Nat → Nat → List Nat
  | 0, _ => []
  | n + 1, v => u8 v :: le_bytes n (v / 2 ^ 8)

/-- Modelled from the spec: `triple_fault(vcpu)` is a runtime service outside
the sources; the model records that it was invoked. -/
def hvm_triple_fault (s : Machine) : Machine :=
  { s with triple_faults := s.triple_faults + 1 }

/-- Modelled from the spec: `send_mmio_req(type, addr, count, bytes, data,
dir, …)` is a runtime service outside the sources; it enqueues one request on
the transport to the device model. -/
def send_mmio_req (type gpa count size value dir : Nat) (s : Machine) : Machine :=
  { s with ioreqs := s.ioreqs ++ [ioreq_t.mk type gpa count size value dir] }

/-- Modelled from the spec: `send_pio_req(port, count, bytes, data, dir, …)`
is a runtime service outside the sources; it enqueues one port request on the
transport to the device model. -/
def send_pio_req (port count size value dir : Nat) (s : Machine) : Machine :=
  { s with ioreqs := s.ioreqs ++ [ioreq_t.mk IOREQ_TYPE_PIO port count size value dir] }

/-- Modelled from the spec: `print_debug_char(vcpu, byte)` is the port 0xE9
sink, outside the sources; the model appends the character to the console. -/
def hvm_print_line (c : Nat) (s : Machine) : Machine :=
  { s with debug_console := s.debug_console ++ [u8 c] }

/-! ## Exception delivery (`realmode_deliver_exception`) -/

/-- Outcome of one pass through the code at the `again:` label. -/
inductive Escalation where
  | again (vector insn_len : Nat)
  | triple_fault
  | deliver (vector insn_len : Nat)
  deriving DecidableEq, Repr

/-- One pass through the limit check at the `again:` label (lines 47-71). -/
def idt_limit_check (idtr_limit vector insn_len : Nat) : Escalation :=
  let last_byte := u32 (u32 (vector * 4) + 3)
  if idtr_limit < last_byte then
    -- Software interrupt?
    if insn_len ≠ 0 then
      Escalation.again TRAP_gp_fault 0
    -- Exception or hardware interrupt.
    else if vector = TRAP_double_fault then
      Escalation.triple_fault
    else if vector = TRAP_gp_fault then
      Escalation.again TRAP_double_fault insn_len
    else
      Escalation.again TRAP_gp_fault insn_len
  else
    Escalation.deliver vector insn_len

/-- The `goto again` loop: passes through the limit check are repeated until
one of them does not jump back.  `fuel` bounds the number of passes and
`passes` counts those already made; the result is the final outcome together
with the total number of passes, or `none` when the fuel is exhausted. -/
def escalation_loop : Nat → Nat → Nat → Nat → Nat → Option (Escalation × Nat)
  | 0, _, _, _, _ => none
  | fuel + 1, idtr_limit, vector, insn_len, passes =>
    match idt_limit_check idtr_limit vector insn_len with
    | Escalation.again v l => escalation_loop fuel idtr_limit v l (passes + 1)
    | r => some (r, passes + 1)

/-- The straight-line tail of `realmode_deliver_exception` (lines 73-98): read
the IDT entry, build the frame, move the stack pointer, store the frame, load
CS:IP and mask eflags.  `cs_eip0` is the indeterminate initial content of the
local `cs_eip`, which the unchecked copy overwrites. -/
def deliver_frame (cs_eip0 vector insn_len : Nat) (s : Machine) : Machine :=
  let idtr := s.rm_ctxt.seg_reg x86_seg_idtr
  let csr := s.rm_ctxt.seg_reg x86_seg_cs
  let regs := s.regs
  let cs_eip := le_value
    (hvm_copy_from_guest_phys s.mem (le_bytes 4 cs_eip0)
      (u64 (idtr.base + u32 (vector * 4))) 4).1
  let frame0 := u16 (regs.eip + insn_len)
  let frame1 := csr.sel
  let frame2 := u16 (regs.eflags &&& not_ulong X86_EFLAGS_RF)
  let esp :=
    if s.rm_ctxt.addr_size = 32 then u64 (regs.esp + 2 ^ 64 - 4)
    else (regs.esp &&& not_ulong 0xffff) ||| u16 (u64 (regs.esp + 2 ^ 64 - 4))
  let pstk0 :=
    if s.rm_ctxt.addr_size = 32 then u32 esp
    else u16 (u64 (regs.esp + 2 ^ 64 - 4))
  let pstk := u32 (pstk0 + (s.rm_ctxt.seg_reg x86_seg_ss).base)
  let mem := (hvm_copy_to_guest_phys s.mem pstk
    (le_bytes 2 frame0 ++ le_bytes 2 frame1 ++ le_bytes 2 frame2) 6).1
  let sel := u16 (cs_eip >>> 16)
  let csr := { csr with sel := sel, base := u32 (u32 sel <<< 4) }
  { s with
    regs := { regs with
      eip := u16 cs_eip
      esp := esp
      eflags := regs.eflags &&&
        not_ulong (X86_EFLAGS_AC ||| X86_EFLAGS_TF ||| X86_EFLAGS_AC ||| X86_EFLAGS_RF) }
    mem := mem
    rm_ctxt := { s.rm_ctxt with
      seg_reg := fun seg => if seg = x86_seg_cs then csr else s.rm_ctxt.seg_reg seg } }

/-- The function `realmode_deliver_exception`: the escalation loop followed by
either the triple-fault handler or the frame delivery.  The result is `none`
only when `fuel` passes through the limit check were not enough. -/
def realmode_deliver_exception (fuel cs_eip0 vector insn_len : Nat) (s : Machine) :
    Option Machine :=
  match escalation_loop fuel (s.rm_ctxt.seg_reg x86_seg_idtr).limit vector insn_len 0 with
  | none => none
  | some (Escalation.deliver v l, _) => some (deliver_frame cs_eip0 v l s)
  | some (_, _) => some (hvm_triple_fault s)

/-! ## Memory access shim -/

/-- The access kinds of `enum hvm_access_type` used by the shim. -/
inductive hvm_access_type where
  | hvm_access_insn_fetch | hvm_access_read | hvm_access_write
  deriving DecidableEq, Repr

open hvm_access_type

/-- The function `realmode_read` (lines 101-145).  The result is the return
code, the content of `*val` at return, and the machine state. -/
def realmode_read (seg : x86_segment) (offset bytes : Nat)
    (access_type : hvm_access_type) (s : Machine) : Int × Nat × Machine :=
  let _ := access_type
  let addr := u32 ((s.rm_ctxt.seg_reg seg).base + offset)
  -- *val = 0; todo = hvm_copy_from_guest_phys(val, addr, bytes);
  let r := hvm_copy_from_guest_phys s.mem (le_bytes 8 0) addr bytes
  let val := le_value r.1
  let todo := r.2
  if todo ≠ 0 then
    if todo ≠ bytes then
      (X86EMUL_UNHANDLEABLE, val, s)
    else if s.hvm_vmx.real_mode_io_in_progress then
      (X86EMUL_UNHANDLEABLE, val, s)
    else
      let s1 :=
        if !s.hvm_vmx.real_mode_io_completed then
          send_mmio_req IOREQ_TYPE_COPY addr 1 bytes 0 IOREQ_READ
            { s with hvm_vmx := { s.hvm_vmx with real_mode_io_in_progress := true } }
        else s
      if !s1.hvm_vmx.real_mode_io_completed then
        (X86EMUL_UNHANDLEABLE, val, s1)
      else
        (X86EMUL_OKAY, s1.hvm_vmx.real_mode_io_data,
          { s1 with hvm_vmx := { s1.hvm_vmx with real_mode_io_completed := false } })
  else
    (X86EMUL_OKAY, val, s)

/-- The function `realmode_emulate_read` (lines 147-158). -/
def realmode_emulate_read (seg : x86_segment) (offset bytes : Nat) (s : Machine) :
    Int × Nat × Machine :=
  realmode_read seg offset bytes hvm_access_read s

/-- The function `realmode_emulate_insn_fetch` (lines 160-182). -/
def realmode_emulate_insn_fetch (seg : x86_segment) (offset bytes : Nat) (s : Machine) :
    Int × Nat × Machine :=
  let insn_off := u32 (u64 (offset + 2 ^ 64 - s.rm_ctxt.insn_buf_eip))
  -- Fall back if requested bytes are not in the prefetch cache.
  if u32 (insn_off + bytes) > 16 then
    realmode_read seg offset bytes hvm_access_insn_fetch s
  else
    -- Hit the cache. Simple memcpy.
    (X86EMUL_OKAY, le_value ((s.rm_ctxt.insn_buf.drop insn_off).take bytes), s)

/-- The function `realmode_emulate_write` (lines 184-219). -/
def realmode_emulate_write (seg : x86_segment) (offset val bytes : Nat) (s : Machine) :
    Int × Machine :=
  let addr := u32 ((s.rm_ctxt.seg_reg seg).base + offset)
  let r := hvm_copy_to_guest_phys s.mem addr (le_bytes 8 val) bytes
  let s0 := { s with mem := r.1 }
  let todo := r.2
  if todo ≠ 0 then
    if todo ≠ bytes then
      (X86EMUL_UNHANDLEABLE, s0)
    else if s0.hvm_vmx.real_mode_io_in_progress then
      (X86EMUL_UNHANDLEABLE, s0)
    else
      (X86EMUL_OKAY,
        send_mmio_req IOREQ_TYPE_COPY addr 1 bytes val IOREQ_WRITE
          { s0 with hvm_vmx := { s0.hvm_vmx with real_mode_io_in_progress := true } })
  else
    (X86EMUL_OKAY, s0)

/-! ## Port I/O -/

/-- The function `realmode_read_io` (lines 265-290).  When the return code is
not ok, `*val` is not written and the second component is `none`. -/
def realmode_read_io (port bytes : Nat) (s : Machine) : Int × Option Nat × Machine :=
  if s.hvm_vmx.real_mode_io_in_progress then
    (X86EMUL_UNHANDLEABLE, none, s)
  else
    let s1 :=
      if !s.hvm_vmx.real_mode_io_completed then
        send_pio_req port 1 bytes 0 IOREQ_READ
          { s with hvm_vmx := { s.hvm_vmx with real_mode_io_in_progress := true } }
      else s
    if !s1.hvm_vmx.real_mode_io_completed then
      (X86EMUL_UNHANDLEABLE, none, s1)
    else
      (X86EMUL_OKAY, some s1.hvm_vmx.real_mode_io_data,
        { s1 with hvm_vmx := { s1.hvm_vmx with real_mode_io_completed := false } })

/-- The function `realmode_write_io` (lines 292-313). -/
def realmode_write_io (port bytes val : Nat) (s : Machine) : Int × Machine :=
  if port = 0xe9 then
    (X86EMUL_OKAY, hvm_print_line val s)
  else if s.hvm_vmx.real_mode_io_in_progress then
    (X86EMUL_UNHANDLEABLE, s)
  else
    (X86EMUL_OKAY,
      send_pio_req port 1 bytes val IOREQ_WRITE
        { s with hvm_vmx := { s.hvm_vmx with real_mode_io_in_progress := true } })

/-! ## I/O completion -/

/-- The function `vmx_realmode_io_complete` (lines 452-474); `p` is the
response found in the shared I/O request slot of the vCPU. -/
def vmx_realmode_io_complete (p : ioreq_t) (s : Machine) : Int × Machine :=
  if !s.hvm_vmx.real_mode_io_in_progress then
    (0, s)
  else
    let vmx := { s.hvm_vmx with real_mode_io_in_progress := false }
    let vmx :=
      if p.dir = IOREQ_READ then
        { vmx with real_mode_io_completed := true, real_mode_io_data := p.data }
      else vmx
    (1, { s with hvm_vmx := vmx })

/-! ## Segment, control-register, flags and injection callbacks -/

def VMX_INTR_SHADOW_STI : Nat := 0x00000001
def VMX_INTR_SHADOW_MOV_SS : Nat := 0x00000002

/-- The function `realmode_read_segment` (lines 233-243): the result is the
return code, the content of `*reg` and the machine state. -/
def realmode_read_segment (seg : x86_segment) (s : Machine) :
    Int × segment_register × Machine :=
  (X86EMUL_OKAY, s.rm_ctxt.seg_reg seg, s)

/-- The function `realmode_write_segment` (lines 245-263).  The local
`intr_shadow` is a `u32`. -/
def realmode_write_segment (seg : x86_segment) (reg : segment_register) (s : Machine) :
    Int × Machine :=
  let s1 := { s with rm_ctxt := { s.rm_ctxt with
      seg_reg := fun x => if x = seg then reg else s.rm_ctxt.seg_reg x } }
  if seg = x86_seg_ss then
    let intr_shadow := u32 s1.guest_interruptibility_info
    let intr_shadow := intr_shadow ^^^ VMX_INTR_SHADOW_MOV_SS
    (X86EMUL_OKAY, { s1 with guest_interruptibility_info := intr_shadow })
  else
    (X86EMUL_OKAY, s1)

/-- The function `realmode_read_cr` (lines 315-334).  When the return code is
not ok, `*val` is not written and the second component is `none`. -/
def realmode_read_cr (reg : Nat) (s : Machine) : Int × Option Nat × Machine :=
  match reg with
  | 0 => (X86EMUL_OKAY, some (s.guest_cr reg), s)
  | 2 => (X86EMUL_OKAY, some (s.guest_cr reg), s)
  | 3 => (X86EMUL_OKAY, some (s.guest_cr reg), s)
  | 4 => (X86EMUL_OKAY, some (s.guest_cr reg), s)
  | _ => (X86EMUL_UNHANDLEABLE, none, s)

/-- The function `realmode_write_rflags` (lines 336-348). -/
def realmode_write_rflags (val : Nat) (s : Machine) : Int × Machine :=
  if val &&& X86_EFLAGS_IF ≠ 0 ∧ ¬ (s.regs.eflags &&& X86_EFLAGS_IF ≠ 0) then
    let intr_shadow := u32 s.guest_interruptibility_info
    let intr_shadow := intr_shadow ^^^ VMX_INTR_SHADOW_STI
    (X86EMUL_OKAY, { s with guest_interruptibility_info := intr_shadow })
  else
    (X86EMUL_OKAY, s)

/-- The function `realmode_inject_hw_exception` (lines 350-360); the vector
is a `uint8_t`.  The result is `none` only when the delivery ran out of
fuel. -/
def realmode_inject_hw_exception (fuel cs_eip0 vector : Nat) (s : Machine) :
    Option (Int × Machine) :=
  match realmode_deliver_exception fuel cs_eip0 (u8 vector) 0 s with
  | none => none
  | some s' => some (X86EMUL_OKAY, s')

/-- The function `realmode_inject_sw_interrupt` (lines 362-373); the vector
and the instruction length are `uint8_t`. -/
def realmode_inject_sw_interrupt (fuel cs_eip0 vector insn_len : Nat) (s : Machine) :
    Option (Int × Machine) :=
  match realmode_deliver_exception fuel cs_eip0 (u8 vector) (u8 insn_len) s with
  | none => none
  | some s' => some (X86EMUL_OKAY, s')

/-- One callback invocation of a decode step that performs no memory or port
access: a segment, control-register or flags callback, an injection, or an
instruction fetch. -/
inductive QuietOp where
  | read_segment (seg : x86_segment)
  | write_segment (seg : x86_segment) (reg : segment_register)
  | read_cr (reg : Nat)
  | write_rflags (val : Nat)
  | inject_hw_exception (vector : Nat)
  | inject_sw_interrupt (vector insn_len : Nat)
  | insn_fetch (seg : x86_segment) (offset bytes : Nat)

/-- The machine state after one such callback. -/
def QuietOp.exec (fuel cs_eip0 : Nat) (s : Machine) : QuietOp → Option Machine
  | QuietOp.read_segment seg => some (realmode_read_segment seg s).2.2
  | QuietOp.write_segment seg reg => some (realmode_write_segment seg reg s).2
  | QuietOp.read_cr reg => some (realmode_read_cr reg s).2.2
  | QuietOp.write_rflags val => some (realmode_write_rflags val s).2
  | QuietOp.inject_hw_exception vector =>
    (realmode_inject_hw_exception fuel cs_eip0 vector s).map Prod.snd
  | QuietOp.inject_sw_interrupt vector insn_len =>
    (realmode_inject_sw_interrupt fuel cs_eip0 vector insn_len s).map Prod.snd
  | QuietOp.insn_fetch seg offset bytes =>
    some (realmode_emulate_insn_fetch seg offset bytes s).2.2

/-- The machine state after the callbacks of one decode step, first to
last. -/
def quiet_step (fuel cs_eip0 : Nat) : Machine → List QuietOp → Option Machine
  | s, [] => some s
  | s, op :: ops =>
    match op.exec fuel cs_eip0 s with
    | none => none
    | some s1 => quiet_step fuel cs_eip0 s1 ops

/-- Every instruction fetch among the callbacks passes the window test of
`realmode_emulate_insn_fetch` for a window anchored at `eip`, so that it is
served from the prefetch window. -/
def fetches_from_window (eip : Nat) : List QuietOp → Prop
  | [] => True
  | QuietOp.insn_fetch _ offset bytes :: ops =>
    u32 (u32 (u64 (offset + 2 ^ 64 - eip)) + bytes) ≤ 16 ∧ fetches_from_window eip ops
  | _ :: ops => fetches_from_window eip ops

/-! ## Sequences of shim operations -/

/-- One call of an operation that reads or writes the I/O continuation
state, with its arguments. -/
inductive ShimOp where
  | read (seg : x86_segment) (offset bytes : Nat) (access_type : hvm_access_type)
  | insn_fetch (seg : x86_segment) (offset bytes : Nat)
  | write (seg : x86_segment) (offset val bytes : Nat)
  | read_io (port bytes : Nat)
  | write_io (port bytes val : Nat)
  | io_complete (p : ioreq_t)

/-- The machine state after one operation. -/
def ShimOp.exec (s : Machine) : ShimOp → Machine
  | ShimOp.read seg offset bytes a => (realmode_read seg offset bytes a s).2.2
  | ShimOp.insn_fetch seg offset bytes => (realmode_emulate_insn_fetch seg offset bytes s).2.2
  | ShimOp.write seg offset val bytes => (realmode_emulate_write seg offset val bytes s).2
  | ShimOp.read_io port bytes => (realmode_read_io port bytes s).2.2
  | ShimOp.write_io port bytes val => (realmode_write_io port bytes val s).2
  | ShimOp.io_complete p => (vmx_realmode_io_complete p s).2

/-- The machine state after a sequence of operations, first to last. -/
def run_ops (s : Machine) (ops : List ShimOp) : Machine :=
  ops.foldl ShimOp.exec s

/-- The two continuation flags are not both set. -/
def io_flags_exclusive (s : Machine) : Prop :=
  ¬ (s.hvm_vmx.real_mode_io_in_progress = true ∧ s.hvm_vmx.real_mode_io_completed = true)

/-- Whether an operation entered in state `s` is a write that the shim
forwards to the device model: a memory write none of whose bytes could be
copied (the residual of the copy is nonzero and equal to `bytes`, lines
199-213), or a port write to a port other than `0xE9` (lines 300-309), made
while no request is outstanding.  Reads, completions, writes to RAM, writes to the
debug port and writes refused because a request is outstanding are not
forwarded. -/
def ShimOp.forwards_write (s : Machine) : ShimOp → Bool
  | ShimOp.write seg offset val bytes =>
    let todo := (hvm_copy_to_guest_phys s.mem
      (u32 ((s.rm_ctxt.seg_reg seg).base + offset)) (le_bytes 8 val) bytes).2
    decide (todo ≠ 0) && decide (todo = bytes) && !s.hvm_vmx.real_mode_io_in_progress
  | ShimOp.write_io port _ _ =>
    decide (port ≠ 0xe9) && !s.hvm_vmx.real_mode_io_in_progress
  | _ => false

/-- A sequence of operations in which every write that is forwarded to the
device model is entered with `real_mode_io_completed` clear. -/
def forwarded_writes_after_consumption : Machine → List ShimOp → Prop
  | _, [] => True
  | s, op :: ops =>
    (op.forwards_write s = true → s.hvm_vmx.real_mode_io_completed = false) ∧
    forwarded_writes_after_consumption (op.exec s) ops

/-! ## The dispatch loop (`vmx_realmode`) -/

def X86_CR0_PE : Nat := 0x00000001
def INTR_INFO_VALID_MASK : Nat := 0x80000000
def EINVAL : Int := 22

/-- Modelled from the spec: the collaborators of the dispatch loop that are
outside the sources.  `x86_emulate` is the decoder contract
`decode_and_execute(ctx, ops)` with the callback table already applied;
`softirq_pending` and `hvm_local_events_need_delivery` are sampled at the top
of each iteration and, being set asynchronously, may depend on the number of
the iteration as well as on the state. -/
structure Runtime where
  x86_emulate : Machine → Int × Machine
  softirq_pending : Nat → Machine → Bool
  hvm_local_events_need_delivery : Nat → Machine → Bool

/-- What `vmx_realmode` hands back: the return code and the final state,
together with the record of the decode steps made (the return code of each
step and the state right after it). -/
structure realmode_exit where
  rc : Int
  final : Machine
  steps : List (Int × Machine)

/-- The window refill at the top of the loop body (lines 418-422). -/
def prefetch (s : Machine) : Machine :=
  { s with rm_ctxt := { s.rm_ctxt with
      insn_buf_eip := s.regs.eip
      insn_buf := (hvm_copy_from_guest_phys s.mem s.rm_ctxt.insn_buf
        (u32 ((s.rm_ctxt.seg_reg x86_seg_cs).base + s.regs.eip)) 16).1 } }

/-- The `while` loop of `vmx_realmode` (lines 414-444).  `fuel` bounds the
number of evaluations of the loop condition, `iter` numbers the current one,
`rc` is the current value of the local `rc` and `steps` the decode steps made
so far; the result is `none` when the fuel is exhausted. -/
def vmx_realmode_loop (rt : Runtime) :
    Nat → Nat → Int → Machine → List (Int × Machine) → Option realmode_exit
  | 0, _, _, _, _ => none
  | fuel + 1, iter, rc, s, steps =>
    if s.guest_cr 0 &&& X86_CR0_PE = 0 ∧ rt.softirq_pending iter s = false ∧
        rt.hvm_local_events_need_delivery iter s = false then
      let r := rt.x86_emulate (prefetch s)
      if r.2.hvm_vmx.real_mode_io_in_progress then
        some ⟨0, r.2, steps ++ [r]⟩
      else if r.1 = X86EMUL_UNHANDLEABLE then
        some ⟨-EINVAL, r.2, steps ++ [r]⟩
      else
        vmx_realmode_loop rt fuel (iter + 1) r.1 r.2 (steps ++ [r])
    else
      some ⟨rc, s, steps⟩

/-- Entry to `vmx_realmode` (lines 397-405): the ten segment registers are
read from the runtime into the snapshot, then the address and stack sizes are
derived from the `db` bits of CS and SS. -/
def load_segments (s : Machine) : Machine :=
  let s := { s with rm_ctxt := { s.rm_ctxt with seg_reg := s.guest_seg } }
  { s with rm_ctxt := { s.rm_ctxt with
      addr_size := if (s.rm_ctxt.seg_reg x86_seg_cs).attr.db then 32 else 16
      sp_size := if (s.rm_ctxt.seg_reg x86_seg_ss).attr.db then 32 else 16 } }

/-- Consumption of a pending VM-entry injection (lines 407-412). -/
def inject_pending (fuel cs_eip0 : Nat) (s : Machine) : Option Machine :=
  let intr_info := s.vm_entry_intr_info
  if intr_info &&& INTR_INFO_VALID_MASK ≠ 0 then
    realmode_deliver_exception fuel cs_eip0 (u8 intr_info) 0
      { s with vm_entry_intr_info := 0 }
  else some s

/-- Exit from `vmx_realmode` (lines 446-447): the ten snapshot entries are
written back to the runtime. -/
def store_segments (s : Machine) : Machine :=
  { s with guest_seg := s.rm_ctxt.seg_reg }

/-- The function `vmx_realmode` (lines 390-450): load the segment registers,
consume a pending VM-entry injection, run the loop, and write the segments
back.  `fuel` bounds both the escalation passes of the delivery and the
evaluations of the loop condition. -/
def vmx_realmode (rt : Runtime) (fuel cs_eip0 : Nat) (s : Machine) : Option realmode_exit :=
  match inject_pending fuel cs_eip0 (load_segments s) with
  | none => none
  | some s =>
    match vmx_realmode_loop rt fuel 0 0 s [] with
    | none => none
    | some r => some { r with final := store_segments r.final }

/-- A decoder that fails on every instruction; nothing is ever pending. -/
def failing_decoder : Runtime where
  x86_emulate := fun s => (X86EMUL_UNHANDLEABLE, s)
  softirq_pending := fun _ _ => false
  hvm_local_events_need_delivery := fun _ _ => false

/-- A decoder whose every instruction is a byte load from `DS:B8000`. -/
def mmio_load_decoder : Runtime where
  x86_emulate := fun s =>
    ((realmode_read x86_seg_ds 0xb8000 1 hvm_access_read s).1,
      (realmode_read x86_seg_ds 0xb8000 1 hvm_access_read s).2.2)
  softirq_pending := fun _ _ => false
  hvm_local_events_need_delivery := fun _ _ => false

/-! ## Reading guest memory in specifications -/

/-- The little-endian value of the `n` bytes of guest memory at `addr`. -/
def GuestMem.load (m : GuestMem) (addr : Nat) : Nat → Nat
  | 0 => 0
  | n + 1 => u8 (m.byte addr) + 2 ^ 8 * m.load (addr + 1) n

/-- All `n` bytes from `addr` on lie in RAM pages. -/
def GuestMem.backed (m : GuestMem) (addr n : Nat) : Prop :=
  ∀ i, i < n → m.ram ((addr + i) >>> PAGE_SHIFT) = true

/-- The stack pointer as the delivery code uses it: the low 32 bits of ESP
when `addr_size` is 32, the low 16 bits otherwise. -/
def stack_pointer (s : Machine) : Nat :=
  if s.rm_ctxt.addr_size = 32 then u32 s.regs.esp else u16 s.regs.esp

/-- The linear address `SS.base + SP`, truncated to 32 bits. -/
def stack_linear (s : Machine) : Nat :=
  u32 ((s.rm_ctxt.seg_reg x86_seg_ss).base + stack_pointer s)

/-- The guest physical address of the IDT entry of a vector. -/
def idt_entry_address (s : Machine) (vector : Nat) : Nat :=
  u64 ((s.rm_ctxt.seg_reg x86_seg_idtr).base + 4 * vector)

/-- The machine with the limit of the cached IDTR replaced. -/
def set_idtr_limit (s : Machine) (limit : Nat) : Machine :=
  { s with rm_ctxt := { s.rm_ctxt with
      seg_reg := fun seg =>
        if seg = x86_seg_idtr then { s.rm_ctxt.seg_reg x86_seg_idtr with limit := limit }
        else s.rm_ctxt.seg_reg seg } }

/-- The segment registers of `int21_machine`. -/
def int21_segs : x86_segment → segment_register := fun seg =>
  match seg with
  | x86_seg_cs => ⟨0xf000, ⟨false, 0⟩, 0xffff, 0xf0000⟩
  | x86_seg_idtr => ⟨0, ⟨false, 0⟩, 0x3ff, 0⟩
  | _ => ⟨0, ⟨false, 0⟩, 0xffff, 0⟩

/-- A machine whose memory is all RAM and holds `0x12340056` at `0x84`: the
state before `INT 21h` at `F000:0100` with `SP = 7FFE`. -/
def int21_machine : Machine where
  regs := { eip := 0x100, esp := 0x7ffe, eflags := 0x10202, eax := 0, ebx := 0, ecx := 0,
            edx := 0, esi := 0, edi := 0, ebp := 0 }
  rm_ctxt := {
    addr_size := 16
    sp_size := 16
    insn_buf := List.replicate 16 0
    insn_buf_eip := 0x100
    seg_reg := int21_segs }
  mem := {
    ram := fun _ => true
    byte := fun a =>
      if a = 0x84 then 0x56 else if a = 0x85 then 0x00
      else if a = 0x86 then 0x34 else if a = 0x87 then 0x12 else 0 }
  hvm_vmx := ⟨false, false, 0⟩
  ioreqs := []
  guest_interruptibility_info := 0
  vm_entry_intr_info := 0
  guest_cr := fun _ => 0
  triple_faults := 0
  debug_console := []
  guest_seg := int21_segs

/-- A machine with a 32-bit code segment and a 16-bit stack segment
(`addr_size = 32`, `sp_size = 16`) and `ESP = 0x00010002`. -/
def sp16_addr32_machine : Machine :=
  { int21_machine with
    regs := { int21_machine.regs with esp := 0x10002 }
    rm_ctxt := { int21_machine.rm_ctxt with
      addr_size := 32
      sp_size := 16
      seg_reg := fun seg =>
        if seg = x86_seg_cs then ⟨0xf000, ⟨true, 0⟩, 0xffff, 0xf0000⟩
        else int21_machine.rm_ctxt.seg_reg seg } }

/-- A machine whose page frame `0xB8` is not RAM, so that `0xB8000` is
memory-mapped I/O; no I/O is outstanding. -/
def mmio_machine : Machine :=
  { int21_machine with
    mem := { ram := fun gfn => decide (gfn ≠ 0xb8), byte := fun _ => 0 } }

/-- The machine `mmio_machine` with an I/O request outstanding. -/
def busy_machine : Machine :=
  { mmio_machine with hvm_vmx := ⟨true, false, 0⟩ }

/-- The machine `mmio_machine` with a completed read holding `0x37`. -/
def completed_machine : Machine :=
  { mmio_machine with hvm_vmx := ⟨false, true, 0x37⟩ }

/-- The machine `int21_machine` with the page frame of `CS:00FF` (`0xF0`) not
RAM and the prefetch window anchored at `0x100`. -/
def unbacked_code_machine : Machine :=
  { int21_machine with
    mem := { ram := fun gfn => decide (gfn ≠ 0xf0), byte := fun _ => 0 } }

/-- The machine `int21_machine` with the MOV-SS shadow bit already set in the
guest interruptibility field. -/
def mov_ss_shadow_machine : Machine :=
  { int21_machine with guest_interruptibility_info := VMX_INTR_SHADOW_MOV_SS }

/-- The machine `int21_machine` with interrupts disabled (`IF = 0`). -/
def if_clear_machine : Machine :=
  { int21_machine with regs := { int21_machine.regs with eflags := 0x2 } }

/-- The machine `int21_machine` with a VM-entry injection of vector `0x21`
pending (valid bit set). -/
def pending_intr_machine : Machine :=
  { int21_machine with vm_entry_intr_info := 0x80000021 }

/-- A decoder whose every instruction loads DS with the selector `0x10`
through `realmode_write_segment`, leaves `CR0.PE` set in the guest's CR0
shadow and returns ok. -/
def mode_switch_decoder : Runtime where
  x86_emulate := fun s =>
    (X86EMUL_OKAY,
      { (realmode_write_segment x86_seg_ds ⟨0x10, ⟨true, 0⟩, 0xffffffff, 0⟩ s).2 with
        guest_cr := fun n => if n = 0 then 1 else s.guest_cr n })
  softirq_pending := fun _ _ => false
  hvm_local_events_need_delivery := fun _ _ => false

/-- The machine `mmio_machine` with a completed read holding the 16-bit
value `0x1234`. -/
def wide_completed_machine : Machine :=
  { mmio_machine with hvm_vmx := ⟨false, true, 0x1234⟩ }

/-- A decoder whose instruction reloads CS with a 32-bit code segment through
`realmode_write_segment` and then fails. -/
def reload_cs_decoder : Runtime where
  x86_emulate := fun s =>
    (X86EMUL_UNHANDLEABLE,
      (realmode_write_segment x86_seg_cs ⟨0xf000, ⟨true, 0⟩, 0xffff, 0xf0000⟩ s).2)
  softirq_pending := fun _ _ => false
  hvm_local_events_need_delivery := fun _ _ => false

/-- The machine `int21_machine` with the bytes `CD 21` (`INT 21h`) at
`F000:0100`. -/
def int21_code_machine : Machine :=
  { int21_machine with
    mem := {
      ram := fun _ => true
      byte := fun a =>
        if a = 0xf0100 then 0xcd else if a = 0xf0101 then 0x21 else int21_machine.mem.byte a } }

/-- The machine `int21_machine` with the page frame of the stack (`0x7`,
holding `SS:7FFA..7FFF`) not RAM; the IDT page is RAM. -/
def unbacked_stack_machine : Machine :=
  { int21_machine with
    mem := { ram := fun gfn => decide (gfn ≠ 0x7), byte := int21_machine.mem.byte } }

/-- A machine with a 32-bit code segment (`addr_size = 32`), `SS.base =
0xFFFF0` and `ESP = 0xFFF00020`, so that `SS.base + ESP` is `0x100000010`,
above `2^32`; all of memory is RAM. -/
def wrapped_stack_machine : Machine :=
  { int21_machine with
    regs := { int21_machine.regs with esp := 0xfff00020 }
    rm_ctxt := { int21_machine.rm_ctxt with
      addr_size := 32
      sp_size := 32
      seg_reg := fun seg =>
        if seg = x86_seg_cs then ⟨0xf000, ⟨true, 0⟩, 0xffff, 0xf0000⟩
        else if seg = x86_seg_ss then ⟨0xffff, ⟨true, 0⟩, 0xffffffff, 0xffff0⟩
        else int21_machine.rm_ctxt.seg_reg seg } }

/-- The machine holding `CD 21` at `F000:0100` after the window refill at
`F000:0100` followed by a reload of CS, through `realmode_write_segment`, with
selector 0 and base 0; guest memory, the window and its anchor are as the
refill left them. -/
def cs_reloaded_machine : Machine :=
  (realmode_write_segment x86_seg_cs ⟨0, ⟨false, 0⟩, 0xffff, 0⟩
    (prefetch int21_code_machine)).2

/-! ## Basic facts -/

theorem u32_last_byte (v : Nat) (hv : v ≤ 255) : u32 (u32 (v * 4) + 3) = 4 * v + 3 := by
  unfold u32
  omega

theorem idt_limit_check_present (limit v l : Nat)
    (h : u32 (u32 (v * 4) + 3) ≤ limit) :
    idt_limit_check limit v l = Escalation.deliver v l := by
  unfold idt_limit_check
  simp only []
  rw [if_neg (by omega)]

theorem idt_limit_check_missing (limit v l : Nat)
    (h : limit < u32 (u32 (v * 4) + 3)) :
    idt_limit_check limit v l =
      if l ≠ 0 then Escalation.again TRAP_gp_fault 0
      else if v = TRAP_double_fault then Escalation.triple_fault
      else if v = TRAP_gp_fault then Escalation.again TRAP_double_fault 0
      else Escalation.again TRAP_gp_fault 0 := by
  unfold idt_limit_check
  simp only []
  rw [if_pos h]
  by_cases hl : l = 0
  · subst hl; simp
  · simp [hl]

theorem escalation_loop_present (fuel limit v l p : Nat)
    (h : u32 (u32 (v * 4) + 3) ≤ limit) :
    escalation_loop (fuel + 1) limit v l p = some (Escalation.deliver v l, p + 1) := by
  simp [escalation_loop, idt_limit_check_present limit v l h]

theorem deliver_present (fuel cs_eip0 v l : Nat) (s : Machine)
    (h : u32 (u32 (v * 4) + 3) ≤ (s.rm_ctxt.seg_reg x86_seg_idtr).limit) :
    realmode_deliver_exception (fuel + 1) cs_eip0 v l s = some (deliver_frame cs_eip0 v l s) := by
  simp [realmode_deliver_exception, escalation_loop_present fuel _ v l 0 h]

theorem copy_from_backed4 (m : GuestMem) (a b0 b1 b2 b3 : Nat) (h : m.backed a 4) :
    hvm_copy_from_guest_phys m [b0, b1, b2, b3] a 4 =
      ([u8 (m.byte a), u8 (m.byte (a + 1)), u8 (m.byte (a + 2)), u8 (m.byte (a + 3))], 0) := by
  have h0 := h 0 (by omega)
  have h1 := h 1 (by omega)
  have h2 := h 2 (by omega)
  have h3 := h 3 (by omega)
  simp only [Nat.add_zero] at h0
  simp [hvm_copy_from_guest_phys, copy_from_loop, h0, h1, h2, h3, Nat.add_assoc]

theorem le_value4_eq_load (m : GuestMem) (a : Nat) :
    le_value [u8 (m.byte a), u8 (m.byte (a + 1)), u8 (m.byte (a + 2)), u8 (m.byte (a + 3))] =
      m.load a 4 := by
  simp [le_value, GuestMem.load, Nat.add_assoc]


/-! ## Bit-level facts -/

theorem testBit_eq_false_of_lt (x n i : Nat) (hx : x < 2 ^ n) (hi : n ≤ i) :
    x.testBit i = false :=
  Nat.testBit_lt_two_pow (lt_of_lt_of_le hx (Nat.pow_le_pow_right (by decide) hi))

theorem testBit_not_ulong (c i : Nat) (hc : c < 2 ^ 64) :
    (not_ulong c).testBit i = (decide (i < 64) && !c.testBit i) := by
  have h : not_ulong c = 2 ^ 64 - (c + 1) := by unfold not_ulong; omega
  rw [h, Nat.testBit_two_pow_sub_succ hc]

theorem low16_of_merge (x y : Nat) (hy : y < 2 ^ 16) :
    u16 ((x &&& not_ulong 0xffff) ||| y) = y := by
  apply Nat.eq_of_testBit_eq
  intro i
  have hm : (0xffff : Nat) = 2 ^ 16 - 1 := by norm_num
  unfold u16
  rw [Nat.testBit_mod_two_pow, Nat.testBit_or, Nat.testBit_and,
    testBit_not_ulong _ _ (by norm_num), hm, Nat.testBit_two_pow_sub_one]
  by_cases h16 : i < 16
  · simp [h16]
  · simp [h16, testBit_eq_false_of_lt y 16 i hy (by omega)]

theorem eflags_mask_value :
    X86_EFLAGS_AC ||| X86_EFLAGS_TF ||| X86_EFLAGS_AC ||| X86_EFLAGS_RF = 0x50100 := by
  decide

theorem testBit_eflags_mask (i : Nat) (hi : i < 64) :
    (0x50100 : Nat).testBit i = decide (i = 8 ∨ i = 16 ∨ i = 18) := by
  interval_cases i <;> decide

theorem testBit_clear_flags (x i : Nat) (hx : x < 2 ^ 64) :
    (x &&& not_ulong (X86_EFLAGS_AC ||| X86_EFLAGS_TF ||| X86_EFLAGS_AC ||| X86_EFLAGS_RF)).testBit i
      = (x.testBit i && !decide (i = 8 ∨ i = 16 ∨ i = 18)) := by
  rw [eflags_mask_value, Nat.testBit_and, testBit_not_ulong _ _ (by norm_num)]
  by_cases h64 : i < 64
  · rw [testBit_eflags_mask i h64]; simp [h64]
  · have h1 : ¬ (i = 8 ∨ i = 16 ∨ i = 18) := by omega
    simp [h64, h1, testBit_eq_false_of_lt x 64 i hx (by omega)]

/-! ## Facts about the copy routines -/

theorem copy_to_backed6 (m : GuestMem) (a b0 b1 b2 b3 b4 b5 : Nat) (h : m.backed a 6) :
    hvm_copy_to_guest_phys m a [b0, b1, b2, b3, b4, b5] 6 =
      ({ ram := m.ram
         byte := fun x =>
           if x = a + 5 then u8 b5 else if x = a + 4 then u8 b4
           else if x = a + 3 then u8 b3 else if x = a + 2 then u8 b2
           else if x = a + 1 then u8 b1 else if x = a then u8 b0 else m.byte x }, 0) := by
  have h0 := h 0 (by omega)
  have h1 := h 1 (by omega)
  have h2 := h 2 (by omega)
  have h3 := h 3 (by omega)
  have h4 := h 4 (by omega)
  have h5 := h 5 (by omega)
  simp only [Nat.add_zero] at h0
  simp [hvm_copy_to_guest_phys, copy_to_loop, GuestMem.store, h0, h1, h2, h3, h4, h5,
    Nat.add_assoc]

/-! ## Facts about the frame delivery -/

theorem deliver_frame_cs_eip (cs_eip0 v l : Nat) (s : Machine) (hv : v ≤ 255)
    (hidt : s.mem.backed (idt_entry_address s v) 4) :
    ((deliver_frame cs_eip0 v l s).rm_ctxt.seg_reg x86_seg_cs).sel =
        u16 (s.mem.load (idt_entry_address s v) 4 >>> 16) ∧
    (deliver_frame cs_eip0 v l s).regs.eip = u16 (s.mem.load (idt_entry_address s v) 4) := by
  have hv4 : u32 (v * 4) = 4 * v := by unfold u32; omega
  unfold idt_entry_address at hidt ⊢
  simp only [deliver_frame, hv4, le_bytes, copy_from_backed4 _ _ _ _ _ _ hidt, le_value4_eq_load]
  simp

theorem deliver_frame_cs_base (cs_eip0 v l : Nat) (s : Machine) :
    ((deliver_frame cs_eip0 v l s).rm_ctxt.seg_reg x86_seg_cs).base =
      ((deliver_frame cs_eip0 v l s).rm_ctxt.seg_reg x86_seg_cs).sel <<< 4 := by
  simp only [deliver_frame, if_true]
  generalize le_value _ >>> 16 = x
  simp only [Nat.shiftLeft_eq, u32, u16]
  omega

theorem deliver_frame_stack_linear (cs_eip0 v l : Nat) (s : Machine) :
    stack_linear (deliver_frame cs_eip0 v l s) =
      u32 ((if s.rm_ctxt.addr_size = 32 then u32 (u64 (s.regs.esp + 2 ^ 64 - 4))
            else u16 (u64 (s.regs.esp + 2 ^ 64 - 4))) + (s.rm_ctxt.seg_reg x86_seg_ss).base) := by
  have hlo : u16 (u64 (s.regs.esp + 2 ^ 64 - 4)) < 2 ^ 16 := Nat.mod_lt _ (by norm_num)
  by_cases h : s.rm_ctxt.addr_size = 32
  · simp [stack_linear, stack_pointer, deliver_frame, h, Nat.add_comm]
  · simp only [stack_linear, stack_pointer, deliver_frame, h, if_false]
    rw [low16_of_merge _ _ hlo, Nat.add_comm, if_neg (by decide)]

theorem deliver_frame_mem (cs_eip0 v l : Nat) (s : Machine) :
    (deliver_frame cs_eip0 v l s).mem =
      (hvm_copy_to_guest_phys s.mem (stack_linear (deliver_frame cs_eip0 v l s))
        (le_bytes 2 (u16 (s.regs.eip + l)) ++ le_bytes 2 (s.rm_ctxt.seg_reg x86_seg_cs).sel ++
          le_bytes 2 (u16 (s.regs.eflags &&& not_ulong X86_EFLAGS_RF))) 6).1 := by
  rw [deliver_frame_stack_linear]
  by_cases h : s.rm_ctxt.addr_size = 32
  · simp [deliver_frame, h]
  · simp [deliver_frame, h]

theorem frame_in_memory (m : GuestMem) (a w0 w1 w2 : Nat) (h : m.backed a 6) :
    (hvm_copy_to_guest_phys m a (le_bytes 2 w0 ++ le_bytes 2 w1 ++ le_bytes 2 w2) 6).1.load a 2
        = u16 w0 ∧
    (hvm_copy_to_guest_phys m a (le_bytes 2 w0 ++ le_bytes 2 w1 ++ le_bytes 2 w2) 6).1.load
        (a + 2) 2 = u16 w1 ∧
    (hvm_copy_to_guest_phys m a (le_bytes 2 w0 ++ le_bytes 2 w1 ++ le_bytes 2 w2) 6).1.load
        (a + 4) 2 = u16 w2 ∧
    (∀ x, x < a ∨ a + 6 ≤ x →
      (hvm_copy_to_guest_phys m a (le_bytes 2 w0 ++ le_bytes 2 w1 ++ le_bytes 2 w2) 6).1.byte x
        = m.byte x) ∧
    (hvm_copy_to_guest_phys m a (le_bytes 2 w0 ++ le_bytes 2 w1 ++ le_bytes 2 w2) 6).1.ram
        = m.ram := by
  have e : le_bytes 2 w0 ++ le_bytes 2 w1 ++ le_bytes 2 w2 =
      [u8 w0, u8 (w0 / 2 ^ 8), u8 w1, u8 (w1 / 2 ^ 8), u8 w2, u8 (w2 / 2 ^ 8)] := by
    simp [le_bytes]
  rw [e, copy_to_backed6 _ _ _ _ _ _ _ _ h]
  refine ⟨?_, ?_, ?_, ?_, rfl⟩
  · simp [GuestMem.load]
    unfold u8 u16; omega
  · simp [GuestMem.load, Nat.add_assoc]
    unfold u8 u16; omega
  · simp [GuestMem.load, Nat.add_assoc]
    unfold u8 u16; omega
  · intro x hx
    have h5 : x ≠ a + 5 := by omega
    have h4 : x ≠ a + 4 := by omega
    have h3 : x ≠ a + 3 := by omega
    have h2 : x ≠ a + 2 := by omega
    have h1 : x ≠ a + 1 := by omega
    have h0 : x ≠ a := by omega
    simp [h0, h1, h2, h3, h4, h5]

/-! ## Facts about the escalation loop -/

theorem escalation_loop_df (fuel limit p : Nat) :
    escalation_loop (fuel + 1) limit TRAP_double_fault 0 p =
      some (if limit < 35 then Escalation.triple_fault
            else Escalation.deliver TRAP_double_fault 0, p + 1) := by
  by_cases h : limit < 35
  · simp [escalation_loop, idt_limit_check, TRAP_double_fault, u32, h]
  · simp [escalation_loop, idt_limit_check, TRAP_double_fault, u32, h]

theorem escalation_loop_gp (fuel limit p : Nat) :
    escalation_loop (fuel + 2) limit TRAP_gp_fault 0 p =
      if limit < 55 then
        some (if limit < 35 then Escalation.triple_fault
              else Escalation.deliver TRAP_double_fault 0, p + 2)
      else some (Escalation.deliver TRAP_gp_fault 0, p + 1) := by
  by_cases h : limit < 55
  · have e : escalation_loop (fuel + 2) limit TRAP_gp_fault 0 p =
        escalation_loop (fuel + 1) limit TRAP_double_fault 0 (p + 1) := by
      simp [escalation_loop, idt_limit_check, TRAP_gp_fault, TRAP_double_fault, u32, h]
    rw [e, escalation_loop_df, if_pos h]
  · simp [escalation_loop, idt_limit_check, TRAP_gp_fault, u32, h]

theorem escalation_loop_missing (fuel limit v l p : Nat)
    (h : limit < u32 (u32 (v * 4) + 3)) :
    escalation_loop (fuel + 3) limit v l p =
      if l ≠ 0 then escalation_loop (fuel + 2) limit TRAP_gp_fault 0 (p + 1)
      else if v = TRAP_double_fault then some (Escalation.triple_fault, p + 1)
      else if v = TRAP_gp_fault then escalation_loop (fuel + 2) limit TRAP_double_fault 0 (p + 1)
      else escalation_loop (fuel + 2) limit TRAP_gp_fault 0 (p + 1) := by
  rw [escalation_loop, idt_limit_check_missing limit v l h]
  by_cases hl : l = 0
  · by_cases h8 : v = TRAP_double_fault
    · simp [hl, h8]
    · by_cases h13 : v = TRAP_gp_fault
      · simp [hl, h13, TRAP_gp_fault, TRAP_double_fault]
      · simp [hl, h8, h13]
  · simp [hl]

theorem escalation_loop_total (fuel limit v l : Nat) :
    ∃ r n, escalation_loop (fuel + 3) limit v l 0 = some (r, n) ∧ n ≤ 3 ∧
      (r = Escalation.triple_fault ∨ r = Escalation.deliver v l ∨
        r = Escalation.deliver TRAP_gp_fault 0 ∨ r = Escalation.deliver TRAP_double_fault 0) ∧
      (limit < u32 (u32 (v * 4) + 3) → r ≠ Escalation.deliver v l ∨ v = TRAP_gp_fault ∧ l = 0) := by
  by_cases h : limit < u32 (u32 (v * 4) + 3)
  · rw [escalation_loop_missing fuel limit v l 0 h]
    have hdf := escalation_loop_df (fuel + 1) limit 1
    have hgp := escalation_loop_gp fuel limit 1
    simp only [Nat.zero_add]
    by_cases hl : l = 0
    · by_cases h8 : v = TRAP_double_fault
      · refine ⟨Escalation.triple_fault, 1, ?_, by omega, Or.inl rfl, fun _ => Or.inl (by simp)⟩
        simp [hl, h8]
      · by_cases h13 : v = TRAP_gp_fault
        · rw [if_neg (by simpa using hl), if_neg h8, if_pos h13, hdf]
          by_cases h35 : limit < 35
          · exact ⟨_, _, rfl, by omega, by simp [h35], fun _ => Or.inr ⟨h13, hl⟩⟩
          · exact ⟨_, _, rfl, by omega, by simp [h35], fun _ => Or.inr ⟨h13, hl⟩⟩
        · rw [if_neg (by simpa using hl), if_neg h8, if_neg h13, hgp]
          by_cases h55 : limit < 55
          · rw [if_pos h55]
            by_cases h35 : limit < 35
            · exact ⟨_, _, rfl, by omega, by simp [h35], fun _ => Or.inl (by simp [h35])⟩
            · refine ⟨_, _, rfl, by omega, by simp [h35], fun _ => Or.inl ?_⟩
              simp only [h35, if_false, ne_eq, Escalation.deliver.injEq, not_and]
              intro e; exact absurd e.symm h8
          · rw [if_neg h55]
            refine ⟨_, _, rfl, by omega, by simp, fun _ => Or.inl ?_⟩
            simp only [ne_eq, Escalation.deliver.injEq, not_and]
            intro e; exact absurd e.symm h13
    · rw [if_pos hl, hgp]
      by_cases h55 : limit < 55
      · rw [if_pos h55]
        by_cases h35 : limit < 35
        · exact ⟨_, _, rfl, by omega, by simp [h35], fun _ => Or.inl (by simp [h35])⟩
        · refine ⟨_, _, rfl, by omega, by simp [h35], fun _ => Or.inl ?_⟩
          simp only [h35, if_false, ne_eq, Escalation.deliver.injEq, not_and]
          intro _ e; exact hl e.symm
      · rw [if_neg h55]
        refine ⟨_, _, rfl, by omega, by simp, fun _ => Or.inl ?_⟩
        simp only [ne_eq, Escalation.deliver.injEq, not_and]
        intro _ e; exact hl e.symm
  · rw [escalation_loop_present (fuel + 2) limit v l 0 (by omega)]
    exact ⟨_, _, rfl, by omega, by simp, fun h' => absurd h' h⟩

/-! ## Exception delivery: claims -/

/-- C1: for every vector `v` in 0..255, every `insn_len` and every context
whose IDT limit covers the entry (`IDTR.limit ≥ 4v+3`) and whose IDT entry is
RAM-backed, `realmode_deliver_exception` returns, with `CS.selector` the high
16 bits and `regs.eip` the low 16 bits of the little-endian 32-bit value held
at guest physical address `IDTR.base + 4v` before the frame is written, and
with `CS.base = CS.selector << 4`. -/
theorem deliver_loads_cs_ip_from_idt (fuel cs_eip0 v insn_len : Nat) (s : Machine)
    (hv : v ≤ 255)
    (hlim : 4 * v + 3 ≤ (s.rm_ctxt.seg_reg x86_seg_idtr).limit)
    (hidt : s.mem.backed (idt_entry_address s v) 4) :
    ∃ s', realmode_deliver_exception (fuel + 1) cs_eip0 v insn_len s = some s' ∧
      (s'.rm_ctxt.seg_reg x86_seg_cs).sel = s.mem.load (idt_entry_address s v) 4 / 2 ^ 16 % 2 ^ 16 ∧
      s'.regs.eip = s.mem.load (idt_entry_address s v) 4 % 2 ^ 16 ∧
      (s'.rm_ctxt.seg_reg x86_seg_cs).base = (s'.rm_ctxt.seg_reg x86_seg_cs).sel <<< 4 := by
  refine ⟨deliver_frame cs_eip0 v insn_len s, ?_, ?_, ?_, ?_⟩
  · exact deliver_present fuel cs_eip0 v insn_len s (by rw [u32_last_byte v hv]; exact hlim)
  · rw [(deliver_frame_cs_eip cs_eip0 v insn_len s hv hidt).1, Nat.shiftRight_eq_div_pow]; rfl
  · rw [(deliver_frame_cs_eip cs_eip0 v insn_len s hv hidt).2]; rfl
  · exact deliver_frame_cs_base cs_eip0 v insn_len s

/-- Witness for C1: `INT 21h` on the machine with `0x12340056` at `0x84`. -/
theorem deliver_loads_cs_ip_from_idt_witness :
    ∃ s', realmode_deliver_exception 1 0 0x21 2 int21_machine = some s' ∧
      (s'.rm_ctxt.seg_reg x86_seg_cs).sel =
        int21_machine.mem.load (idt_entry_address int21_machine 0x21) 4 / 2 ^ 16 % 2 ^ 16 ∧
      s'.regs.eip = int21_machine.mem.load (idt_entry_address int21_machine 0x21) 4 % 2 ^ 16 ∧
      (s'.rm_ctxt.seg_reg x86_seg_cs).base = (s'.rm_ctxt.seg_reg x86_seg_cs).sel <<< 4 :=
  deliver_loads_cs_ip_from_idt 0 0 0x21 2 int21_machine (by decide) (by decide)
    (fun _ _ => rfl)

theorem unbacked_stack_idt_backed :
    unbacked_stack_machine.mem.backed (idt_entry_address unbacked_stack_machine 0x21) 4 := by
  intro i hi
  interval_cases i <;> decide

/-- C2 (counterexample): `INT 21h` (`insn_len = 2`) with `IDTR = {base 0,
limit 0x3FF}`, `0x12340056` at `0x84`, `CS = F000`, `IP = 0100`, `SP = 7FFE`
and the stack page not RAM.  The delivery is successful (`IDTR.limit ≥
4·0x21+3`; `CS:IP` becomes `1234:0056` and `SP` becomes `7FFA`), yet guest
memory is left as it was: the words at `SS:7FFA..7FFF` are not `0102`, `F000`,
`0202`. -/
theorem deliver_unbacked_stack_stores_nothing :
    4 * 0x21 + 3 ≤ (unbacked_stack_machine.rm_ctxt.seg_reg x86_seg_idtr).limit ∧
    (unbacked_stack_machine.regs.eip + 2) % 2 ^ 16 = 0x102 ∧
    (unbacked_stack_machine.rm_ctxt.seg_reg x86_seg_cs).sel = 0xf000 ∧
    (unbacked_stack_machine.regs.eflags &&& not_ulong X86_EFLAGS_RF) % 2 ^ 16 = 0x202 ∧
    ∃ s', realmode_deliver_exception 1 0 0x21 2 unbacked_stack_machine = some s' ∧
      (s'.rm_ctxt.seg_reg x86_seg_cs).sel = 0x1234 ∧ s'.regs.eip = 0x56 ∧
      s'.regs.esp = 0x7ffa ∧ stack_linear s' = 0x7ffa ∧
      s'.mem = unbacked_stack_machine.mem ∧
      s'.mem.load 0x7ffa 2 = 0 ∧ s'.mem.load 0x7ffc 2 = 0 ∧ s'.mem.load 0x7ffe 2 = 0 := by
  refine ⟨by decide, by decide, rfl, by decide, deliver_frame 0 0x21 2 unbacked_stack_machine,
    deliver_present 0 0 0x21 2 unbacked_stack_machine (by decide), ?_, ?_, ?_, ?_, ?_, ?_, ?_, ?_⟩
  · have := (deliver_frame_cs_eip 0 0x21 2 unbacked_stack_machine (by decide)
      unbacked_stack_idt_backed).1
    rw [this]; decide
  · have := (deliver_frame_cs_eip 0 0x21 2 unbacked_stack_machine (by decide)
      unbacked_stack_idt_backed).2
    rw [this]; decide
  · decide
  · rw [deliver_frame_stack_linear]; decide
  · rfl
  · decide
  · decide
  · decide

/-- C2 (amended): every successful delivery (`IDTR.limit ≥ 4v+3`) copies to
guest memory, at linear address `SS.base + new SP`, the six bytes of the
frame; when those six bytes are RAM-backed, guest memory afterwards holds
there exactly three 16-bit little-endian words, `(old IP + insn_len) mod
2^16`, the old `CS.selector` and the old eflags with RF cleared truncated to
16 bits, and every byte outside the frame is unchanged. -/
theorem deliver_writes_frame (fuel cs_eip0 v insn_len : Nat) (s : Machine)
    (hv : v ≤ 255)
    (hlim : 4 * v + 3 ≤ (s.rm_ctxt.seg_reg x86_seg_idtr).limit) :
    ∃ s', realmode_deliver_exception (fuel + 1) cs_eip0 v insn_len s = some s' ∧
      s'.mem = (hvm_copy_to_guest_phys s.mem (stack_linear s')
        (le_bytes 2 (u16 (s.regs.eip + insn_len)) ++
          le_bytes 2 (s.rm_ctxt.seg_reg x86_seg_cs).sel ++
          le_bytes 2 (u16 (s.regs.eflags &&& not_ulong X86_EFLAGS_RF))) 6).1 ∧
      (s.mem.backed (stack_linear s') 6 →
        s'.mem.load (stack_linear s') 2 = (s.regs.eip + insn_len) % 2 ^ 16 ∧
        s'.mem.load (stack_linear s' + 2) 2 = (s.rm_ctxt.seg_reg x86_seg_cs).sel % 2 ^ 16 ∧
        s'.mem.load (stack_linear s' + 4) 2 =
          (s.regs.eflags &&& not_ulong X86_EFLAGS_RF) % 2 ^ 16 ∧
        ∀ a, a < stack_linear s' ∨ stack_linear s' + 6 ≤ a → s'.mem.byte a = s.mem.byte a) := by
  refine ⟨deliver_frame cs_eip0 v insn_len s, ?_, deliver_frame_mem cs_eip0 v insn_len s, ?_⟩
  · exact deliver_present fuel cs_eip0 v insn_len s (by rw [u32_last_byte v hv]; exact hlim)
  · intro hb
    have hf := frame_in_memory s.mem (stack_linear (deliver_frame cs_eip0 v insn_len s))
      (u16 (s.regs.eip + insn_len)) (s.rm_ctxt.seg_reg x86_seg_cs).sel
      (u16 (s.regs.eflags &&& not_ulong X86_EFLAGS_RF)) hb
    rw [← deliver_frame_mem] at hf
    obtain ⟨h0, h1, h2, h3, _⟩ := hf
    refine ⟨?_, ?_, ?_, h3⟩
    · rw [h0]; unfold u16; omega
    · rw [h1]; rfl
    · rw [h2]; unfold u16; omega

/-- Witness for C2 (amended): `INT 21h` (`insn_len = 2`) with all of memory
RAM, `IDTR = {base 0, limit 0x3FF}`, `0x12340056` at `0x84`, `CS = F000`, `IP
= 0100`, `SP = 7FFE` and eflags `0x10202` gives `CS = 1234`, `IP = 0056`, `SP = 7FFA` and the words
`0102`, `F000`, `0202` at `SS:7FFA..7FFF`. -/
theorem deliver_writes_frame_witness :
    ∃ s', realmode_deliver_exception 1 0 0x21 2 int21_machine = some s' ∧
      (s'.rm_ctxt.seg_reg x86_seg_cs).sel = 0x1234 ∧ s'.regs.eip = 0x56 ∧
      s'.regs.esp = 0x7ffa ∧ stack_linear s' = 0x7ffa ∧
      s'.mem.load 0x7ffa 2 = 0x102 ∧ s'.mem.load 0x7ffc 2 = 0xf000 ∧
      s'.mem.load 0x7ffe 2 = 0x202 := by
  obtain ⟨s', hs, _, hb⟩ :=
    deliver_writes_frame 0 0 0x21 2 int21_machine (by decide) (by decide)
  have e : s' = deliver_frame 0 0x21 2 int21_machine := by
    have := deliver_present 0 0 0x21 2 int21_machine (by decide)
    rw [this] at hs
    exact (Option.some.inj hs).symm
  subst e
  have hlin : stack_linear (deliver_frame 0 0x21 2 int21_machine) = 0x7ffa := by
    rw [deliver_frame_stack_linear]; decide
  have hf := hb (fun _ _ => rfl)
  rw [hlin] at hf
  refine ⟨_, hs, ?_, ?_, ?_, hlin, ?_, ?_, ?_⟩
  · have := (deliver_frame_cs_eip 0 0x21 2 int21_machine (by decide) (fun _ _ => rfl)).1
    rw [this]; decide
  · have := (deliver_frame_cs_eip 0 0x21 2 int21_machine (by decide) (fun _ _ => rfl)).2
    rw [this]; decide
  · decide
  · rw [hf.1]; decide
  · rw [hf.2.1]; decide
  · rw [hf.2.2.1]; decide

theorem deliver_of_loop_deliver (fuel cs_eip0 v l v' l' n : Nat) (s : Machine)
    (h : escalation_loop fuel (s.rm_ctxt.seg_reg x86_seg_idtr).limit v l 0 =
      some (Escalation.deliver v' l', n)) :
    realmode_deliver_exception fuel cs_eip0 v l s = some (deliver_frame cs_eip0 v' l' s) := by
  unfold realmode_deliver_exception
  rw [h]

theorem deliver_of_loop_triple (fuel cs_eip0 v l n : Nat) (s : Machine)
    (h : escalation_loop fuel (s.rm_ctxt.seg_reg x86_seg_idtr).limit v l 0 =
      some (Escalation.triple_fault, n)) :
    realmode_deliver_exception fuel cs_eip0 v l s = some (hvm_triple_fault s) := by
  unfold realmode_deliver_exception
  rw [h]

theorem deliver_of_loop_some (fuel cs_eip0 v l n : Nat) (s : Machine) (r : Escalation)
    (h : escalation_loop fuel (s.rm_ctxt.seg_reg x86_seg_idtr).limit v l 0 = some (r, n)) :
    ∃ s', realmode_deliver_exception fuel cs_eip0 v l s = some s' := by
  unfold realmode_deliver_exception
  rw [h]
  cases r <;> exact ⟨_, rfl⟩

theorem deliver_frame_pushed_ip (cs_eip0 v l : Nat) (s : Machine)
    (hb : s.mem.backed (stack_linear (deliver_frame cs_eip0 v l s)) 6) :
    (deliver_frame cs_eip0 v l s).mem.load (stack_linear (deliver_frame cs_eip0 v l s)) 2 =
      (s.regs.eip + l) % 2 ^ 16 := by
  have hf := frame_in_memory s.mem (stack_linear (deliver_frame cs_eip0 v l s))
    (u16 (s.regs.eip + l)) (s.rm_ctxt.seg_reg x86_seg_cs).sel
    (u16 (s.regs.eflags &&& not_ulong X86_EFLAGS_RF)) hb
  rw [← deliver_frame_mem] at hf
  rw [hf.1]; unfold u16; omega

/-- C3: when the IDT entry of the vector is missing (`IDTR.limit < 4*vector+3`)
the limit check applies these rules, in this priority: a software interrupt
(`insn_len > 0`) restarts as vector 13 with `insn_len = 0`; else vector 8
triple-faults; else vector 13 restarts as vector 8; else the vector restarts as
vector 13.  Consequently a software interrupt whose entry is missing delivers
vector 13 with pushed IP equal to the old IP when `IDTR.limit ≥ 55`, delivers
vector 8 when `35 ≤ IDTR.limit < 55`, and triple-faults when
`IDTR.limit < 35`. -/
theorem escalation_rules (fuel cs_eip0 v insn_len : Nat) (s : Machine)
    (hv : v ≤ 255)
    (hmiss : (s.rm_ctxt.seg_reg x86_seg_idtr).limit < 4 * v + 3) :
    idt_limit_check (s.rm_ctxt.seg_reg x86_seg_idtr).limit v insn_len =
      (if insn_len ≠ 0 then Escalation.again 13 0
       else if v = 8 then Escalation.triple_fault
       else if v = 13 then Escalation.again 8 0
       else Escalation.again 13 0) ∧
    (insn_len ≠ 0 →
      (55 ≤ (s.rm_ctxt.seg_reg x86_seg_idtr).limit →
        realmode_deliver_exception (fuel + 3) cs_eip0 v insn_len s =
          some (deliver_frame cs_eip0 13 0 s) ∧
        (s.mem.backed (stack_linear (deliver_frame cs_eip0 13 0 s)) 6 →
          (deliver_frame cs_eip0 13 0 s).mem.load
            (stack_linear (deliver_frame cs_eip0 13 0 s)) 2 = s.regs.eip % 2 ^ 16)) ∧
      (35 ≤ (s.rm_ctxt.seg_reg x86_seg_idtr).limit →
        (s.rm_ctxt.seg_reg x86_seg_idtr).limit < 55 →
        realmode_deliver_exception (fuel + 3) cs_eip0 v insn_len s =
          some (deliver_frame cs_eip0 8 0 s)) ∧
      ((s.rm_ctxt.seg_reg x86_seg_idtr).limit < 35 →
        realmode_deliver_exception (fuel + 3) cs_eip0 v insn_len s =
          some (hvm_triple_fault s))) := by
  have hm : (s.rm_ctxt.seg_reg x86_seg_idtr).limit < u32 (u32 (v * 4) + 3) := by
    rw [u32_last_byte v hv]; exact hmiss
  refine ⟨idt_limit_check_missing _ v insn_len hm, fun hl => ?_⟩
  have hloop := escalation_loop_missing fuel _ v insn_len 0 hm
  rw [if_pos hl, escalation_loop_gp] at hloop
  refine ⟨fun h55 => ⟨?_, fun hb => ?_⟩, fun h35 h55 => ?_, fun h35 => ?_⟩
  · rw [if_neg (by omega)] at hloop
    exact deliver_of_loop_deliver _ _ _ _ _ _ _ _ hloop
  · have := deliver_frame_pushed_ip cs_eip0 13 0 s hb
    simpa using this
  · rw [if_pos h55, if_neg (by omega)] at hloop
    exact deliver_of_loop_deliver _ _ _ _ _ _ _ _ hloop
  · rw [if_pos (by omega), if_pos h35] at hloop
    exact deliver_of_loop_triple _ _ _ _ _ _ hloop

/-- Witness for C3: `INT 80h` with `IDTR.limit = 0xFF`: the entry of vector
`0x80` is missing and vector 13 is delivered with the old IP pushed. -/
theorem escalation_rules_witness :
    idt_limit_check ((set_idtr_limit int21_machine 0xff).rm_ctxt.seg_reg x86_seg_idtr).limit
        0x80 2 = Escalation.again 13 0 ∧
    realmode_deliver_exception 3 0 0x80 2 (set_idtr_limit int21_machine 0xff) =
      some (deliver_frame 0 13 0 (set_idtr_limit int21_machine 0xff)) ∧
    (deliver_frame 0 13 0 (set_idtr_limit int21_machine 0xff)).mem.load
      (stack_linear (deliver_frame 0 13 0 (set_idtr_limit int21_machine 0xff))) 2 = 0x100 := by
  have h := escalation_rules 0 0 0x80 2 (set_idtr_limit int21_machine 0xff)
    (by decide) (by decide)
  have h2 := (h.2 (by decide)).1 (by decide)
  exact ⟨h.1, h2.1, h2.2 (fun _ _ => rfl)⟩

/-- C4: for every vector, `insn_len` and IDT limit the escalation loop of
`realmode_deliver_exception` ends after at most three passes through the limit
check (at most two escalations), so the function returns; it ends either in
the triple-fault handler or in the delivery of a vector.  In particular, when
`IDTR.limit < 4v+3` and `insn_len = 0` it ends in a triple fault or in the
delivery of exactly vector 13 or vector 8. -/
theorem escalation_terminates (fuel cs_eip0 v insn_len : Nat) (s : Machine) :
    ∃ r n,
      escalation_loop (fuel + 3) (s.rm_ctxt.seg_reg x86_seg_idtr).limit v insn_len 0 =
        some (r, n) ∧
      n ≤ 3 ∧ n - 1 ≤ 2 ∧
      (r = Escalation.triple_fault ∨ ∃ v' l', r = Escalation.deliver v' l') ∧
      (∃ s', realmode_deliver_exception (fuel + 3) cs_eip0 v insn_len s = some s') ∧
      (v ≤ 255 → (s.rm_ctxt.seg_reg x86_seg_idtr).limit < 4 * v + 3 → insn_len = 0 →
        r = Escalation.triple_fault ∨ r = Escalation.deliver 13 0 ∨
          r = Escalation.deliver 8 0) := by
  obtain ⟨r, n, h, hn, hr, hmiss⟩ :=
    escalation_loop_total fuel (s.rm_ctxt.seg_reg x86_seg_idtr).limit v insn_len
  refine ⟨r, n, h, hn, by omega, ?_, ?_, ?_⟩
  · rcases hr with hr | hr | hr | hr
    · exact Or.inl hr
    · exact Or.inr ⟨_, _, hr⟩
    · exact Or.inr ⟨_, _, hr⟩
    · exact Or.inr ⟨_, _, hr⟩
  · exact deliver_of_loop_some _ _ _ _ _ _ _ h
  · intro hv hlt hl
    have hm := hmiss (by rw [u32_last_byte v hv]; exact hlt)
    rcases hr with hr | hr | hr | hr
    · exact Or.inl hr
    · rcases hm with hm | ⟨h13, _⟩
      · exact absurd hr hm
      · subst hl; rw [h13] at hr; exact Or.inr (Or.inl hr)
    · exact Or.inr (Or.inl hr)
    · exact Or.inr (Or.inr hr)

/-- Witness for C4: with `IDTR.limit = 0`, `INT 80h` goes to vector 13, then
to vector 8, then to the triple-fault handler, in three passes. -/
theorem escalation_terminates_witness :
    (∃ r n,
      escalation_loop 3 ((set_idtr_limit int21_machine 0).rm_ctxt.seg_reg x86_seg_idtr).limit
        0x80 2 0 = some (r, n) ∧ n ≤ 3) ∧
    idt_limit_check 0 0x80 2 = Escalation.again 13 0 ∧
    idt_limit_check 0 13 0 = Escalation.again 8 0 ∧
    idt_limit_check 0 8 0 = Escalation.triple_fault ∧
    escalation_loop 3 0 0x80 2 0 = some (Escalation.triple_fault, 3) ∧
    realmode_deliver_exception 3 0 0x80 2 (set_idtr_limit int21_machine 0) =
      some (hvm_triple_fault (set_idtr_limit int21_machine 0)) := by
  obtain ⟨r, n, h, hn, _⟩ := escalation_terminates 0 0 0x80 2 (set_idtr_limit int21_machine 0)
  refine ⟨⟨r, n, h, hn⟩, by decide, by decide, by decide, by decide, ?_⟩
  exact deliver_of_loop_triple 3 0 0x80 2 3 (set_idtr_limit int21_machine 0) (by decide)


theorem deliver_frame_esp32 (cs_eip0 v l : Nat) (s : Machine) (h : s.rm_ctxt.addr_size = 32) :
    (deliver_frame cs_eip0 v l s).regs.esp = u64 (s.regs.esp + 2 ^ 64 - 4) := by
  simp only [deliver_frame, h, if_true]

/-- C5 (the code at the failing input): with `sp_size = 16` and
`addr_size = 32`, delivering through a present IDT entry from
`ESP = 0x00010002` leaves `ESP = 0x0000FFFE`: the low 16 bits are `SP - 4`
modulo `2^16`, but the high half of ESP changed from `0x0001` to `0x0000`. -/
theorem deliver_sp16_addr32_changes_high_half :
    sp16_addr32_machine.rm_ctxt.sp_size = 16 ∧
    sp16_addr32_machine.rm_ctxt.addr_size = 32 ∧
    sp16_addr32_machine.regs.esp = 0x10002 ∧
    ∃ s', realmode_deliver_exception 1 0 0x21 2 sp16_addr32_machine = some s' ∧
      s'.regs.esp = 0xfffe ∧
      s'.regs.esp % 2 ^ 16 = (sp16_addr32_machine.regs.esp % 2 ^ 16 + 2 ^ 16 - 4) % 2 ^ 16 ∧
      s'.regs.esp / 2 ^ 16 ≠ sp16_addr32_machine.regs.esp / 2 ^ 16 := by
  refine ⟨rfl, rfl, rfl, _, deliver_present 0 0 0x21 2 sp16_addr32_machine (by decide), ?_⟩
  rw [deliver_frame_esp32 _ _ _ _ rfl]
  decide

/-- C7: after every successful delivery the eflags equal the eflags before
with exactly the AC (bit 18), TF (bit 8) and RF (bit 16) bits cleared; every
other bit, IF (bit 9) included, is unchanged, whatever `insn_len` is. -/
theorem deliver_clears_ac_tf_rf (fuel cs_eip0 v insn_len : Nat) (s : Machine)
    (hv : v ≤ 255)
    (hlim : 4 * v + 3 ≤ (s.rm_ctxt.seg_reg x86_seg_idtr).limit)
    (hfl : s.regs.eflags < 2 ^ 64) :
    ∃ s', realmode_deliver_exception (fuel + 1) cs_eip0 v insn_len s = some s' ∧
      (∀ i, s'.regs.eflags.testBit i =
        (s.regs.eflags.testBit i && !decide (i = 8 ∨ i = 16 ∨ i = 18))) ∧
      s'.regs.eflags.testBit 9 = s.regs.eflags.testBit 9 ∧
      X86_EFLAGS_TF = 2 ^ 8 ∧ X86_EFLAGS_IF = 2 ^ 9 ∧ X86_EFLAGS_RF = 2 ^ 16 ∧
      X86_EFLAGS_AC = 2 ^ 18 := by
  have hb : ∀ i, (deliver_frame cs_eip0 v insn_len s).regs.eflags.testBit i =
      (s.regs.eflags.testBit i && !decide (i = 8 ∨ i = 16 ∨ i = 18)) := by
    intro i
    have := testBit_clear_flags s.regs.eflags i hfl
    simpa [deliver_frame] using this
  refine ⟨deliver_frame cs_eip0 v insn_len s, ?_, hb, ?_, by decide, by decide, by decide,
    by decide⟩
  · exact deliver_present fuel cs_eip0 v insn_len s (by rw [u32_last_byte v hv]; exact hlim)
  · rw [hb 9]; simp

/-- Witness for C7: eflags `0x10202` (RF, IF and bit 1 set) become `0x202`. -/
theorem deliver_clears_ac_tf_rf_witness :
    ∃ s', realmode_deliver_exception 1 0 0x21 2 int21_machine = some s' ∧
      s'.regs.eflags.testBit 16 = false ∧ s'.regs.eflags.testBit 9 = true := by
  obtain ⟨s', h, hb, h9, _⟩ :=
    deliver_clears_ac_tf_rf 0 0 0x21 2 int21_machine (by decide) (by decide) (by decide)
  refine ⟨s', h, ?_, ?_⟩
  · rw [hb 16]; simp
  · rw [h9]; decide


/-! ## Facts about the copy routines: residual counts -/

theorem copy_from_unbacked (m : GuestMem) (n a i : Nat) (buf : List Nat)
    (h : m.ram (a >>> PAGE_SHIFT) = false) :
    copy_from_loop m n a i buf = (buf, n) := by
  cases n with
  | zero => rfl
  | succ n => simp [copy_from_loop, h]

theorem copy_from_residual_zero_iff (m : GuestMem) (n a i : Nat) (buf : List Nat) :
    (copy_from_loop m n a i buf).2 = 0 ↔ m.backed a n := by
  induction n generalizing a i buf with
  | zero => simp [copy_from_loop, GuestMem.backed]
  | succ n ih =>
    unfold copy_from_loop
    by_cases h : m.ram (a >>> PAGE_SHIFT) = true
    · rw [if_pos h, ih]
      constructor
      · intro hb j hj
        cases j with
        | zero => simpa using h
        | succ j =>
          have := hb j (by omega)
          rw [show a + (j + 1) = a + 1 + j by omega]
          exact this
      · intro hb j hj
        have := hb (j + 1) (by omega)
        rw [show a + 1 + j = a + (j + 1) by omega]
        exact this
    · rw [if_neg h]
      constructor
      · intro h0; simp at h0
      · intro hb
        exact absurd (by simpa using hb 0 (by omega)) h

theorem copy_to_ram (n : Nat) (m : GuestMem) (a : Nat) (buf : List Nat) :
    (copy_to_loop n m a buf).1.ram = m.ram := by
  induction n generalizing m a buf with
  | zero => rfl
  | succ n ih =>
    unfold copy_to_loop
    by_cases h : m.ram (a >>> PAGE_SHIFT) = true
    · rw [if_pos h, ih]; rfl
    · rw [if_neg h]

theorem copy_to_unbacked (n : Nat) (m : GuestMem) (a : Nat) (buf : List Nat)
    (h : m.ram (a >>> PAGE_SHIFT) = false) :
    copy_to_loop n m a buf = (m, n) := by
  cases n with
  | zero => rfl
  | succ n => simp [copy_to_loop, h]

theorem copy_to_residual_zero_iff (n : Nat) (m : GuestMem) (a : Nat) (buf : List Nat) :
    (copy_to_loop n m a buf).2 = 0 ↔ m.backed a n := by
  induction n generalizing m a buf with
  | zero => simp [copy_to_loop, GuestMem.backed]
  | succ n ih =>
    unfold copy_to_loop
    by_cases h : m.ram (a >>> PAGE_SHIFT) = true
    · rw [if_pos h, ih]
      have hr : (m.store a (buf.headD 0)).ram = m.ram := rfl
      unfold GuestMem.backed
      rw [hr]
      constructor
      · intro hb j hj
        cases j with
        | zero => simpa using h
        | succ j =>
          have := hb j (by omega)
          rw [show a + (j + 1) = a + 1 + j by omega]
          exact this
      · intro hb j hj
        have := hb (j + 1) (by omega)
        rw [show a + 1 + j = a + (j + 1) by omega]
        exact this
    · rw [if_neg h]
      constructor
      · intro h0; simp at h0
      · intro hb
        exact absurd (by simpa using hb 0 (by omega)) h

/-! ## The I/O continuation flags -/

theorem exec_preserves_exclusive (s : Machine) (op : ShimOp)
    (hinv : io_flags_exclusive s)
    (hw : op.forwards_write s = true → s.hvm_vmx.real_mode_io_completed = false) :
    io_flags_exclusive (op.exec s) := by
  unfold io_flags_exclusive at hinv ⊢
  cases op with
  | read seg offset bytes a =>
    simp only [ShimOp.exec, realmode_read]
    split_ifs <;> simp_all [send_mmio_req]
  | insn_fetch seg offset bytes =>
    simp only [ShimOp.exec, realmode_emulate_insn_fetch, realmode_read]
    split_ifs <;> simp_all [send_mmio_req]
  | write seg offset val bytes =>
    simp only [ShimOp.forwards_write] at hw
    simp only [ShimOp.exec, realmode_emulate_write]
    split_ifs <;> simp_all [send_mmio_req]
  | read_io port bytes =>
    simp only [ShimOp.exec, realmode_read_io]
    split_ifs <;> simp_all [send_pio_req]
  | write_io port bytes val =>
    simp only [ShimOp.forwards_write] at hw
    simp only [ShimOp.exec, realmode_write_io]
    split_ifs <;> simp_all [send_pio_req, hvm_print_line]
  | io_complete p =>
    simp only [ShimOp.exec, vmx_realmode_io_complete]
    split_ifs <;> simp_all

/-- The guard on sequences cannot be relaxed: a forwarded write entered with
`real_mode_io_completed` set leaves both continuation flags set. -/
theorem forwarded_write_sets_both (s : Machine) (op : ShimOp)
    (hf : op.forwards_write s = true) (hc : s.hvm_vmx.real_mode_io_completed = true) :
    (op.exec s).hvm_vmx.real_mode_io_in_progress = true ∧
    (op.exec s).hvm_vmx.real_mode_io_completed = true := by
  cases op with
  | read seg offset bytes a => simp [ShimOp.forwards_write] at hf
  | insn_fetch seg offset bytes => simp [ShimOp.forwards_write] at hf
  | write seg offset val bytes =>
    simp only [ShimOp.forwards_write] at hf
    simp only [ShimOp.exec, realmode_emulate_write]
    split_ifs <;> simp_all [send_mmio_req]
  | read_io port bytes => simp [ShimOp.forwards_write] at hf
  | write_io port bytes val =>
    simp only [ShimOp.forwards_write] at hf
    simp only [ShimOp.exec, realmode_write_io]
    split_ifs <;> simp_all [send_pio_req, hvm_print_line]
  | io_complete p => simp [ShimOp.forwards_write] at hf

/-- A write that is not forwarded leaves both continuation flags as they
were. -/
theorem unforwarded_write_keeps_flags (s : Machine) (op : ShimOp)
    (hf : op.forwards_write s = false) :
    (∀ seg offset val bytes, op = ShimOp.write seg offset val bytes →
      (op.exec s).hvm_vmx = s.hvm_vmx) ∧
    (∀ port bytes val, op = ShimOp.write_io port bytes val →
      (op.exec s).hvm_vmx = s.hvm_vmx) := by
  constructor
  · intro seg offset val bytes e
    subst e
    simp only [ShimOp.forwards_write] at hf
    simp only [ShimOp.exec, realmode_emulate_write]
    split_ifs <;> simp_all [send_mmio_req]
  · intro port bytes val e
    subst e
    simp only [ShimOp.forwards_write] at hf
    simp only [ShimOp.exec, realmode_write_io]
    split_ifs <;> simp_all [send_pio_req, hvm_print_line]

/-- C8 (counterexample): from `io_in_progress = io_completed = false`, an MMIO
read, its completion with a read-direction response, and then an MMIO write
leave `io_in_progress` and `io_completed` both set. -/
theorem io_flags_both_set_after_write :
    mmio_machine.hvm_vmx.real_mode_io_in_progress = false ∧
    mmio_machine.hvm_vmx.real_mode_io_completed = false ∧
    (run_ops mmio_machine
      [ShimOp.read x86_seg_ds 0xb8000 1 hvm_access_read,
       ShimOp.io_complete (ioreq_t.mk IOREQ_TYPE_COPY 0xb8000 1 1 0x37 IOREQ_READ),
       ShimOp.write x86_seg_ds 0xb8000 0x41 1]).hvm_vmx.real_mode_io_in_progress = true ∧
    (run_ops mmio_machine
      [ShimOp.read x86_seg_ds 0xb8000 1 hvm_access_read,
       ShimOp.io_complete (ioreq_t.mk IOREQ_TYPE_COPY 0xb8000 1 1 0x37 IOREQ_READ),
       ShimOp.write x86_seg_ds 0xb8000 0x41 1]).hvm_vmx.real_mode_io_completed = true := by
  refine ⟨rfl, rfl, ?_, ?_⟩ <;> decide

/-- C8 (amended): starting from a state in which the two I/O continuation
flags are not both set, after every finite sequence of `realmode_read`,
`realmode_emulate_insn_fetch`, `realmode_emulate_write`, `realmode_read_io`,
`realmode_write_io` and `vmx_realmode_io_complete` calls in which every write
that is forwarded to the device model (a memory write to a fully unbacked
target, or a port write to a port other than `0xE9`, made while no request is
outstanding) is entered with `io_completed` clear, the two flags are not both
set.  Writes to RAM, to the debug port, or refused because a request is
outstanding are not restricted. -/
theorem io_flags_exclusive_invariant (s : Machine) (ops : List ShimOp)
    (hinv : io_flags_exclusive s)
    (hw : forwarded_writes_after_consumption s ops) :
    io_flags_exclusive (run_ops s ops) := by
  induction ops generalizing s with
  | nil => exact hinv
  | cons op ops ih =>
    obtain ⟨h1, h2⟩ := hw
    exact ih (op.exec s) (exec_preserves_exclusive s op hinv h1) h2

/-- Witness for C8 (amended): starting with a completed read stored
(`io_completed` set), a write to the debug port `0xE9` and a one-byte write to
RAM at `DS:1000`, then the read of `DS:B8000` that consumes the stored data,
and then an MMIO write to `DS:B8000`, which is forwarded. -/
theorem io_flags_exclusive_invariant_witness :
    completed_machine.hvm_vmx.real_mode_io_completed = true ∧
    io_flags_exclusive (run_ops completed_machine
      [ShimOp.write_io 0xe9 1 0x41,
       ShimOp.write x86_seg_ds 0x1000 0x41 1,
       ShimOp.read x86_seg_ds 0xb8000 1 hvm_access_read,
       ShimOp.write x86_seg_ds 0xb8000 0x41 1]) :=
  ⟨rfl, io_flags_exclusive_invariant completed_machine _
    (by unfold io_flags_exclusive; decide)
    (And.intro (fun h => absurd h (by decide)) (And.intro (fun h => absurd h (by decide))
      (And.intro (fun h => absurd h (by decide)) (And.intro (fun _ => by decide) trivial))))⟩

/-! ## Memory access shim: claims -/

/-- C9 (counterexample): with `io_in_progress` set, a read and a write of
four RAM-backed bytes both return ok, not unhandleable. -/
theorem shim_busy_backed_returns_ok :
    busy_machine.hvm_vmx.real_mode_io_in_progress = true ∧
    (realmode_read x86_seg_ds 0x84 4 hvm_access_read busy_machine).1 = X86EMUL_OKAY ∧
    (realmode_emulate_write x86_seg_ds 0x84 0 4 busy_machine).1 = X86EMUL_OKAY ∧
    X86EMUL_OKAY ≠ X86EMUL_UNHANDLEABLE := by
  refine ⟨rfl, ?_, ?_, ?_⟩ <;> decide

/-- C9 (amended): for every memory read or write entered while
`io_in_progress` is set, the shim returns unhandleable when the target is not
fully RAM-backed (at least one byte is not copied), and returns ok when the
target is fully RAM-backed. -/
theorem shim_busy_fatal_unless_backed (seg : x86_segment) (offset bytes val : Nat)
    (access_type : hvm_access_type) (s : Machine)
    (hbusy : s.hvm_vmx.real_mode_io_in_progress = true) :
    (¬ s.mem.backed (u32 ((s.rm_ctxt.seg_reg seg).base + offset)) bytes →
      (realmode_read seg offset bytes access_type s).1 = X86EMUL_UNHANDLEABLE ∧
      (realmode_emulate_write seg offset val bytes s).1 = X86EMUL_UNHANDLEABLE) ∧
    (s.mem.backed (u32 ((s.rm_ctxt.seg_reg seg).base + offset)) bytes →
      (realmode_read seg offset bytes access_type s).1 = X86EMUL_OKAY ∧
      (realmode_emulate_write seg offset val bytes s).1 = X86EMUL_OKAY) := by
  have hr := copy_from_residual_zero_iff s.mem bytes
    (u32 ((s.rm_ctxt.seg_reg seg).base + offset)) 0 (le_bytes 8 0)
  have hw := copy_to_residual_zero_iff bytes s.mem
    (u32 ((s.rm_ctxt.seg_reg seg).base + offset)) (le_bytes 8 val)
  constructor
  · intro hnb
    have h1 : (hvm_copy_from_guest_phys s.mem (le_bytes 8 0)
        (u32 ((s.rm_ctxt.seg_reg seg).base + offset)) bytes).2 ≠ 0 := fun h => hnb (hr.1 h)
    have h2 : (hvm_copy_to_guest_phys s.mem
        (u32 ((s.rm_ctxt.seg_reg seg).base + offset)) (le_bytes 8 val) bytes).2 ≠ 0 :=
      fun h => hnb (hw.1 h)
    constructor
    · simp only [realmode_read]
      rw [if_pos h1]
      split_ifs <;> rfl
    · simp only [realmode_emulate_write]
      rw [if_pos h2]
      split_ifs <;> rfl
  · intro hb
    have h1 : (hvm_copy_from_guest_phys s.mem (le_bytes 8 0)
        (u32 ((s.rm_ctxt.seg_reg seg).base + offset)) bytes).2 = 0 := hr.2 hb
    have h2 : (hvm_copy_to_guest_phys s.mem
        (u32 ((s.rm_ctxt.seg_reg seg).base + offset)) (le_bytes 8 val) bytes).2 = 0 := hw.2 hb
    constructor
    · simp only [realmode_read]
      rw [if_neg (by simpa using h1)]
    · simp only [realmode_emulate_write]
      rw [if_neg (by simpa using h2)]

/-- Witness for C9 (amended): with an I/O outstanding, a byte read and a byte
write at the unbacked address `0xB8000` are unhandleable. -/
theorem shim_busy_fatal_unless_backed_witness :
    (realmode_read x86_seg_ds 0xb8000 1 hvm_access_read busy_machine).1 =
      X86EMUL_UNHANDLEABLE ∧
    (realmode_emulate_write x86_seg_ds 0xb8000 0x41 1 busy_machine).1 =
      X86EMUL_UNHANDLEABLE :=
  (shim_busy_fatal_unless_backed x86_seg_ds 0xb8000 1 0x41 hvm_access_read busy_machine rfl).1
    (fun h => absurd (h 0 (by decide)) (by decide))

/-- C10: for every read whose first byte lies in a page that is not RAM (zero
bytes are copied), with `io_in_progress` clear: when `io_completed` is set,
`realmode_read` returns ok with value `io_data`, clears `io_completed` and
changes nothing else (no request is enqueued); otherwise it sets
`io_in_progress`, enqueues exactly one copy-type read request (address the
linear address, count 1, size `bytes`), returns unhandleable and changes
nothing else, `io_completed` staying clear. -/
theorem read_unbacked_protocol (seg : x86_segment) (offset bytes : Nat)
    (access_type : hvm_access_type) (s : Machine)
    (hbytes : 0 < bytes)
    (hun : s.mem.ram (u32 ((s.rm_ctxt.seg_reg seg).base + offset) >>> PAGE_SHIFT) = false)
    (hidle : s.hvm_vmx.real_mode_io_in_progress = false) :
    (hvm_copy_from_guest_phys s.mem (le_bytes 8 0)
      (u32 ((s.rm_ctxt.seg_reg seg).base + offset)) bytes).2 = bytes ∧
    (s.hvm_vmx.real_mode_io_completed = true →
      realmode_read seg offset bytes access_type s =
        (X86EMUL_OKAY, s.hvm_vmx.real_mode_io_data,
          { s with hvm_vmx := { s.hvm_vmx with real_mode_io_completed := false } })) ∧
    (s.hvm_vmx.real_mode_io_completed = false →
      (realmode_read seg offset bytes access_type s).1 = X86EMUL_UNHANDLEABLE ∧
      (realmode_read seg offset bytes access_type s).1 ≠ X86EMUL_OKAY ∧
      (realmode_read seg offset bytes access_type s).2.2 =
        { s with
          hvm_vmx := { s.hvm_vmx with real_mode_io_in_progress := true }
          ioreqs := s.ioreqs ++
            [ioreq_t.mk IOREQ_TYPE_COPY (u32 ((s.rm_ctxt.seg_reg seg).base + offset)) 1 bytes 0
              IOREQ_READ] } ∧
      (realmode_read seg offset bytes access_type s).2.2.hvm_vmx.real_mode_io_completed
        = false) := by
  have hc : hvm_copy_from_guest_phys s.mem (le_bytes 8 0)
      (u32 ((s.rm_ctxt.seg_reg seg).base + offset)) bytes = (le_bytes 8 0, bytes) :=
    copy_from_unbacked s.mem bytes _ 0 _ hun
  have hne : bytes ≠ 0 := by omega
  refine ⟨by rw [hc], fun hd => ?_, fun hd => ?_⟩
  · simp [realmode_read, hc, hne, hidle, hd]
  · simp [realmode_read, hc, hne, hidle, hd, send_mmio_req, X86EMUL_UNHANDLEABLE, X86EMUL_OKAY]

/-- Witness for C10: a byte read at the unbacked address `0xB8000` with no
I/O outstanding and no completion stored enqueues one request. -/
theorem read_unbacked_protocol_witness :
    (realmode_read x86_seg_ds 0xb8000 1 hvm_access_read mmio_machine).1 =
      X86EMUL_UNHANDLEABLE ∧
    (realmode_read x86_seg_ds 0xb8000 1 hvm_access_read mmio_machine).2.2.ioreqs =
      [ioreq_t.mk IOREQ_TYPE_COPY 0xb8000 1 1 0 IOREQ_READ] ∧
    (realmode_read x86_seg_ds 0xb8000 1 hvm_access_read completed_machine).1 = X86EMUL_OKAY ∧
    (realmode_read x86_seg_ds 0xb8000 1 hvm_access_read completed_machine).2.1 = 0x37 := by
  have h := (read_unbacked_protocol x86_seg_ds 0xb8000 1 hvm_access_read mmio_machine
    (by decide) (by decide) rfl).2.2 rfl
  have h' := (read_unbacked_protocol x86_seg_ds 0xb8000 1 hvm_access_read completed_machine
    (by decide) (by decide) rfl).2.1 rfl
  refine ⟨h.1, ?_, ?_, ?_⟩
  · rw [h.2.2.1]; rfl
  · rw [h']
  · rw [h']; rfl


/-! ## Facts about the copy routines: both directions -/

theorem copy_from_residual_congr (m m' : GuestMem) (h : m.ram = m'.ram) (n a i i' : Nat)
    (buf buf' : List Nat) :
    (copy_from_loop m n a i buf).2 = (copy_from_loop m' n a i' buf').2 := by
  induction n generalizing a i i' buf buf' with
  | zero => rfl
  | succ n ih =>
    unfold copy_from_loop
    rw [← h]
    by_cases hr : m.ram (a >>> PAGE_SHIFT) = true
    · rw [if_pos hr, if_pos hr]; exact ih _ _ _ _ _
    · rw [if_neg hr, if_neg hr]

theorem copy_to_residual_eq (n : Nat) (m : GuestMem) (a i : Nat) (buf buf' : List Nat) :
    (copy_to_loop n m a buf).2 = (copy_from_loop m n a i buf').2 := by
  induction n generalizing m a i buf buf' with
  | zero => rfl
  | succ n ih =>
    unfold copy_to_loop copy_from_loop
    by_cases hr : m.ram (a >>> PAGE_SHIFT) = true
    · rw [if_pos hr, if_pos hr, ih (m.store a (buf.headD 0)) (a + 1) (i + 1) buf.tail
        (buf'.set i (u8 (m.byte a)))]
      exact copy_from_residual_congr (m.store a (buf.headD 0)) m rfl _ _ _ _ _ _
    · rw [if_neg hr, if_neg hr]

theorem copy_to_byte_outside (n : Nat) (m : GuestMem) (a : Nat) (buf : List Nat) (x : Nat)
    (hx : x < a ∨ a + n ≤ x) :
    (copy_to_loop n m a buf).1.byte x = m.byte x := by
  induction n generalizing m a buf with
  | zero => rfl
  | succ n ih =>
    unfold copy_to_loop
    by_cases hr : m.ram (a >>> PAGE_SHIFT) = true
    · rw [if_pos hr, ih _ _ _ (by omega)]
      have hne : x ≠ a := by omega
      simp [GuestMem.store, hne]
    · rw [if_neg hr]

theorem load_lt (m : GuestMem) (a n : Nat) : m.load a n < 2 ^ (8 * n) := by
  induction n generalizing a with
  | zero => simp [GuestMem.load]
  | succ n ih =>
    have h1 := ih (a + 1)
    have h2 : u8 (m.byte a) < 2 ^ 8 := Nat.mod_lt _ (by norm_num)
    have h3 : (2 : Nat) ^ (8 * (n + 1)) = 2 ^ 8 * 2 ^ (8 * n) := by
      rw [← Nat.pow_add]; congr 1; omega
    rw [h3]
    unfold GuestMem.load
    nlinarith

theorem copy_from_backed_value (m : GuestMem) (a n : Nat) (h1 : 1 ≤ n) (h8 : n ≤ 8)
    (hb : m.backed a n) :
    hvm_copy_from_guest_phys m (le_bytes 8 0) a n =
        ((hvm_copy_from_guest_phys m (le_bytes 8 0) a n).1, 0) ∧
    le_value (hvm_copy_from_guest_phys m (le_bytes 8 0) a n).1 = m.load a n := by
  have h0 := hb 0
  have hb1 := hb 1
  have hb2 := hb 2
  have hb3 := hb 3
  have hb4 := hb 4
  have hb5 := hb 5
  have hb6 := hb 6
  have hb7 := hb 7
  simp only [Nat.add_zero] at h0
  interval_cases n <;>
    simp_all [hvm_copy_from_guest_phys, copy_from_loop, le_bytes, le_value, GuestMem.load,
      Nat.add_assoc, u8]


/-- C11: for every read or write whose physical copy is partial (the number
of bytes not copied is positive and smaller than `bytes`), the shim returns
unhandleable and is not pending: `realmode_read` leaves the whole state
unchanged, and `realmode_emulate_write` leaves `io_in_progress`,
`io_completed`, `io_data` and the request queue unchanged. -/
theorem partial_copy_is_fatal (seg : x86_segment) (offset bytes val : Nat)
    (access_type : hvm_access_type) (s : Machine)
    (hpos : 0 < (hvm_copy_from_guest_phys s.mem (le_bytes 8 0)
      (u32 ((s.rm_ctxt.seg_reg seg).base + offset)) bytes).2)
    (hlt : (hvm_copy_from_guest_phys s.mem (le_bytes 8 0)
      (u32 ((s.rm_ctxt.seg_reg seg).base + offset)) bytes).2 < bytes) :
    (realmode_read seg offset bytes access_type s).1 = X86EMUL_UNHANDLEABLE ∧
    (realmode_read seg offset bytes access_type s).2.2 = s ∧
    (hvm_copy_to_guest_phys s.mem (u32 ((s.rm_ctxt.seg_reg seg).base + offset))
      (le_bytes 8 val) bytes).2 =
      (hvm_copy_from_guest_phys s.mem (le_bytes 8 0)
        (u32 ((s.rm_ctxt.seg_reg seg).base + offset)) bytes).2 ∧
    (realmode_emulate_write seg offset val bytes s).1 = X86EMUL_UNHANDLEABLE ∧
    (realmode_emulate_write seg offset val bytes s).2.hvm_vmx = s.hvm_vmx ∧
    (realmode_emulate_write seg offset val bytes s).2.ioreqs = s.ioreqs := by
  have hw : (hvm_copy_to_guest_phys s.mem (u32 ((s.rm_ctxt.seg_reg seg).base + offset))
      (le_bytes 8 val) bytes).2 =
      (hvm_copy_from_guest_phys s.mem (le_bytes 8 0)
        (u32 ((s.rm_ctxt.seg_reg seg).base + offset)) bytes).2 :=
    copy_to_residual_eq bytes s.mem _ 0 _ _
  have h1 : (hvm_copy_from_guest_phys s.mem (le_bytes 8 0)
      (u32 ((s.rm_ctxt.seg_reg seg).base + offset)) bytes).2 ≠ 0 := by omega
  have h2 : (hvm_copy_from_guest_phys s.mem (le_bytes 8 0)
      (u32 ((s.rm_ctxt.seg_reg seg).base + offset)) bytes).2 ≠ bytes := by omega
  refine ⟨?_, ?_, hw, ?_, ?_, ?_⟩
  · simp only [realmode_read]; rw [if_pos h1, if_pos h2]
  · simp only [realmode_read]; rw [if_pos h1, if_pos h2]
  · simp only [realmode_emulate_write]; rw [hw, if_pos h1, if_pos h2]
  · simp only [realmode_emulate_write]; rw [hw, if_pos h1, if_pos h2]
  · simp only [realmode_emulate_write]; rw [hw, if_pos h1, if_pos h2]

/-- Witness for C11: a 32-bit access at `0xB7FFF`, whose first byte is the
last byte of a RAM page and whose other three bytes lie in the unbacked page
`0xB8`, is unhandleable and enqueues nothing. -/
theorem partial_copy_is_fatal_witness :
    (realmode_read x86_seg_ds 0xb7fff 4 hvm_access_read mmio_machine).1 =
      X86EMUL_UNHANDLEABLE ∧
    (realmode_read x86_seg_ds 0xb7fff 4 hvm_access_read mmio_machine).2.2 = mmio_machine ∧
    (realmode_emulate_write x86_seg_ds 0xb7fff 0x11223344 4 mmio_machine).1 =
      X86EMUL_UNHANDLEABLE ∧
    (realmode_emulate_write x86_seg_ds 0xb7fff 0x11223344 4 mmio_machine).2.ioreqs = [] := by
  have h := partial_copy_is_fatal x86_seg_ds 0xb7fff 4 0x11223344 hvm_access_read mmio_machine
    (by decide) (by decide)
  exact ⟨h.1, h.2.1, h.2.2.2.1, h.2.2.2.2.2⟩

/-- C12: for every segment, offset and `bytes` in 1..8 such that the bytes at
linear address `(seg_reg[seg].base + offset) mod 2^32` are fully RAM-backed,
`realmode_read` returns ok with the zero-extended little-endian value of
exactly those bytes, which is below `2^(8*bytes)`, and leaves the whole state,
the I/O continuation state included, unchanged; the segment limit plays no
part. -/
theorem read_backed_value (seg : x86_segment) (offset bytes : Nat)
    (access_type : hvm_access_type) (s : Machine)
    (h1 : 1 ≤ bytes) (h8 : bytes ≤ 8)
    (hb : s.mem.backed (u32 ((s.rm_ctxt.seg_reg seg).base + offset)) bytes) :
    realmode_read seg offset bytes access_type s =
      (X86EMUL_OKAY, s.mem.load (u32 ((s.rm_ctxt.seg_reg seg).base + offset)) bytes, s) ∧
    s.mem.load (u32 ((s.rm_ctxt.seg_reg seg).base + offset)) bytes < 2 ^ (8 * bytes) := by
  obtain ⟨hc, hv⟩ := copy_from_backed_value s.mem _ bytes h1 h8 hb
  refine ⟨?_, load_lt _ _ _⟩
  simp only [realmode_read]
  rw [hc]
  simp only [ne_eq, not_true_eq_false, if_false]
  rw [hv]

/-- Witness for C12: the 32-bit read at `DS:0084` of the `INT 21h` machine
returns `0x12340056` and leaves the machine as it was. -/
theorem read_backed_value_witness :
    realmode_read x86_seg_ds 0x84 4 hvm_access_read int21_machine =
      (X86EMUL_OKAY, 0x12340056, int21_machine) := by
  have h := (read_backed_value x86_seg_ds 0x84 4 hvm_access_read int21_machine
    (by decide) (by decide) (fun _ _ => rfl)).1
  rw [h]
  have e : int21_machine.mem.load
      (u32 ((int21_machine.rm_ctxt.seg_reg x86_seg_ds).base + 0x84)) 4 = 0x12340056 := by
    decide
  rw [e]


/-! ## Facts about stores -/

theorem backed_succ (m : GuestMem) (a n : Nat) (hb : m.backed a (n + 1)) :
    m.ram (a >>> PAGE_SHIFT) = true ∧ m.backed (a + 1) n := by
  refine ⟨by simpa using hb 0 (by omega), fun j hj => ?_⟩
  have := hb (j + 1) (by omega)
  rw [show a + 1 + j = a + (j + 1) by omega]
  exact this

theorem copy_to_loop_load (n : Nat) (m : GuestMem) (a v k : Nat) (hk : n ≤ k)
    (hb : m.backed a n) :
    (copy_to_loop n m a (le_bytes k v)).1.load a n = v % 2 ^ (8 * n) := by
  induction n generalizing m a v k with
  | zero => simp [GuestMem.load, Nat.mod_one]
  | succ n ih =>
    obtain ⟨k', rfl⟩ : ∃ k', k = k' + 1 := ⟨k - 1, by omega⟩
    obtain ⟨hr, hb'⟩ := backed_succ m a n hb
    have h3 : (2 : Nat) ^ (8 * (n + 1)) = 2 ^ 8 * 2 ^ (8 * n) := by
      rw [← Nat.pow_add]; congr 1; omega
    have hstep : copy_to_loop (n + 1) m a (le_bytes (k' + 1) v) =
        copy_to_loop n (m.store a (u8 v)) (a + 1) (le_bytes k' (v / 2 ^ 8)) := by
      simp [copy_to_loop, le_bytes, hr]
    rw [hstep]
    unfold GuestMem.load
    rw [copy_to_byte_outside n _ (a + 1) _ a (by omega),
      ih (m.store a (u8 v)) (a + 1) (v / 2 ^ 8) k' (by omega) hb', h3, Nat.mod_mul]
    simp [GuestMem.store, u8]


/-- C13 (counterexample): a byte write to the unbacked address `0xB8000` with
no I/O outstanding sets `io_in_progress` and enqueues one write request, yet
returns ok, not a status other than ok. -/
theorem write_unbacked_returns_ok :
    mmio_machine.hvm_vmx.real_mode_io_in_progress = false ∧
    (realmode_emulate_write x86_seg_ds 0xb8000 0x41 1 mmio_machine).1 = X86EMUL_OKAY ∧
    (realmode_emulate_write x86_seg_ds 0xb8000 0x41 1
      mmio_machine).2.hvm_vmx.real_mode_io_in_progress = true ∧
    (realmode_emulate_write x86_seg_ds 0xb8000 0x41 1 mmio_machine).2.ioreqs =
      [ioreq_t.mk IOREQ_TYPE_COPY 0xb8000 1 1 0x41 IOREQ_WRITE] := by
  refine ⟨rfl, ?_, ?_, ?_⟩ <;> decide

/-- C13 (amended): for every write whose first byte lies in a page that is
not RAM (nothing is copied) with no I/O outstanding, `realmode_emulate_write`
sets `io_in_progress`, enqueues exactly one copy-type write request (address
`(seg_reg[seg].base + offset) mod 2^32`, count 1, size `bytes`, data the
value), changes nothing else and returns ok; for a fully RAM-backed target it
stores the low `bytes` bytes of the value, leaves every byte outside the
target and everything but guest memory unchanged, and returns ok. -/
theorem write_protocol (seg : x86_segment) (offset val bytes : Nat) (s : Machine) :
    (0 < bytes →
      s.mem.ram (u32 ((s.rm_ctxt.seg_reg seg).base + offset) >>> PAGE_SHIFT) = false →
      s.hvm_vmx.real_mode_io_in_progress = false →
      realmode_emulate_write seg offset val bytes s =
        (X86EMUL_OKAY,
          { s with
            hvm_vmx := { s.hvm_vmx with real_mode_io_in_progress := true }
            ioreqs := s.ioreqs ++
              [ioreq_t.mk IOREQ_TYPE_COPY (u32 ((s.rm_ctxt.seg_reg seg).base + offset)) 1 bytes
                val IOREQ_WRITE] })) ∧
    (s.mem.backed (u32 ((s.rm_ctxt.seg_reg seg).base + offset)) bytes →
      (realmode_emulate_write seg offset val bytes s).1 = X86EMUL_OKAY ∧
      (realmode_emulate_write seg offset val bytes s).2 =
        { s with mem := (realmode_emulate_write seg offset val bytes s).2.mem } ∧
      (bytes ≤ 8 →
        (realmode_emulate_write seg offset val bytes s).2.mem.load
          (u32 ((s.rm_ctxt.seg_reg seg).base + offset)) bytes = val % 2 ^ (8 * bytes)) ∧
      ∀ x, x < u32 ((s.rm_ctxt.seg_reg seg).base + offset) ∨
          u32 ((s.rm_ctxt.seg_reg seg).base + offset) + bytes ≤ x →
        (realmode_emulate_write seg offset val bytes s).2.mem.byte x = s.mem.byte x) := by
  constructor
  · intro hpos hun hidle
    have hc : hvm_copy_to_guest_phys s.mem (u32 ((s.rm_ctxt.seg_reg seg).base + offset))
        (le_bytes 8 val) bytes = (s.mem, bytes) := copy_to_unbacked bytes s.mem _ _ hun
    have hne : bytes ≠ 0 := by omega
    simp [realmode_emulate_write, hc, hne, hidle, send_mmio_req]
  · intro hb
    have h0 : (hvm_copy_to_guest_phys s.mem (u32 ((s.rm_ctxt.seg_reg seg).base + offset))
        (le_bytes 8 val) bytes).2 = 0 := (copy_to_residual_zero_iff bytes s.mem _ _).2 hb
    have hres : realmode_emulate_write seg offset val bytes s =
        (X86EMUL_OKAY, { s with mem := (hvm_copy_to_guest_phys s.mem
          (u32 ((s.rm_ctxt.seg_reg seg).base + offset)) (le_bytes 8 val) bytes).1 }) := by
      simp only [realmode_emulate_write]
      rw [h0]
      simp
    rw [hres]
    refine ⟨rfl, rfl, fun h8 => ?_, fun x hx => ?_⟩
    · exact copy_to_loop_load bytes s.mem _ val 8 h8 hb
    · exact copy_to_byte_outside bytes s.mem _ _ x hx

/-- Witness for C13 (amended): the byte write of `0x41` to the unbacked
address `0xB8000` is handed to the device model and returns ok. -/
theorem write_protocol_witness :
    realmode_emulate_write x86_seg_ds 0xb8000 0x41 1 mmio_machine =
      (X86EMUL_OKAY,
        { mmio_machine with
          hvm_vmx := { mmio_machine.hvm_vmx with real_mode_io_in_progress := true }
          ioreqs := mmio_machine.ioreqs ++
            [ioreq_t.mk IOREQ_TYPE_COPY
              (u32 ((mmio_machine.rm_ctxt.seg_reg x86_seg_ds).base + 0xb8000)) 1 1 0x41
              IOREQ_WRITE] }) :=
  (write_protocol x86_seg_ds 0xb8000 0x41 1 mmio_machine).1 (by decide) (by decide) rfl

/-- C14: MMIO read round trip.  From `io_in_progress = io_completed = false`,
for every read whose first byte lies in a page that is not RAM and every
payload `d`: the read returns a status other than ok with `io_in_progress`
set; `vmx_realmode_io_complete` with a read-direction response carrying `d`
then returns 1 and leaves `io_in_progress` clear, `io_completed` set and
`io_data = d`; and the same read issued again returns ok with value `d`,
enqueues no second request and leaves both flags clear. -/
theorem mmio_read_round_trip (seg : x86_segment) (offset bytes d : Nat)
    (access_type : hvm_access_type) (p : ioreq_t) (s : Machine)
    (hbytes : 0 < bytes)
    (hun : s.mem.ram (u32 ((s.rm_ctxt.seg_reg seg).base + offset) >>> PAGE_SHIFT) = false)
    (hidle : s.hvm_vmx.real_mode_io_in_progress = false)
    (hnone : s.hvm_vmx.real_mode_io_completed = false)
    (hdir : p.dir = IOREQ_READ) (hdata : p.data = d) :
    (realmode_read seg offset bytes access_type s).1 ≠ X86EMUL_OKAY ∧
    (realmode_read seg offset bytes access_type s).2.2.hvm_vmx.real_mode_io_in_progress = true ∧
    (vmx_realmode_io_complete p (realmode_read seg offset bytes access_type s).2.2).1 = 1 ∧
    (vmx_realmode_io_complete p (realmode_read seg offset bytes access_type s).2.2).2.hvm_vmx =
      ⟨false, true, d⟩ ∧
    (realmode_read seg offset bytes access_type
      (vmx_realmode_io_complete p (realmode_read seg offset bytes access_type s).2.2).2).1 =
        X86EMUL_OKAY ∧
    (realmode_read seg offset bytes access_type
      (vmx_realmode_io_complete p (realmode_read seg offset bytes access_type s).2.2).2).2.1 =
        d ∧
    (realmode_read seg offset bytes access_type
      (vmx_realmode_io_complete p (realmode_read seg offset bytes access_type s).2.2).2).2.2.ioreqs =
        s.ioreqs ++
          [ioreq_t.mk IOREQ_TYPE_COPY (u32 ((s.rm_ctxt.seg_reg seg).base + offset)) 1 bytes 0
            IOREQ_READ] ∧
    (realmode_read seg offset bytes access_type
      (vmx_realmode_io_complete p (realmode_read seg offset bytes access_type s).2.2).2).2.2.hvm_vmx =
        ⟨false, false, d⟩ := by
  have hc : hvm_copy_from_guest_phys s.mem (le_bytes 8 0)
      (u32 ((s.rm_ctxt.seg_reg seg).base + offset)) bytes = (le_bytes 8 0, bytes) :=
    copy_from_unbacked s.mem bytes _ 0 _ hun
  have hne : bytes ≠ 0 := by omega
  have h1 : realmode_read seg offset bytes access_type s =
      (X86EMUL_UNHANDLEABLE, le_value (le_bytes 8 0),
        { s with
          hvm_vmx := { s.hvm_vmx with real_mode_io_in_progress := true }
          ioreqs := s.ioreqs ++
            [ioreq_t.mk IOREQ_TYPE_COPY (u32 ((s.rm_ctxt.seg_reg seg).base + offset)) 1 bytes 0
              IOREQ_READ] }) := by
    simp [realmode_read, hc, hne, hidle, hnone, send_mmio_req]
  rw [h1]
  subst hdata
  simp [vmx_realmode_io_complete, hdir, hnone, realmode_read, hc, hne, X86EMUL_UNHANDLEABLE,
    X86EMUL_OKAY]

/-- Witness for C14: the byte read of `0xB8000` with the device model
answering `0x37` yields `0x37` on the retry. -/
theorem mmio_read_round_trip_witness :
    (realmode_read x86_seg_ds 0xb8000 1 hvm_access_read
      (vmx_realmode_io_complete (ioreq_t.mk IOREQ_TYPE_COPY 0xb8000 1 1 0x37 IOREQ_READ)
        (realmode_read x86_seg_ds 0xb8000 1 hvm_access_read mmio_machine).2.2).2).1 =
      X86EMUL_OKAY ∧
    (realmode_read x86_seg_ds 0xb8000 1 hvm_access_read
      (vmx_realmode_io_complete (ioreq_t.mk IOREQ_TYPE_COPY 0xb8000 1 1 0x37 IOREQ_READ)
        (realmode_read x86_seg_ds 0xb8000 1 hvm_access_read mmio_machine).2.2).2).2.1 =
      0x37 := by
  have h := mmio_read_round_trip x86_seg_ds 0xb8000 1 0x37 hvm_access_read
    (ioreq_t.mk IOREQ_TYPE_COPY 0xb8000 1 1 0x37 IOREQ_READ) mmio_machine
    (by decide) (by decide) rfl rfl rfl rfl
  exact ⟨h.2.2.2.2.1, h.2.2.2.2.2.1⟩

/-- C15: `vmx_realmode_io_complete` returns 0 and changes nothing when
`io_in_progress` is clear; when it is set it returns 1, clears
`io_in_progress`, and sets `io_completed` with `io_data` the response payload
exactly when the response direction is read, a response of any other
direction leaving `io_completed` and `io_data` as they were; nothing outside
the continuation state changes. -/
theorem io_complete_behaviour (p : ioreq_t) (s : Machine) :
    (s.hvm_vmx.real_mode_io_in_progress = false →
      vmx_realmode_io_complete p s = (0, s)) ∧
    (s.hvm_vmx.real_mode_io_in_progress = true →
      (p.dir = IOREQ_READ →
        vmx_realmode_io_complete p s =
          (1, { s with hvm_vmx := ⟨false, true, p.data⟩ })) ∧
      (p.dir ≠ IOREQ_READ →
        vmx_realmode_io_complete p s =
          (1, { s with hvm_vmx :=
            ⟨false, s.hvm_vmx.real_mode_io_completed, s.hvm_vmx.real_mode_io_data⟩ }))) := by
  refine ⟨fun h => ?_, fun h => ⟨fun hd => ?_, fun hd => ?_⟩⟩
  · simp [vmx_realmode_io_complete, h]
  · simp [vmx_realmode_io_complete, h, hd]
  · simp [vmx_realmode_io_complete, h, hd]

/-- Witness for C15: a read response carrying `0x37` completes the
outstanding request of `busy_machine`. -/
theorem io_complete_behaviour_witness :
    vmx_realmode_io_complete (ioreq_t.mk IOREQ_TYPE_COPY 0xb8000 1 1 0x37 IOREQ_READ)
        busy_machine =
      (1, { busy_machine with hvm_vmx := ⟨false, true, 0x37⟩ }) :=
  ((io_complete_behaviour (ioreq_t.mk IOREQ_TYPE_COPY 0xb8000 1 1 0x37 IOREQ_READ)
    busy_machine).2 rfl).1 rfl


/-! ## Instruction fetch and port I/O: claims -/

/-- C16 (the code at the failing input): with the window anchored at `0x100`,
a one-byte fetch at offset `0xFF`, below the window, is not passed on to
`realmode_read`: the index computed is `0xFFFFFFFF`, the sum
`insn_off + bytes` wraps to 0 and passes the test, so the fetch is served as
a window hit (it returns ok and enqueues nothing, where `realmode_read` on
the unbacked code page would have returned unhandleable and enqueued a
request).  Likewise a fetch at offset `0x100 + 2^32` is served from index 0 of
the window. -/
theorem insn_fetch_below_window_hits :
    unbacked_code_machine.rm_ctxt.insn_buf_eip = 0x100 ∧
    u32 (u64 (0xff + 2 ^ 64 - unbacked_code_machine.rm_ctxt.insn_buf_eip)) = 0xffffffff ∧
    u32 (0xffffffff + 1) ≤ 16 ∧
    realmode_emulate_insn_fetch x86_seg_cs 0xff 1 unbacked_code_machine =
      (X86EMUL_OKAY,
        le_value ((unbacked_code_machine.rm_ctxt.insn_buf.drop 0xffffffff).take 1),
        unbacked_code_machine) ∧
    (realmode_read x86_seg_cs 0xff 1 hvm_access_insn_fetch unbacked_code_machine).1 =
      X86EMUL_UNHANDLEABLE ∧
    (realmode_read x86_seg_cs 0xff 1 hvm_access_insn_fetch unbacked_code_machine).2.2.ioreqs =
      [ioreq_t.mk IOREQ_TYPE_COPY 0xf00ff 1 1 0 IOREQ_READ] ∧
    realmode_emulate_insn_fetch x86_seg_cs (0x100 + 2 ^ 32) 1 unbacked_code_machine =
      (X86EMUL_OKAY, le_value ((unbacked_code_machine.rm_ctxt.insn_buf.drop 0).take 1),
        unbacked_code_machine) := by
  refine ⟨rfl, by decide, by decide, ?_, by decide, by decide, ?_⟩
  · have h : ¬ (u32 (u32 (u64 (0xff + 2 ^ 64 - unbacked_code_machine.rm_ctxt.insn_buf_eip)) + 1)
        > 16) := by decide
    simp only [realmode_emulate_insn_fetch]
    rw [if_neg h]
    rfl
  · have h : ¬ (u32 (u32 (u64 (0x100 + 2 ^ 32 + 2 ^ 64 -
        unbacked_code_machine.rm_ctxt.insn_buf_eip)) + 1) > 16) := by decide
    simp only [realmode_emulate_insn_fetch]
    rw [if_neg h]
    rfl

/-- C17: `realmode_read_io`, for every port and size: with `io_in_progress`
set it returns unhandleable, changes nothing and enqueues nothing; else with
`io_completed` set it returns ok with value `io_data` and clears
`io_completed`, changing and enqueuing nothing else; else it sets
`io_in_progress`, enqueues exactly one pio-type read request (port, count 1,
size `bytes`) and returns unhandleable, a status other than ok. -/
theorem read_io_behaviour (port bytes : Nat) (s : Machine) :
    (s.hvm_vmx.real_mode_io_in_progress = true →
      realmode_read_io port bytes s = (X86EMUL_UNHANDLEABLE, none, s)) ∧
    (s.hvm_vmx.real_mode_io_in_progress = false →
      s.hvm_vmx.real_mode_io_completed = true →
      realmode_read_io port bytes s =
        (X86EMUL_OKAY, some s.hvm_vmx.real_mode_io_data,
          { s with hvm_vmx := { s.hvm_vmx with real_mode_io_completed := false } })) ∧
    (s.hvm_vmx.real_mode_io_in_progress = false →
      s.hvm_vmx.real_mode_io_completed = false →
      realmode_read_io port bytes s =
        (X86EMUL_UNHANDLEABLE, none,
          { s with
            hvm_vmx := { s.hvm_vmx with real_mode_io_in_progress := true }
            ioreqs := s.ioreqs ++ [ioreq_t.mk IOREQ_TYPE_PIO port 1 bytes 0 IOREQ_READ] })) ∧
    X86EMUL_UNHANDLEABLE ≠ X86EMUL_OKAY := by
  refine ⟨fun h => ?_, fun h hc => ?_, fun h hc => ?_, by decide⟩
  · simp [realmode_read_io, h]
  · simp [realmode_read_io, h, hc]
  · simp [realmode_read_io, h, hc, send_pio_req]

/-- Witness for C17: a byte read of port `0x60` with nothing outstanding
enqueues one request; with a completion stored it returns `0x37`. -/
theorem read_io_behaviour_witness :
    realmode_read_io 0x60 1 busy_machine = (X86EMUL_UNHANDLEABLE, none, busy_machine) ∧
    (realmode_read_io 0x60 1 completed_machine).2.1 = some 0x37 ∧
    (realmode_read_io 0x60 1 mmio_machine).2.2.ioreqs =
      [ioreq_t.mk IOREQ_TYPE_PIO 0x60 1 1 0 IOREQ_READ] := by
  have h := read_io_behaviour 0x60 1 busy_machine
  have hc := (read_io_behaviour 0x60 1 completed_machine).2.1 rfl rfl
  have hm := (read_io_behaviour 0x60 1 mmio_machine).2.2.1 rfl rfl
  refine ⟨h.1 rfl, ?_, ?_⟩
  · rw [hc]; rfl
  · rw [hm]; rfl

/-- C18 (counterexample): a byte write to port `0x80` with no I/O outstanding
sets `io_in_progress` and enqueues one write request, yet returns ok, not a
status other than ok. -/
theorem write_io_returns_ok :
    mmio_machine.hvm_vmx.real_mode_io_in_progress = false ∧
    (realmode_write_io 0x80 1 0x41 mmio_machine).1 = X86EMUL_OKAY ∧
    (realmode_write_io 0x80 1 0x41 mmio_machine).2.hvm_vmx.real_mode_io_in_progress = true ∧
    (realmode_write_io 0x80 1 0x41 mmio_machine).2.ioreqs =
      [ioreq_t.mk IOREQ_TYPE_PIO 0x80 1 1 0x41 IOREQ_WRITE] := by
  refine ⟨rfl, ?_, ?_, ?_⟩ <;> decide

/-- C18 (amended): `realmode_write_io`, for every port other than `0xE9`:
with `io_in_progress` set it returns unhandleable, changes nothing and
enqueues nothing; otherwise it sets `io_in_progress`, enqueues exactly one
pio-type write request (port, count 1, size `bytes`, data the value), changes
nothing else and returns ok. -/
theorem write_io_behaviour (port bytes val : Nat) (s : Machine) (hport : port ≠ 0xe9) :
    (s.hvm_vmx.real_mode_io_in_progress = true →
      realmode_write_io port bytes val s = (X86EMUL_UNHANDLEABLE, s)) ∧
    (s.hvm_vmx.real_mode_io_in_progress = false →
      realmode_write_io port bytes val s =
        (X86EMUL_OKAY,
          { s with
            hvm_vmx := { s.hvm_vmx with real_mode_io_in_progress := true }
            ioreqs := s.ioreqs ++
              [ioreq_t.mk IOREQ_TYPE_PIO port 1 bytes val IOREQ_WRITE] })) := by
  refine ⟨fun h => ?_, fun h => ?_⟩
  · simp [realmode_write_io, hport, h]
  · simp [realmode_write_io, hport, h, send_pio_req]

/-- Witness for C18 (amended): the byte write of `0x41` to port `0x80`. -/
theorem write_io_behaviour_witness :
    realmode_write_io 0x80 1 0x41 busy_machine = (X86EMUL_UNHANDLEABLE, busy_machine) ∧
    (realmode_write_io 0x80 1 0x41 mmio_machine).1 = X86EMUL_OKAY := by
  have h := write_io_behaviour 0x80 1 0x41 busy_machine (by decide)
  have h' := (write_io_behaviour 0x80 1 0x41 mmio_machine (by decide)).2 rfl
  refine ⟨h.1 rfl, ?_⟩
  rw [h']

/-- C19: for every value, every size and every I/O continuation state, a
write to port `0xE9` returns ok, appends the low byte of the value to the
debug console, enqueues no I/O request and changes nothing else, so that
`io_in_progress`, `io_completed` and `io_data` are as before. -/
theorem debug_port_write (bytes val : Nat) (s : Machine) :
    realmode_write_io 0xe9 bytes val s =
      (X86EMUL_OKAY, { s with debug_console := s.debug_console ++ [val % 2 ^ 8] }) ∧
    (realmode_write_io 0xe9 bytes val s).2.ioreqs = s.ioreqs ∧
    (realmode_write_io 0xe9 bytes val s).2.hvm_vmx = s.hvm_vmx := by
  refine ⟨?_, ?_, ?_⟩ <;> simp [realmode_write_io, hvm_print_line, u8]

/-- Witness for C19: `out 0xE9, 'A'` delivers `0x41` to the debug console,
even while an I/O request is outstanding. -/
theorem debug_port_write_witness :
    (realmode_write_io 0xe9 1 0x41 busy_machine).1 = X86EMUL_OKAY ∧
    (realmode_write_io 0xe9 1 0x41 busy_machine).2.debug_console = [0x41] ∧
    (realmode_write_io 0xe9 1 0x41 busy_machine).2.ioreqs = [] := by
  have h := debug_port_write 1 0x41 busy_machine
  refine ⟨?_, ?_, ?_⟩
  · rw [h.1]
  · rw [h.1]; rfl
  · rw [h.2.1]; rfl


/-! ## Fuel -/

theorem escalation_loop_fuel_succ (fuel limit v l p : Nat) (r : Escalation × Nat)
    (h : escalation_loop fuel limit v l p = some r) :
    escalation_loop (fuel + 1) limit v l p = some r := by
  induction fuel generalizing v l p with
  | zero => simp [escalation_loop] at h
  | succ fuel ih =>
    unfold escalation_loop at h ⊢
    cases hc : idt_limit_check limit v l with
    | again v' l' =>
      rw [hc] at h
      exact ih v' l' (p + 1) h
    | triple_fault => rw [hc] at h; exact h
    | deliver v' l' => rw [hc] at h; exact h

theorem deliver_fuel_succ (fuel cs_eip0 v l : Nat) (s s' : Machine)
    (h : realmode_deliver_exception fuel cs_eip0 v l s = some s') :
    realmode_deliver_exception (fuel + 1) cs_eip0 v l s = some s' := by
  unfold realmode_deliver_exception at h ⊢
  cases hl : escalation_loop fuel (s.rm_ctxt.seg_reg x86_seg_idtr).limit v l 0 with
  | none => rw [hl] at h; simp at h
  | some r =>
    rw [escalation_loop_fuel_succ _ _ _ _ _ r hl]
    rw [hl] at h
    exact h

theorem vmx_realmode_loop_fuel_succ (rt : Runtime) (fuel iter : Nat) (rc : Int) (s : Machine)
    (steps : List (Int × Machine)) (r : realmode_exit)
    (h : vmx_realmode_loop rt fuel iter rc s steps = some r) :
    vmx_realmode_loop rt (fuel + 1) iter rc s steps = some r := by
  induction fuel generalizing iter rc s steps with
  | zero => simp [vmx_realmode_loop] at h
  | succ fuel ih =>
    unfold vmx_realmode_loop at h ⊢
    dsimp only at h ⊢
    split_ifs at h ⊢ with hcond hio hun
    · exact h
    · exact h
    · exact ih _ _ _ _ h
    · exact h

theorem inject_pending_fuel_succ (fuel cs_eip0 : Nat) (s s' : Machine)
    (h : inject_pending fuel cs_eip0 s = some s') :
    inject_pending (fuel + 1) cs_eip0 s = some s' := by
  unfold inject_pending at h ⊢
  dsimp only at h ⊢
  split_ifs at h ⊢ with hv
  · exact deliver_fuel_succ _ _ _ _ _ _ h
  · exact h

theorem vmx_realmode_fuel_succ (rt : Runtime) (fuel cs_eip0 : Nat) (s : Machine)
    (r : realmode_exit) (h : vmx_realmode rt fuel cs_eip0 s = some r) :
    vmx_realmode rt (fuel + 1) cs_eip0 s = some r := by
  unfold vmx_realmode at h ⊢
  cases hinj : inject_pending fuel cs_eip0 (load_segments s) with
  | none => rw [hinj] at h; simp at h
  | some s1 =>
    rw [hinj] at h
    rw [inject_pending_fuel_succ _ _ _ _ hinj]
    dsimp only at h ⊢
    cases hloop : vmx_realmode_loop rt fuel 0 0 s1 [] with
    | none => rw [hloop] at h; simp at h
    | some r1 =>
      rw [hloop] at h
      rw [vmx_realmode_loop_fuel_succ rt fuel 0 0 s1 [] r1 hloop]
      exact h

theorem vmx_realmode_fuel_add (rt : Runtime) (fuel cs_eip0 : Nat) (s : Machine)
    (r : realmode_exit) (h : vmx_realmode rt fuel cs_eip0 s = some r) (k : Nat) :
    vmx_realmode rt (fuel + k) cs_eip0 s = some r := by
  induction k with
  | zero => exact h
  | succ k ih => exact vmx_realmode_fuel_succ rt (fuel + k) cs_eip0 s r ih

/-! ## The dispatch loop: return code -/

theorem getLast_snoc {α : Type} (l : List α) (a : α) : (l ++ [a]).getLast? = some a := by
  simp

theorem vmx_realmode_loop_rc (rt : Runtime)
    (hdec : ∀ s, (rt.x86_emulate s).1 = X86EMUL_OKAY ∨ (rt.x86_emulate s).1 = X86EMUL_UNHANDLEABLE)
    (fuel iter : Nat) (rc : Int) (s : Machine) (steps : List (Int × Machine))
    (r : realmode_exit)
    (hrc : rc = 0)
    (hsteps : ∀ st, steps.getLast? ≠ some (X86EMUL_UNHANDLEABLE, st))
    (h : vmx_realmode_loop rt fuel iter rc s steps = some r) :
    (r.rc = 0 ∨ r.rc = -EINVAL) ∧
    (r.rc = -EINVAL ↔
      ∃ st, r.steps.getLast? = some (X86EMUL_UNHANDLEABLE, st) ∧
        st.hvm_vmx.real_mode_io_in_progress = false) := by
  induction fuel generalizing iter rc s steps with
  | zero => simp [vmx_realmode_loop] at h
  | succ fuel ih =>
    unfold vmx_realmode_loop at h
    dsimp only at h
    split_ifs at h with hcond hio hun
    · -- I/O forwarded during the step
      have e := Option.some.inj h
      subst e
      refine ⟨Or.inl rfl, ?_⟩
      simp only [getLast_snoc]
      constructor
      · intro h0; exact absurd h0 (by decide)
      · rintro ⟨st, hst, hclear⟩
        have : rt.x86_emulate (prefetch s) = (X86EMUL_UNHANDLEABLE, st) := Option.some.inj hst
        rw [this] at hio
        simp only at hio
        rw [hio] at hclear
        exact absurd hclear (by decide)
    · -- the step was unhandleable with no I/O forwarded
      have e := Option.some.inj h
      subst e
      refine ⟨Or.inr rfl, ?_⟩
      simp only [getLast_snoc, true_iff]
      refine ⟨(rt.x86_emulate (prefetch s)).2, ?_, by simpa using hio⟩
      rw [← hun]
    · -- the loop goes round
      have hok : (rt.x86_emulate (prefetch s)).1 = X86EMUL_OKAY := by
        rcases hdec (prefetch s) with h1 | h1
        · exact h1
        · exact absurd h1 hun
      refine ih (iter + 1) _ _ _ (by rw [hok]; rfl) ?_ h
      intro st hst
      rw [getLast_snoc] at hst
      have := congrArg Prod.fst (Option.some.inj hst)
      simp only at this
      exact hun this
    · -- the loop condition fails
      have e := Option.some.inj h
      subst e
      refine ⟨Or.inl hrc, ?_⟩
      simp only
      constructor
      · intro h0; rw [hrc] at h0; exact absurd h0 (by decide)
      · rintro ⟨st, hst, _⟩
        exact absurd hst (hsteps st)

/-- C20: for a decoder that returns only ok or unhandleable, whenever
`vmx_realmode` returns, it returns either 0 or the negative error `-EINVAL`;
it returns the negative error exactly when the last decode step returned
unhandleable while `io_in_progress` was clear right after it, and 0 on every
other exit (`io_in_progress` set after a step, whatever that step returned, or
the loop condition failing at the top of the loop).  The result does not
depend on the fuel: every larger bound gives the same result. -/
theorem vmx_realmode_return_code (rt : Runtime)
    (hdec : ∀ s, (rt.x86_emulate s).1 = X86EMUL_OKAY ∨ (rt.x86_emulate s).1 = X86EMUL_UNHANDLEABLE)
    (fuel cs_eip0 : Nat) (s : Machine) (r : realmode_exit)
    (h : vmx_realmode rt fuel cs_eip0 s = some r) :
    (r.rc = 0 ∨ r.rc = -EINVAL) ∧ -EINVAL < 0 ∧
    (r.rc = -EINVAL ↔
      ∃ st, r.steps.getLast? = some (X86EMUL_UNHANDLEABLE, st) ∧
        st.hvm_vmx.real_mode_io_in_progress = false) ∧
    (r.rc = 0 ↔
      ¬ ∃ st, r.steps.getLast? = some (X86EMUL_UNHANDLEABLE, st) ∧
        st.hvm_vmx.real_mode_io_in_progress = false) ∧
    ∀ k, vmx_realmode rt (fuel + k) cs_eip0 s = some r := by
  have hfuel := vmx_realmode_fuel_add rt fuel cs_eip0 s r h
  unfold vmx_realmode at h
  split at h
  · exact absurd h (by simp)
  · rename_i s1 _
    split at h
    · exact absurd h (by simp)
    · rename_i r1 hloop
      have e := Option.some.inj h
      subst e
      have hl := vmx_realmode_loop_rc rt hdec fuel 0 0 s1 [] r1 rfl (by simp) hloop
      refine ⟨hl.1, by decide, hl.2, ?_, hfuel⟩
      simp only
      rw [← hl.2]
      rcases hl.1 with h0 | h0
      · rw [h0]; simp; decide
      · rw [h0]; simp; decide

/-- Witness for C20: with a decoder that fails on the first instruction and
forwards no I/O, `vmx_realmode` returns `-EINVAL` after one decode step; with
a decoder whose instruction is an MMIO load, the step is unhandleable too but
leaves `io_in_progress` set, and `vmx_realmode` returns 0. -/
theorem vmx_realmode_return_code_witness :
    (∃ r, vmx_realmode failing_decoder 3 0 int21_machine = some r ∧ r.rc = -EINVAL ∧
      ∃ st, r.steps.getLast? = some (X86EMUL_UNHANDLEABLE, st) ∧
        st.hvm_vmx.real_mode_io_in_progress = false) ∧
    (∃ r, vmx_realmode mmio_load_decoder 3 0 mmio_machine = some r ∧ r.rc = 0 ∧
      r.steps.length = 1 ∧ r.final.hvm_vmx.real_mode_io_in_progress = true) := by
  constructor
  · have h := vmx_realmode_return_code failing_decoder (fun _ => Or.inr rfl) 3 0 int21_machine
      _ rfl
    exact ⟨_, rfl, by decide, h.2.2.1.1 (by decide)⟩
  · exact ⟨_, rfl, by decide, by decide, by decide⟩


/-! ## Facts about single bits -/

theorem and_two_pow_ne_zero_iff (x n : Nat) : x &&& 2 ^ n ≠ 0 ↔ x.testBit n = true := by
  constructor
  · intro h
    by_contra hb
    apply h
    apply Nat.eq_of_testBit_eq
    intro i
    rw [Nat.testBit_and, Nat.testBit_two_pow, Nat.zero_testBit]
    by_cases hi : n = i
    · subst hi; simp at hb; simp [hb]
    · simp [hi]
  · intro hb h
    have := congrArg (fun y => y.testBit n) h
    simp [Nat.testBit_two_pow, hb] at this

theorem testBit_u32_xor_two_pow (x k i : Nat) (hk : k < 32) (hx : x < 2 ^ 32) :
    (u32 x ^^^ 2 ^ k).testBit i = if i = k then !x.testBit i else x.testBit i := by
  have hu : u32 x = x := Nat.mod_eq_of_lt hx
  rw [hu, Nat.testBit_xor, Nat.testBit_two_pow]
  by_cases hi : i = k
  · subst hi; simp
  · have : ¬ k = i := fun e => hi e.symm
    simp [hi, this]

theorem testBit_u32_xor_self_bit (x k : Nat) (hk : k < 32) :
    (u32 x ^^^ 2 ^ k).testBit k = !x.testBit k := by
  unfold u32
  rw [Nat.testBit_xor, Nat.testBit_two_pow, Nat.testBit_mod_two_pow]
  simp [hk]


/-! ## Segment, control-register and flags callbacks: claims -/

/-- C22 (counterexample): `realmode_write_segment` for CS with a value whose
selector is `0x1234` and whose base is 0 returns ok and leaves
`seg_reg[CS].base = 0`, which is not `0x1234 << 4`. -/
theorem write_segment_cs_breaks_invariant :
    (realmode_write_segment x86_seg_cs ⟨0x1234, ⟨false, 0⟩, 0xffff, 0⟩ int21_machine).1 =
      X86EMUL_OKAY ∧
    ((realmode_write_segment x86_seg_cs ⟨0x1234, ⟨false, 0⟩, 0xffff, 0⟩
      int21_machine).2.rm_ctxt.seg_reg x86_seg_cs).base ≠
    ((realmode_write_segment x86_seg_cs ⟨0x1234, ⟨false, 0⟩, 0xffff, 0⟩
      int21_machine).2.rm_ctxt.seg_reg x86_seg_cs).sel <<< 4 := by
  constructor <;> decide

/-- C22 (amended): after every `realmode_deliver_exception` that delivers a
vector (every return that is not the triple fault) the snapshot satisfies
`seg_reg[CS].base = seg_reg[CS].sel << 4`; `realmode_write_segment(CS, v)`
stores `v` as it is, so that after it the snapshot satisfies the equation
exactly when the value supplied does (`v.base = v.sel << 4`). -/
theorem cs_invariant_after_writes (fuel cs_eip0 vector insn_len : Nat)
    (v : segment_register) (s s' : Machine)
    (h : realmode_deliver_exception fuel cs_eip0 vector insn_len s = some s') :
    (s' = hvm_triple_fault s ∨
      (s'.rm_ctxt.seg_reg x86_seg_cs).base = (s'.rm_ctxt.seg_reg x86_seg_cs).sel <<< 4) ∧
    (realmode_write_segment x86_seg_cs v s).2.rm_ctxt.seg_reg x86_seg_cs = v ∧
    (((realmode_write_segment x86_seg_cs v s).2.rm_ctxt.seg_reg x86_seg_cs).base =
        ((realmode_write_segment x86_seg_cs v s).2.rm_ctxt.seg_reg x86_seg_cs).sel <<< 4 ↔
      v.base = v.sel <<< 4) := by
  have hw : (realmode_write_segment x86_seg_cs v s).2.rm_ctxt.seg_reg x86_seg_cs = v := by
    simp [realmode_write_segment]
  refine ⟨?_, hw, by rw [hw]⟩
  unfold realmode_deliver_exception at h
  split at h
  · exact absurd h (by simp)
  · have e := Option.some.inj h
    subst e
    exact Or.inr (deliver_frame_cs_base _ _ _ _)
  · have e := Option.some.inj h
    exact Or.inl e.symm

/-- Witness for C22 (amended): `INT 21h` on the machine with `0x12340056` at
`0x84` leaves `CS.base = 0x12340 = CS.sel << 4`. -/
theorem cs_invariant_after_writes_witness :
    ∃ s', realmode_deliver_exception 1 0 0x21 2 int21_machine = some s' ∧
      (s'.rm_ctxt.seg_reg x86_seg_cs).base = (s'.rm_ctxt.seg_reg x86_seg_cs).sel <<< 4 := by
  have hd := deliver_present 0 0 0x21 2 int21_machine (by decide)
  have h := (cs_invariant_after_writes 1 0 0x21 2 (int21_segs x86_seg_cs) int21_machine _
    hd).1
  refine ⟨_, hd, ?_⟩
  rcases h with h | h
  · have := congrArg Machine.triple_faults h
    simp [deliver_frame, hvm_triple_fault] at this
  · exact h

/-- C23: segment round trip.  For each of the ten segment registers,
`realmode_read_segment` returns ok with the snapshot entry and leaves the
state as it is; `realmode_write_segment(seg, v)` followed by
`realmode_read_segment(seg)` returns `v`; writing back the value just read
leaves every snapshot entry unchanged; and a write to `seg` leaves the other
nine entries unchanged. -/
theorem segment_round_trip (seg : x86_segment) (v : segment_register) (s : Machine) :
    realmode_read_segment seg s = (X86EMUL_OKAY, s.rm_ctxt.seg_reg seg, s) ∧
    (realmode_write_segment seg v s).1 = X86EMUL_OKAY ∧
    (realmode_read_segment seg (realmode_write_segment seg v s).2).2.1 = v ∧
    (realmode_write_segment seg (realmode_read_segment seg s).2.1 s).2.rm_ctxt.seg_reg =
      s.rm_ctxt.seg_reg ∧
    (∀ other, other ≠ seg →
      (realmode_write_segment seg v s).2.rm_ctxt.seg_reg other = s.rm_ctxt.seg_reg other) ∧
    (∀ x : x86_segment, x = x86_seg_es ∨ x = x86_seg_cs ∨ x = x86_seg_ss ∨ x = x86_seg_ds ∨
      x = x86_seg_fs ∨ x = x86_seg_gs ∨ x = x86_seg_tr ∨ x = x86_seg_ldtr ∨
      x = x86_seg_gdtr ∨ x = x86_seg_idtr) := by
  refine ⟨rfl, ?_, ?_, ?_, ?_, ?_⟩
  · unfold realmode_write_segment; dsimp only; split_ifs <;> rfl
  · unfold realmode_write_segment realmode_read_segment; dsimp only; split_ifs <;> simp
  · funext x
    unfold realmode_write_segment realmode_read_segment; dsimp only
    split_ifs <;> simp_all
  · intro other ho
    unfold realmode_write_segment; dsimp only
    split_ifs <;> simp [ho]
  · intro x; cases x <;> simp


/-- C25: `realmode_write_segment(seg, v)` returns ok and stores `v` into the
snapshot; exactly when `seg` is SS it flips the MOV-SS bit (bit 1) of the
32-bit guest interruptibility field and leaves every other bit of the field
unchanged; for every other segment the field is not modified. -/
theorem write_segment_shadow (seg : x86_segment) (v : segment_register) (s : Machine)
    (hf : s.guest_interruptibility_info < 2 ^ 32) :
    (realmode_write_segment seg v s).1 = X86EMUL_OKAY ∧
    (realmode_write_segment seg v s).2.rm_ctxt.seg_reg seg = v ∧
    VMX_INTR_SHADOW_MOV_SS = 2 ^ 1 ∧
    (seg = x86_seg_ss →
      (realmode_write_segment seg v s).2.guest_interruptibility_info =
        s.guest_interruptibility_info ^^^ VMX_INTR_SHADOW_MOV_SS ∧
      (realmode_write_segment seg v s).2.guest_interruptibility_info.testBit 1 =
        !s.guest_interruptibility_info.testBit 1 ∧
      ∀ i, i ≠ 1 →
        (realmode_write_segment seg v s).2.guest_interruptibility_info.testBit i =
          s.guest_interruptibility_info.testBit i) ∧
    (seg ≠ x86_seg_ss →
      (realmode_write_segment seg v s).2.guest_interruptibility_info =
        s.guest_interruptibility_info) := by
  have hu : u32 s.guest_interruptibility_info = s.guest_interruptibility_info :=
    Nat.mod_eq_of_lt hf
  refine ⟨?_, ?_, rfl, fun hss => ?_, fun hne => ?_⟩
  · unfold realmode_write_segment; dsimp only; split_ifs <;> rfl
  · unfold realmode_write_segment; dsimp only; split_ifs <;> simp
  · have e : (realmode_write_segment seg v s).2.guest_interruptibility_info =
        u32 s.guest_interruptibility_info ^^^ 2 ^ 1 := by
      unfold realmode_write_segment; dsimp only; rw [if_pos hss]; rfl
    rw [e]
    refine ⟨by rw [hu]; rfl, ?_, fun i hi => ?_⟩
    · rw [testBit_u32_xor_two_pow _ 1 1 (by decide) hf]; simp
    · rw [testBit_u32_xor_two_pow _ 1 i (by decide) hf, if_neg hi]
  · unfold realmode_write_segment; dsimp only; rw [if_neg hne]

/-- Witness for C25: a write to SS with the interruptibility field 0 sets the
field to 2, and a write to DS leaves it 0. -/
theorem write_segment_shadow_witness :
    (realmode_write_segment x86_seg_ss (int21_segs x86_seg_ss)
      int21_machine).2.guest_interruptibility_info = 2 ∧
    (realmode_write_segment x86_seg_ds (int21_segs x86_seg_ds)
      int21_machine).2.guest_interruptibility_info = 0 := by
  have h := write_segment_shadow x86_seg_ss (int21_segs x86_seg_ss) int21_machine (by decide)
  have h' := write_segment_shadow x86_seg_ds (int21_segs x86_seg_ds) int21_machine (by decide)
  refine ⟨?_, ?_⟩
  · rw [(h.2.2.2.1 rfl).1]; decide
  · rw [h'.2.2.2.2 (by decide)]; rfl

/-- C26 (counterexample): with the MOV-SS shadow bit already set in the
interruptibility field, a write to SS through `realmode_write_segment` leaves
the bit clear. -/
theorem write_ss_clears_set_shadow :
    mov_ss_shadow_machine.guest_interruptibility_info.testBit 1 = true ∧
    (realmode_write_segment x86_seg_ss (int21_segs x86_seg_ss)
      mov_ss_shadow_machine).1 = X86EMUL_OKAY ∧
    (realmode_write_segment x86_seg_ss (int21_segs x86_seg_ss)
      mov_ss_shadow_machine).2.guest_interruptibility_info.testBit 1 = false := by
  refine ⟨?_, ?_, ?_⟩ <;> decide

/-- C26 (amended): after a write to SS through `realmode_write_segment` the
MOV-SS shadow bit is the complement of its prior value: it is set when it was
clear before the write, and clear when it was set. -/
theorem write_ss_toggles_shadow (v : segment_register) (s : Machine) :
    (realmode_write_segment x86_seg_ss v s).2.guest_interruptibility_info.testBit 1 =
      !s.guest_interruptibility_info.testBit 1 ∧
    (s.guest_interruptibility_info.testBit 1 = false →
      (realmode_write_segment x86_seg_ss v s).2.guest_interruptibility_info.testBit 1 = true) ∧
    (s.guest_interruptibility_info.testBit 1 = true →
      (realmode_write_segment x86_seg_ss v s).2.guest_interruptibility_info.testBit 1 =
        false) := by
  have e : (realmode_write_segment x86_seg_ss v s).2.guest_interruptibility_info =
      u32 s.guest_interruptibility_info ^^^ 2 ^ 1 := by
    unfold realmode_write_segment; dsimp only; rw [if_pos rfl]; rfl
  have hb := testBit_u32_xor_self_bit s.guest_interruptibility_info 1 (by decide)
  rw [e, hb]
  refine ⟨rfl, fun h => ?_, fun h => ?_⟩ <;> simp [h]

/-- Witness for C26 (amended): with the field 0 before, the MOV-SS bit is set
after a write to SS. -/
theorem write_ss_toggles_shadow_witness :
    (realmode_write_segment x86_seg_ss (int21_segs x86_seg_ss)
      int21_machine).2.guest_interruptibility_info.testBit 1 = true :=
  (write_ss_toggles_shadow (int21_segs x86_seg_ss) int21_machine).2.1 (by decide)

/-- C27: `realmode_write_rflags(new)` always returns ok and never modifies
the register block; when `new` has IF (bit 9) set and the current eflags have
IF clear it flips the STI bit (bit 0) of the 32-bit guest interruptibility
field, leaving the other bits of the field unchanged; in every other case the
state, the interruptibility field included, is unchanged.  So the STI bit is
toggled if and only if `new` has `IF = 1` and the current eflags have
`IF = 0`. -/
theorem write_rflags_shadow (val : Nat) (s : Machine)
    (hf : s.guest_interruptibility_info < 2 ^ 32) :
    (realmode_write_rflags val s).1 = X86EMUL_OKAY ∧
    (realmode_write_rflags val s).2.regs = s.regs ∧
    X86_EFLAGS_IF = 2 ^ 9 ∧ VMX_INTR_SHADOW_STI = 2 ^ 0 ∧
    (val.testBit 9 = true ∧ s.regs.eflags.testBit 9 = false →
      (realmode_write_rflags val s).2.guest_interruptibility_info =
        s.guest_interruptibility_info ^^^ VMX_INTR_SHADOW_STI ∧
      (realmode_write_rflags val s).2.guest_interruptibility_info.testBit 0 =
        !s.guest_interruptibility_info.testBit 0 ∧
      ∀ i, i ≠ 0 →
        (realmode_write_rflags val s).2.guest_interruptibility_info.testBit i =
          s.guest_interruptibility_info.testBit i) ∧
    (¬ (val.testBit 9 = true ∧ s.regs.eflags.testBit 9 = false) →
      (realmode_write_rflags val s).2 = s) ∧
    ((realmode_write_rflags val s).2.guest_interruptibility_info.testBit 0 ≠
        s.guest_interruptibility_info.testBit 0 ↔
      val.testBit 9 = true ∧ s.regs.eflags.testBit 9 = false) := by
  have hu : u32 s.guest_interruptibility_info = s.guest_interruptibility_info :=
    Nat.mod_eq_of_lt hf
  have hc : (val &&& X86_EFLAGS_IF ≠ 0 ∧ ¬ (s.regs.eflags &&& X86_EFLAGS_IF ≠ 0)) ↔
      (val.testBit 9 = true ∧ s.regs.eflags.testBit 9 = false) := by
    have e : X86_EFLAGS_IF = 2 ^ 9 := rfl
    rw [e, and_two_pow_ne_zero_iff, and_two_pow_ne_zero_iff]
    simp
  have hyes : (val.testBit 9 = true ∧ s.regs.eflags.testBit 9 = false) →
      realmode_write_rflags val s = (X86EMUL_OKAY,
        { s with guest_interruptibility_info := u32 s.guest_interruptibility_info ^^^ 2 ^ 0 }) := by
    intro h
    unfold realmode_write_rflags
    rw [if_pos (hc.2 h)]
    rfl
  have hno : ¬ (val.testBit 9 = true ∧ s.regs.eflags.testBit 9 = false) →
      realmode_write_rflags val s = (X86EMUL_OKAY, s) := by
    intro h
    unfold realmode_write_rflags
    rw [if_neg (fun h' => h (hc.1 h'))]
  by_cases h : val.testBit 9 = true ∧ s.regs.eflags.testBit 9 = false
  · rw [hyes h]
    refine ⟨rfl, rfl, rfl, rfl, fun _ => ⟨by simp only; rw [hu]; rfl, ?_, fun i hi => ?_⟩,
      fun h' => absurd h h', ?_⟩
    · simp only
      rw [testBit_u32_xor_two_pow _ 0 0 (by decide) hf]; simp
    · simp only
      rw [testBit_u32_xor_two_pow _ 0 i (by decide) hf, if_neg hi]
    · simp only
      rw [testBit_u32_xor_two_pow _ 0 0 (by decide) hf]
      simp [h]
  · rw [hno h]
    refine ⟨rfl, rfl, rfl, rfl, fun h' => absurd h' h, fun _ => rfl, ?_⟩
    simp [h]

/-- Witness for C27: `STI` executed with `IF = 0` (new flags `0x202`, current
flags `0x2`) toggles the STI shadow bit from 0 to 1. -/
theorem write_rflags_shadow_witness :
    (realmode_write_rflags 0x202 if_clear_machine).1 = X86EMUL_OKAY ∧
    (realmode_write_rflags 0x202 if_clear_machine).2.guest_interruptibility_info = 1 ∧
    (realmode_write_rflags 0x202 if_clear_machine).2.regs = if_clear_machine.regs := by
  have h := write_rflags_shadow 0x202 if_clear_machine (by decide)
  refine ⟨h.1, ?_, h.2.1⟩
  rw [(h.2.2.2.2.1 (by decide)).1]; decide

/-- C28: `realmode_read_cr(n)` returns ok with the guest's shadow value
`guest_cr[n]` if and only if `n` is one of 0, 2, 3, 4; for every other index
it returns unhandleable and does not write the output value; the state is
unchanged in both cases. -/
theorem read_cr_behaviour (n : Nat) (s : Machine) :
    (n = 0 ∨ n = 2 ∨ n = 3 ∨ n = 4 →
      realmode_read_cr n s = (X86EMUL_OKAY, some (s.guest_cr n), s)) ∧
    (¬ (n = 0 ∨ n = 2 ∨ n = 3 ∨ n = 4) →
      realmode_read_cr n s = (X86EMUL_UNHANDLEABLE, none, s)) ∧
    ((realmode_read_cr n s).1 = X86EMUL_OKAY ↔ n = 0 ∨ n = 2 ∨ n = 3 ∨ n = 4) := by
  have hyes : n = 0 ∨ n = 2 ∨ n = 3 ∨ n = 4 →
      realmode_read_cr n s = (X86EMUL_OKAY, some (s.guest_cr n), s) := by
    rintro (h | h | h | h) <;> subst h <;> rfl
  have hno : ¬ (n = 0 ∨ n = 2 ∨ n = 3 ∨ n = 4) →
      realmode_read_cr n s = (X86EMUL_UNHANDLEABLE, none, s) := by
    intro h
    unfold realmode_read_cr
    split <;> first | rfl | (exfalso; apply h; simp)
  refine ⟨hyes, hno, ?_⟩
  by_cases h : n = 0 ∨ n = 2 ∨ n = 3 ∨ n = 4
  · rw [hyes h]; simp [h]
  · rw [hno h]; simp [h, X86EMUL_UNHANDLEABLE, X86EMUL_OKAY]

/-- Witness for C28: CR0 is readable, CR1 and CR8 are not. -/
theorem read_cr_behaviour_witness :
    realmode_read_cr 0 int21_machine =
      (X86EMUL_OKAY, some (int21_machine.guest_cr 0), int21_machine) ∧
    realmode_read_cr 1 int21_machine = (X86EMUL_UNHANDLEABLE, none, int21_machine) ∧
    realmode_read_cr 8 int21_machine = (X86EMUL_UNHANDLEABLE, none, int21_machine) :=
  ⟨(read_cr_behaviour 0 int21_machine).1 (by decide),
   (read_cr_behaviour 1 int21_machine).2.1 (by decide),
   (read_cr_behaviour 8 int21_machine).2.1 (by decide)⟩


/-! ## Facts about delivery and the dispatch loop -/

theorem deliver_total (fuel cs_eip0 v l : Nat) (s : Machine) :
    ∃ s', realmode_deliver_exception (fuel + 3) cs_eip0 v l s = some s' := by
  obtain ⟨r, n, h, _⟩ := escalation_loop_total fuel (s.rm_ctxt.seg_reg x86_seg_idtr).limit v l
  exact deliver_of_loop_some _ _ _ _ _ _ _ h

theorem deliver_preserves (fuel cs_eip0 v l : Nat) (s s' : Machine)
    (h : realmode_deliver_exception fuel cs_eip0 v l s = some s') :
    s'.hvm_vmx = s.hvm_vmx ∧ s'.ioreqs = s.ioreqs ∧
    s'.vm_entry_intr_info = s.vm_entry_intr_info ∧ s'.guest_cr = s.guest_cr ∧
    s'.guest_interruptibility_info = s.guest_interruptibility_info ∧
    s'.rm_ctxt.insn_buf_eip = s.rm_ctxt.insn_buf_eip ∧
    s'.rm_ctxt.insn_buf = s.rm_ctxt.insn_buf ∧
    s'.guest_seg = s.guest_seg := by
  unfold realmode_deliver_exception at h
  split at h
  · exact absurd h (by simp)
  · have e := Option.some.inj h
    subst e
    simp [deliver_frame]
  · have e := Option.some.inj h
    subst e
    simp [hvm_triple_fault]

theorem vmx_realmode_loop_stops (rt : Runtime) (fuel iter : Nat) (rc : Int) (s : Machine)
    (steps : List (Int × Machine)) (h : s.guest_cr 0 &&& X86_CR0_PE ≠ 0) :
    vmx_realmode_loop rt (fuel + 1) iter rc s steps = some ⟨rc, s, steps⟩ := by
  unfold vmx_realmode_loop
  rw [if_neg (fun hc => h hc.1)]

theorem vmx_realmode_loop_snapshot (rt : Runtime)
    (hdec : ∀ x, (rt.x86_emulate x).2.rm_ctxt.seg_reg = x.rm_ctxt.seg_reg)
    (fuel iter : Nat) (rc : Int) (s : Machine) (steps : List (Int × Machine))
    (r : realmode_exit) (h : vmx_realmode_loop rt fuel iter rc s steps = some r) :
    r.final.rm_ctxt.seg_reg = s.rm_ctxt.seg_reg := by
  induction fuel generalizing iter rc s steps with
  | zero => simp [vmx_realmode_loop] at h
  | succ fuel ih =>
    have hp : (rt.x86_emulate (prefetch s)).2.rm_ctxt.seg_reg = s.rm_ctxt.seg_reg := by
      rw [hdec]; rfl
    unfold vmx_realmode_loop at h
    dsimp only at h
    split_ifs at h with hcond hio hun
    · have e := Option.some.inj h; subst e; exact hp
    · have e := Option.some.inj h; subst e; exact hp
    · rw [ih _ _ _ _ h]; exact hp
    · have e := Option.some.inj h; subst e; rfl

theorem vmx_realmode_unfold (rt : Runtime) (fuel cs_eip0 : Nat) (s s1 : Machine)
    (h : inject_pending fuel cs_eip0 (load_segments s) = some s1) :
    vmx_realmode rt fuel cs_eip0 s =
      (vmx_realmode_loop rt fuel 0 0 s1 []).map
        (fun r => { r with final := store_segments r.final }) := by
  unfold vmx_realmode
  rw [h]
  dsimp only
  cases vmx_realmode_loop rt fuel 0 0 s1 [] <;> rfl


/-! ## The dispatch loop: entry, exit and segment write-back -/

/-- C21: on entry to `vmx_realmode`, when the VM-entry interrupt-injection
field has its valid bit set, the field is cleared to 0 and
`realmode_deliver_exception` is run once, with the low 8 bits of the field as
vector and `insn_len = 0`, on the state just loaded; the loop starts from the
state so delivered, also when its body is never entered (then that state is
the final one).  When the valid bit is clear, the loop starts from the state
just loaded: the field, the registers and guest memory are as on entry. -/
theorem entry_injection (rt : Runtime) (fuel cs_eip0 : Nat) (s : Machine) :
    (s.vm_entry_intr_info &&& INTR_INFO_VALID_MASK ≠ 0 →
      ∃ s1,
        realmode_deliver_exception (fuel + 3) cs_eip0 (s.vm_entry_intr_info % 2 ^ 8) 0
          { load_segments s with vm_entry_intr_info := 0 } = some s1 ∧
        s1.vm_entry_intr_info = 0 ∧
        vmx_realmode rt (fuel + 3) cs_eip0 s =
          (vmx_realmode_loop rt (fuel + 3) 0 0 s1 []).map
            (fun r => { r with final := store_segments r.final }) ∧
        (s1.guest_cr 0 &&& X86_CR0_PE ≠ 0 →
          vmx_realmode rt (fuel + 3) cs_eip0 s = some ⟨0, store_segments s1, []⟩)) ∧
    (s.vm_entry_intr_info &&& INTR_INFO_VALID_MASK = 0 →
      (load_segments s).vm_entry_intr_info = s.vm_entry_intr_info ∧
      (load_segments s).regs = s.regs ∧ (load_segments s).mem = s.mem ∧
      vmx_realmode rt fuel cs_eip0 s =
        (vmx_realmode_loop rt fuel 0 0 (load_segments s) []).map
          (fun r => { r with final := store_segments r.final })) := by
  constructor
  · intro hv
    obtain ⟨s1, hs1⟩ := deliver_total fuel cs_eip0 (s.vm_entry_intr_info % 2 ^ 8) 0
      { load_segments s with vm_entry_intr_info := 0 }
    have hinj : inject_pending (fuel + 3) cs_eip0 (load_segments s) = some s1 := by
      have hv' : (load_segments s).vm_entry_intr_info &&& INTR_INFO_VALID_MASK ≠ 0 := hv
      unfold inject_pending
      dsimp only
      rw [if_pos hv']
      exact hs1
    have hun := vmx_realmode_unfold rt (fuel + 3) cs_eip0 s s1 hinj
    refine ⟨s1, hs1, ?_, hun, fun hpe => ?_⟩
    · rw [(deliver_preserves _ _ _ _ _ _ hs1).2.2.1]
    · rw [hun, vmx_realmode_loop_stops rt (fuel + 2) 0 0 s1 [] hpe]
      rfl
  · intro hv
    have hinj : inject_pending fuel cs_eip0 (load_segments s) = some (load_segments s) := by
      have hv' : ¬ ((load_segments s).vm_entry_intr_info &&& INTR_INFO_VALID_MASK ≠ 0) :=
        fun h => h hv
      unfold inject_pending
      dsimp only
      rw [if_neg hv']
    exact ⟨rfl, rfl, rfl, vmx_realmode_unfold rt fuel cs_eip0 s _ hinj⟩

/-- Witness for C21: with the injection field `0x80000021` pending and a
decoder that fails on the first instruction, the vector `0x21` is delivered
before the decode step: the failing step sees `CS:IP = 1234:0056` and the
field cleared. -/
theorem entry_injection_witness :
    ∃ s1,
      realmode_deliver_exception 3 0 (pending_intr_machine.vm_entry_intr_info % 2 ^ 8) 0
        { load_segments pending_intr_machine with vm_entry_intr_info := 0 } = some s1 ∧
      s1.vm_entry_intr_info = 0 ∧ s1.regs.eip = 0x56 ∧
      (s1.rm_ctxt.seg_reg x86_seg_cs).sel = 0x1234 ∧
      vmx_realmode failing_decoder 3 0 pending_intr_machine =
        (vmx_realmode_loop failing_decoder 3 0 0 s1 []).map
          (fun r => { r with final := store_segments r.final }) := by
  obtain ⟨s1, h1, h2, h3, _⟩ :=
    (entry_injection failing_decoder 0 0 pending_intr_machine).1 (by decide)
  have e : s1 = deliver_frame 0 0x21 0
      { load_segments pending_intr_machine with vm_entry_intr_info := 0 } := by
    have hd := deliver_present 2 0 0x21 0
      { load_segments pending_intr_machine with vm_entry_intr_info := 0 } (by decide)
    have h1' : realmode_deliver_exception 3 0 0x21 0
        { load_segments pending_intr_machine with vm_entry_intr_info := 0 } = some s1 := h1
    rw [hd] at h1'
    exact (Option.some.inj h1').symm
  refine ⟨s1, h1, h2, ?_, ?_, h3⟩
  · rw [e]
    have := (deliver_frame_cs_eip 0 0x21 0
      { load_segments pending_intr_machine with vm_entry_intr_info := 0 } (by decide)
      (fun _ _ => rfl)).2
    rw [this]; decide
  · rw [e]
    have := (deliver_frame_cs_eip 0 0x21 0
      { load_segments pending_intr_machine with vm_entry_intr_info := 0 } (by decide)
      (fun _ _ => rfl)).1
    rw [this]; decide

/-- C24: `vmx_realmode` starts from a snapshot holding the ten segment
registers of the runtime, and whenever it returns, on whatever exit path, the
runtime's ten registers are the ten snapshot entries of the final state; when
no injection is pending on entry and the decoder leaves the snapshot as it
is, each register written back equals the value read, so the runtime view is
unchanged. -/
theorem segments_loaded_and_stored (rt : Runtime) (fuel cs_eip0 : Nat) (s : Machine)
    (r : realmode_exit) (h : vmx_realmode rt fuel cs_eip0 s = some r) :
    (load_segments s).rm_ctxt.seg_reg = s.guest_seg ∧
    (∃ s1 r1, inject_pending fuel cs_eip0 (load_segments s) = some s1 ∧
      vmx_realmode_loop rt fuel 0 0 s1 [] = some r1 ∧
      r = { r1 with final := store_segments r1.final }) ∧
    r.final.guest_seg = r.final.rm_ctxt.seg_reg ∧
    (s.vm_entry_intr_info &&& INTR_INFO_VALID_MASK = 0 →
      (∀ x, (rt.x86_emulate x).2.rm_ctxt.seg_reg = x.rm_ctxt.seg_reg) →
      r.final.guest_seg = s.guest_seg) := by
  unfold vmx_realmode at h
  split at h
  · exact absurd h (by simp)
  · rename_i s1 hinj
    split at h
    · exact absurd h (by simp)
    · rename_i r1 hloop
      have e := Option.some.inj h
      subst e
      refine ⟨rfl, ⟨s1, r1, hinj, hloop, rfl⟩, rfl, fun hv hdec => ?_⟩
      have hs1 : s1 = load_segments s := by
        have hv' : ¬ ((load_segments s).vm_entry_intr_info &&& INTR_INFO_VALID_MASK ≠ 0) :=
          fun h => h hv
        unfold inject_pending at hinj
        dsimp only at hinj
        rw [if_neg hv'] at hinj
        exact (Option.some.inj hinj).symm
      have := vmx_realmode_loop_snapshot rt hdec fuel 0 0 s1 [] r1 hloop
      simp only [store_segments]
      rw [this, hs1]
      rfl

/-- Witness for C24: with a decoder that fails on the first instruction, the
runtime's segment registers after `vmx_realmode` are those read on entry. -/
theorem segments_loaded_and_stored_witness :
    ∃ r, vmx_realmode failing_decoder 3 0 int21_machine = some r ∧
      r.final.guest_seg = r.final.rm_ctxt.seg_reg ∧
      r.final.guest_seg = int21_machine.guest_seg := by
  have h := segments_loaded_and_stored failing_decoder 3 0 int21_machine _ rfl
  exact ⟨_, rfl, h.2.2.1, h.2.2.2 (by decide) (fun _ => rfl)⟩

/-- C30: exit on mode switch.  When a decode step returns ok, leaves
`io_in_progress` clear and leaves `CR0.PE` set in the guest's CR0 shadow, the
loop makes no further prefetch or decode step and ends with return code 0 in
the state that step left; `vmx_realmode` then returns 0 in that state with the
runtime's ten segment registers overwritten by the ten snapshot entries, and
nothing else changed.  When `CR0.PE` is already set on entry to the loop, the
loop body runs zero times (no decode step is recorded), and `vmx_realmode`
again writes the ten snapshot entries back to the runtime. -/
theorem exit_on_mode_switch (rt : Runtime) (fuel iter cs_eip0 : Nat) (rc : Int)
    (s s1 : Machine) (steps : List (Int × Machine))
    (hinj : inject_pending (fuel + 2) cs_eip0 (load_segments s) = some s1) :
    (s1.guest_cr 0 &&& X86_CR0_PE ≠ 0 →
      ∃ r, vmx_realmode rt (fuel + 2) cs_eip0 s = some r ∧ r.rc = 0 ∧ r.steps = [] ∧
        (∀ seg, r.final.guest_seg seg = s1.rm_ctxt.seg_reg seg) ∧
        r.final.guest_seg = r.final.rm_ctxt.seg_reg ∧
        r.final = { s1 with guest_seg := s1.rm_ctxt.seg_reg }) ∧
    (s1.guest_cr 0 &&& X86_CR0_PE = 0 → rt.softirq_pending 0 s1 = false →
      rt.hvm_local_events_need_delivery 0 s1 = false →
      (rt.x86_emulate (prefetch s1)).1 = X86EMUL_OKAY →
      (rt.x86_emulate (prefetch s1)).2.hvm_vmx.real_mode_io_in_progress = false →
      (rt.x86_emulate (prefetch s1)).2.guest_cr 0 &&& X86_CR0_PE ≠ 0 →
      ∃ r, vmx_realmode rt (fuel + 2) cs_eip0 s = some r ∧ r.rc = 0 ∧
        r.steps = [rt.x86_emulate (prefetch s1)] ∧
        (∀ seg, r.final.guest_seg seg = (rt.x86_emulate (prefetch s1)).2.rm_ctxt.seg_reg seg) ∧
        r.final.guest_seg = r.final.rm_ctxt.seg_reg ∧
        r.final = { (rt.x86_emulate (prefetch s1)).2 with
          guest_seg := (rt.x86_emulate (prefetch s1)).2.rm_ctxt.seg_reg }) ∧
    (∀ x : Machine, x.guest_cr 0 &&& X86_CR0_PE = 0 → rt.softirq_pending iter x = false →
      rt.hvm_local_events_need_delivery iter x = false →
      (rt.x86_emulate (prefetch x)).1 = X86EMUL_OKAY →
      (rt.x86_emulate (prefetch x)).2.hvm_vmx.real_mode_io_in_progress = false →
      (rt.x86_emulate (prefetch x)).2.guest_cr 0 &&& X86_CR0_PE ≠ 0 →
      vmx_realmode_loop rt (fuel + 2) iter rc x steps =
        some ⟨0, (rt.x86_emulate (prefetch x)).2, steps ++ [rt.x86_emulate (prefetch x)]⟩) ∧
    (∀ x : Machine, x.guest_cr 0 &&& X86_CR0_PE ≠ 0 →
      vmx_realmode_loop rt (fuel + 2) iter rc x steps = some ⟨rc, x, steps⟩) := by
  have hstep : ∀ (k : Nat) (c : Int) (x : Machine) (st : List (Int × Machine)),
      x.guest_cr 0 &&& X86_CR0_PE = 0 → rt.softirq_pending k x = false →
      rt.hvm_local_events_need_delivery k x = false →
      (rt.x86_emulate (prefetch x)).1 = X86EMUL_OKAY →
      (rt.x86_emulate (prefetch x)).2.hvm_vmx.real_mode_io_in_progress = false →
      (rt.x86_emulate (prefetch x)).2.guest_cr 0 &&& X86_CR0_PE ≠ 0 →
      vmx_realmode_loop rt (fuel + 2) k c x st =
        some ⟨0, (rt.x86_emulate (prefetch x)).2, st ++ [rt.x86_emulate (prefetch x)]⟩ := by
    intro k c x st h0 h1 h2 hok hio hpe
    have hne : ¬ ((rt.x86_emulate (prefetch x)).1 = X86EMUL_UNHANDLEABLE) := by
      rw [hok]; decide
    rw [vmx_realmode_loop]
    dsimp only
    rw [if_pos ⟨h0, h1, h2⟩, if_neg (by simp [hio]), if_neg hne,
      vmx_realmode_loop_stops rt fuel (k + 1) _ _ _ hpe, hok]
    rfl
  have hun := vmx_realmode_unfold rt (fuel + 2) cs_eip0 s s1 hinj
  refine ⟨fun hpe => ?_, fun h0 h1 h2 hok hio hpe => ?_, fun x => hstep iter rc x steps,
    fun x hpe => vmx_realmode_loop_stops rt (fuel + 1) iter rc x steps hpe⟩
  · refine ⟨⟨0, { s1 with guest_seg := s1.rm_ctxt.seg_reg }, []⟩, ?_, rfl, rfl, fun _ => rfl,
      rfl, rfl⟩
    rw [hun, vmx_realmode_loop_stops rt (fuel + 1) 0 0 s1 [] hpe]; rfl
  · refine ⟨⟨0, { (rt.x86_emulate (prefetch s1)).2 with
        guest_seg := (rt.x86_emulate (prefetch s1)).2.rm_ctxt.seg_reg },
      [rt.x86_emulate (prefetch s1)]⟩, ?_, rfl, rfl, fun _ => rfl, rfl, rfl⟩
    rw [hun, hstep 0 0 s1 [] h0 h1 h2 hok hio hpe]; rfl

/-- Witness for C30: with a decoder whose instruction loads DS with the
selector `0x10` and sets `CR0.PE`, `vmx_realmode` makes one decode step and
returns 0, and the runtime's DS, which held selector 0 on entry, holds the
selector `0x10` afterwards, as the snapshot does. -/
theorem exit_on_mode_switch_witness :
    (int21_machine.guest_seg x86_seg_ds).sel = 0 ∧
    ∃ r, vmx_realmode mode_switch_decoder 2 0 int21_machine = some r ∧ r.rc = 0 ∧
      r.steps.length = 1 ∧
      r.final.guest_seg = r.final.rm_ctxt.seg_reg ∧
      (r.final.guest_seg x86_seg_ds).sel = 0x10 ∧
      r.final.guest_cr 0 = 1 := by
  obtain ⟨r, h, hrc, hsteps, hseg, hsnap, hfin⟩ :=
    (exit_on_mode_switch mode_switch_decoder 0 0 0 0 int21_machine
      (load_segments int21_machine) [] rfl).2.1 (by decide) rfl rfl rfl rfl (by decide)
  refine ⟨rfl, r, h, hrc, by rw [hsteps]; rfl, hsnap, ?_, ?_⟩
  · rw [hseg]; rfl
  · rw [hfin]; rfl


/-! ## Decode steps without memory or port access -/

theorem quiet_exec_preserves (fuel cs_eip0 : Nat) (s s1 : Machine) (op : QuietOp)
    (hfetch : fetches_from_window s.rm_ctxt.insn_buf_eip [op])
    (h : op.exec fuel cs_eip0 s = some s1) :
    s1.hvm_vmx = s.hvm_vmx ∧ s1.ioreqs = s.ioreqs ∧
    s1.rm_ctxt.insn_buf_eip = s.rm_ctxt.insn_buf_eip := by
  cases op with
  | read_segment seg =>
    have e := Option.some.inj h; subst e
    exact ⟨rfl, rfl, rfl⟩
  | write_segment seg reg =>
    have e := Option.some.inj h; subst e
    unfold realmode_write_segment; dsimp only
    split_ifs <;> exact ⟨rfl, rfl, rfl⟩
  | read_cr reg =>
    have e := Option.some.inj h; subst e
    unfold realmode_read_cr
    split <;> exact ⟨rfl, rfl, rfl⟩
  | write_rflags val =>
    have e := Option.some.inj h; subst e
    unfold realmode_write_rflags
    split_ifs <;> exact ⟨rfl, rfl, rfl⟩
  | inject_hw_exception vector =>
    simp only [QuietOp.exec, realmode_inject_hw_exception] at h
    cases hd : realmode_deliver_exception fuel cs_eip0 (u8 vector) 0 s with
    | none => rw [hd] at h; simp at h
    | some s' =>
      rw [hd] at h
      have e : s' = s1 := by simpa using h
      subst e
      have hp := deliver_preserves _ _ _ _ _ _ hd
      exact ⟨hp.1, hp.2.1, hp.2.2.2.2.2.1⟩
  | inject_sw_interrupt vector insn_len =>
    simp only [QuietOp.exec, realmode_inject_sw_interrupt] at h
    cases hd : realmode_deliver_exception fuel cs_eip0 (u8 vector) (u8 insn_len) s with
    | none => rw [hd] at h; simp at h
    | some s' =>
      rw [hd] at h
      have e : s' = s1 := by simpa using h
      subst e
      have hp := deliver_preserves _ _ _ _ _ _ hd
      exact ⟨hp.1, hp.2.1, hp.2.2.2.2.2.1⟩
  | insn_fetch seg offset bytes =>
    have e := Option.some.inj h; subst e
    have hhit : ¬ (u32 (u32 (u64 (offset + 2 ^ 64 - s.rm_ctxt.insn_buf_eip)) + bytes) > 16) := by
      have := hfetch.1
      omega
    unfold realmode_emulate_insn_fetch
    dsimp only
    rw [if_neg hhit]
    exact ⟨rfl, rfl, rfl⟩

theorem quiet_exec_total (fuel cs_eip0 : Nat) (s : Machine) (op : QuietOp) :
    ∃ s1, op.exec (fuel + 3) cs_eip0 s = some s1 := by
  cases op with
  | read_segment seg => exact ⟨_, rfl⟩
  | write_segment seg reg => exact ⟨_, rfl⟩
  | read_cr reg => exact ⟨_, rfl⟩
  | write_rflags val => exact ⟨_, rfl⟩
  | inject_hw_exception vector =>
    obtain ⟨s', hd⟩ := deliver_total fuel cs_eip0 (u8 vector) 0 s
    exact ⟨s', by simp [QuietOp.exec, realmode_inject_hw_exception, hd]⟩
  | inject_sw_interrupt vector insn_len =>
    obtain ⟨s', hd⟩ := deliver_total fuel cs_eip0 (u8 vector) (u8 insn_len) s
    exact ⟨s', by simp [QuietOp.exec, realmode_inject_sw_interrupt, hd]⟩
  | insn_fetch seg offset bytes => exact ⟨_, rfl⟩

theorem fetches_from_window_cons (eip : Nat) (op : QuietOp) (ops : List QuietOp)
    (h : fetches_from_window eip (op :: ops)) :
    fetches_from_window eip [op] ∧ fetches_from_window eip ops := by
  cases op <;> first
    | exact ⟨trivial, h⟩
    | exact ⟨⟨h.1, trivial⟩, h.2⟩

/-- C29 (counterexample): the state reached by an MMIO read and its
completion has `io_completed` set; a decode step that only reads CR0 leaves
it set. -/
theorem quiet_step_keeps_completion :
    ∃ s', quiet_step 3 0
        (run_ops mmio_machine
          [ShimOp.read x86_seg_ds 0xb8000 1 hvm_access_read,
           ShimOp.io_complete (ioreq_t.mk IOREQ_TYPE_COPY 0xb8000 1 1 0x37 IOREQ_READ)])
        [QuietOp.read_cr 0] = some s' ∧
      s'.hvm_vmx.real_mode_io_completed = true :=
  ⟨_, rfl, by decide⟩

/-- C29 (amended): every decode step that performs no memory or port access
(its callbacks are among `realmode_read_segment`, `realmode_write_segment`,
`realmode_read_cr`, `realmode_write_rflags` and the inject callbacks, and its
fetches are served from the prefetch window) completes and leaves
`io_in_progress`, `io_completed`, `io_data` and the request queue as they
were before the step; in particular both flags are false after the step
whenever both were false before it. -/
theorem quiet_step_preserves_io (fuel cs_eip0 : Nat) (s : Machine) (ops : List QuietOp)
    (hfetch : fetches_from_window s.rm_ctxt.insn_buf_eip ops) :
    ∃ s', quiet_step (fuel + 3) cs_eip0 s ops = some s' ∧
      s'.hvm_vmx = s.hvm_vmx ∧ s'.ioreqs = s.ioreqs ∧
      (s.hvm_vmx.real_mode_io_in_progress = false →
        s.hvm_vmx.real_mode_io_completed = false →
        s'.hvm_vmx.real_mode_io_in_progress = false ∧
          s'.hvm_vmx.real_mode_io_completed = false) := by
  induction ops generalizing s with
  | nil => exact ⟨s, rfl, rfl, rfl, fun h1 h2 => ⟨h1, h2⟩⟩
  | cons op ops ih =>
    obtain ⟨hop, hrest⟩ := fetches_from_window_cons _ op ops hfetch
    obtain ⟨s1, h1⟩ := quiet_exec_total fuel cs_eip0 s op
    obtain ⟨p1, p2, p3⟩ := quiet_exec_preserves _ _ _ _ _ hop h1
    rw [← p3] at hrest
    obtain ⟨s', hs', q1, q2, _⟩ := ih s1 hrest
    refine ⟨s', ?_, by rw [q1, p1], by rw [q2, p2], fun h1' h2' => ?_⟩
    · simp only [quiet_step, h1]
      exact hs'
    · rw [q1, p1]; exact ⟨h1', h2'⟩

/-- Witness for C29 (amended): a step that loads SS, executes `STI` and
raises `INT 21h`, fetching three bytes from the window, leaves the idle I/O
state idle. -/
theorem quiet_step_preserves_io_witness :
    ∃ s', quiet_step 3 0 int21_machine
        [QuietOp.insn_fetch x86_seg_cs 0x100 3,
         QuietOp.write_segment x86_seg_ss (int21_segs x86_seg_ss),
         QuietOp.write_rflags 0x202,
         QuietOp.inject_sw_interrupt 0x21 2] = some s' ∧
      s'.hvm_vmx.real_mode_io_in_progress = false ∧
      s'.hvm_vmx.real_mode_io_completed = false := by
  obtain ⟨s', h, _, _, hidle⟩ := quiet_step_preserves_io 0 0 int21_machine
    [QuietOp.insn_fetch x86_seg_cs 0x100 3,
     QuietOp.write_segment x86_seg_ss (int21_segs x86_seg_ss),
     QuietOp.write_rflags 0x202,
     QuietOp.inject_sw_interrupt 0x21 2]
    (And.intro (by decide) trivial)
  exact ⟨s', h, hidle rfl rfl⟩


/-! ## Facts about the outcome of a delivery -/

theorem escalation_loop_outcome (fuel limit v l : Nat) (hv : v ≤ 255) :
    ∃ r n, escalation_loop (fuel + 3) limit v l 0 = some (r, n) ∧
      (r = Escalation.triple_fault ↔ limit < 4 * v + 3 ∧ limit < 35) ∧
      (r = Escalation.triple_fault ∨ r = Escalation.deliver v l ∨
        r = Escalation.deliver TRAP_gp_fault 0 ∨ r = Escalation.deliver TRAP_double_fault 0) := by
  have hlb := u32_last_byte v hv
  by_cases h : limit < u32 (u32 (v * 4) + 3)
  · rw [escalation_loop_missing fuel limit v l 0 h]
    rw [hlb] at h
    have hdf := escalation_loop_df (fuel + 1) limit 1
    have hgp := escalation_loop_gp fuel limit 1
    simp only [Nat.zero_add]
    have gp_case : ∃ r n, escalation_loop (fuel + 2) limit TRAP_gp_fault 0 1 = some (r, n) ∧
        (r = Escalation.triple_fault ↔ limit < 35) ∧
        (r = Escalation.triple_fault ∨ r = Escalation.deliver TRAP_gp_fault 0 ∨
          r = Escalation.deliver TRAP_double_fault 0) := by
      rw [hgp]
      by_cases h55 : limit < 55
      · rw [if_pos h55]
        by_cases h35 : limit < 35
        · exact ⟨_, _, rfl, by simp [h35], by simp [h35]⟩
        · exact ⟨_, _, rfl, by simp [h35], by simp [h35]⟩
      · rw [if_neg h55]
        exact ⟨_, _, rfl, by simp; omega, by simp⟩
    by_cases hl : l = 0
    · by_cases h8 : v = TRAP_double_fault
      · rw [if_neg (by simpa using hl), if_pos h8]
        refine ⟨_, _, rfl, ?_, Or.inl rfl⟩
        simp only [true_iff]
        rw [h8] at h ⊢
        simp only [TRAP_double_fault] at h ⊢
        omega
      · by_cases h13 : v = TRAP_gp_fault
        · rw [if_neg (by simpa using hl), if_neg h8, if_pos h13, hdf]
          by_cases h35 : limit < 35
          · refine ⟨_, _, rfl, by simp [h35]; omega, by simp [h35]⟩
          · refine ⟨_, _, rfl, by simp [h35], by simp [h35]⟩
        · rw [if_neg (by simpa using hl), if_neg h8, if_neg h13]
          obtain ⟨r, n, hr, hiff, hor⟩ := gp_case
          refine ⟨r, n, hr, ?_, ?_⟩
          · rw [hiff]; constructor
            · intro h35; exact ⟨h, h35⟩
            · intro h'; exact h'.2
          · rcases hor with hor | hor | hor
            · exact Or.inl hor
            · exact Or.inr (Or.inr (Or.inl hor))
            · exact Or.inr (Or.inr (Or.inr hor))
    · rw [if_pos hl]
      obtain ⟨r, n, hr, hiff, hor⟩ := gp_case
      refine ⟨r, n, hr, ?_, ?_⟩
      · rw [hiff]; constructor
        · intro h35; exact ⟨h, h35⟩
        · intro h'; exact h'.2
      · rcases hor with hor | hor | hor
        · exact Or.inl hor
        · exact Or.inr (Or.inr (Or.inl hor))
        · exact Or.inr (Or.inr (Or.inr hor))
  · rw [escalation_loop_present (fuel + 2) limit v l 0 (by omega)]
    rw [hlb] at h
    refine ⟨_, _, rfl, ?_, Or.inr (Or.inl rfl)⟩
    simp only [false_iff, reduceCtorEq]
    omega

theorem deliver_cases (fuel cs_eip0 v l : Nat) (s s' : Machine)
    (h : realmode_deliver_exception fuel cs_eip0 v l s = some s') :
    s' = hvm_triple_fault s ∨ ∃ v' l', s' = deliver_frame cs_eip0 v' l' s := by
  unfold realmode_deliver_exception at h
  split at h
  · exact absurd h (by simp)
  · exact Or.inr ⟨_, _, (Option.some.inj h).symm⟩
  · exact Or.inl (Option.some.inj h).symm

theorem deliver_frame_triple_faults (cs_eip0 v l : Nat) (s : Machine) :
    (deliver_frame cs_eip0 v l s).triple_faults = s.triple_faults := rfl


/-! ## Exception delivery: triple fault and frame effect -/

/-- C33: for every vector `v` in 0..255, every `insn_len` and every IDT
limit, `realmode_deliver_exception` returns, and it invokes the triple-fault
handler if and only if `IDTR.limit < min(4v+3, 35)`; so it never
triple-faults when `IDTR.limit ≥ 35`, and whenever it does not triple-fault it
delivers one of the vectors `v`, 13 and 8. -/
theorem triple_fault_characterisation (fuel cs_eip0 v insn_len : Nat) (s : Machine)
    (hv : v ≤ 255) :
    ∃ s', realmode_deliver_exception (fuel + 3) cs_eip0 v insn_len s = some s' ∧
      (s' = hvm_triple_fault s ↔
        (s.rm_ctxt.seg_reg x86_seg_idtr).limit < min (4 * v + 3) 35) ∧
      (s'.triple_faults = s.triple_faults + 1 ↔
        (s.rm_ctxt.seg_reg x86_seg_idtr).limit < min (4 * v + 3) 35) ∧
      (35 ≤ (s.rm_ctxt.seg_reg x86_seg_idtr).limit → s'.triple_faults = s.triple_faults) ∧
      (¬ (s.rm_ctxt.seg_reg x86_seg_idtr).limit < min (4 * v + 3) 35 →
        s' = deliver_frame cs_eip0 v insn_len s ∨ s' = deliver_frame cs_eip0 13 0 s ∨
          s' = deliver_frame cs_eip0 8 0 s) := by
  obtain ⟨r, n, hloop, hiff, hor⟩ :=
    escalation_loop_outcome fuel (s.rm_ctxt.seg_reg x86_seg_idtr).limit v insn_len hv
  have hmin : (s.rm_ctxt.seg_reg x86_seg_idtr).limit < min (4 * v + 3) 35 ↔
      ((s.rm_ctxt.seg_reg x86_seg_idtr).limit < 4 * v + 3 ∧
        (s.rm_ctxt.seg_reg x86_seg_idtr).limit < 35) := by
    rw [Nat.lt_min]
  rw [hmin]
  have key : ∀ v' l', r = Escalation.deliver v' l' →
      ∃ s', realmode_deliver_exception (fuel + 3) cs_eip0 v insn_len s = some s' ∧
        s' = deliver_frame cs_eip0 v' l' s ∧
        ¬ ((s.rm_ctxt.seg_reg x86_seg_idtr).limit < 4 * v + 3 ∧
          (s.rm_ctxt.seg_reg x86_seg_idtr).limit < 35) := by
    intro v' l' hr
    rw [hr] at hloop
    refine ⟨_, deliver_of_loop_deliver _ _ _ _ _ _ _ _ hloop, rfl, fun hc => ?_⟩
    have := hiff.2 hc
    rw [hr] at this
    exact absurd this (by simp)
  have fin : ∀ v' l', r = Escalation.deliver v' l' →
      (deliver_frame cs_eip0 v' l' s = deliver_frame cs_eip0 v insn_len s ∨
        deliver_frame cs_eip0 v' l' s = deliver_frame cs_eip0 13 0 s ∨
        deliver_frame cs_eip0 v' l' s = deliver_frame cs_eip0 8 0 s) →
      ∃ s', realmode_deliver_exception (fuel + 3) cs_eip0 v insn_len s = some s' ∧
        (s' = hvm_triple_fault s ↔
          (s.rm_ctxt.seg_reg x86_seg_idtr).limit < 4 * v + 3 ∧
            (s.rm_ctxt.seg_reg x86_seg_idtr).limit < 35) ∧
        (s'.triple_faults = s.triple_faults + 1 ↔
          (s.rm_ctxt.seg_reg x86_seg_idtr).limit < 4 * v + 3 ∧
            (s.rm_ctxt.seg_reg x86_seg_idtr).limit < 35) ∧
        (35 ≤ (s.rm_ctxt.seg_reg x86_seg_idtr).limit → s'.triple_faults = s.triple_faults) ∧
        (¬ ((s.rm_ctxt.seg_reg x86_seg_idtr).limit < 4 * v + 3 ∧
            (s.rm_ctxt.seg_reg x86_seg_idtr).limit < 35) →
          s' = deliver_frame cs_eip0 v insn_len s ∨ s' = deliver_frame cs_eip0 13 0 s ∨
            s' = deliver_frame cs_eip0 8 0 s) := by
    intro v' l' hr hone
    obtain ⟨s', hs', he, hn⟩ := key v' l' hr
    subst he
    refine ⟨_, hs', ?_, ?_, fun _ => rfl, fun _ => hone⟩
    · constructor
      · intro e
        have := congrArg Machine.triple_faults e
        simp [deliver_frame, hvm_triple_fault] at this
      · intro hc; exact absurd hc hn
    · constructor
      · intro e
        simp [deliver_frame] at e
      · intro hc; exact absurd hc hn
  rcases hor with hr | hr | hr | hr
  · have hc := hiff.1 hr
    rw [hr] at hloop
    refine ⟨_, deliver_of_loop_triple _ _ _ _ _ _ hloop, ?_, ?_, fun h35 => ?_,
      fun hn => absurd hc hn⟩
    · simp [hc]
    · simp [hvm_triple_fault, hc]
    · omega
  · exact fin v insn_len hr (Or.inl rfl)
  · exact fin TRAP_gp_fault 0 hr (Or.inr (Or.inl rfl))
  · exact fin TRAP_double_fault 0 hr (Or.inr (Or.inr rfl))

/-- Witness for C33: `INT 80h` triple-faults with `IDTR.limit = 34` and
delivers vector 8 with `IDTR.limit = 35`. -/
theorem triple_fault_characterisation_witness :
    (∃ s', realmode_deliver_exception 3 0 0x80 2 (set_idtr_limit int21_machine 34) = some s' ∧
      s'.triple_faults = (set_idtr_limit int21_machine 34).triple_faults + 1) ∧
    (∃ s', realmode_deliver_exception 3 0 0x80 2 (set_idtr_limit int21_machine 35) = some s' ∧
      s'.triple_faults = (set_idtr_limit int21_machine 35).triple_faults) := by
  obtain ⟨s1, h1, _, h1b, _⟩ :=
    triple_fault_characterisation 0 0 0x80 2 (set_idtr_limit int21_machine 34) (by decide)
  obtain ⟨s2, h2, _, _, h2c, _⟩ :=
    triple_fault_characterisation 0 0 0x80 2 (set_idtr_limit int21_machine 35) (by decide)
  exact ⟨⟨s1, h1, h1b.2 (by decide)⟩, ⟨s2, h2, h2c (by decide)⟩⟩

/-- C34: whenever `realmode_deliver_exception` ends by invoking the
triple-fault handler, the state it returns differs from the state on entry
only by the record of the triple fault: guest memory, the register block
(eip, esp, eflags included), the emulator context with every segment snapshot
entry, and the I/O continuation state with the request queue are exactly as
they were; and the inject callbacks, which wrap the delivery, return ok with
that state. -/
theorem triple_fault_atomic (fuel cs_eip0 v insn_len : Nat) (s s' : Machine)
    (h : realmode_deliver_exception fuel cs_eip0 v insn_len s = some s')
    (ht : s'.triple_faults ≠ s.triple_faults) :
    s' = { s with triple_faults := s.triple_faults + 1 } ∧
    s'.mem = s.mem ∧ s'.regs = s.regs ∧ s'.rm_ctxt = s.rm_ctxt ∧
    s'.hvm_vmx = s.hvm_vmx ∧ s'.ioreqs = s.ioreqs ∧
    (∀ vector, u8 vector = v → insn_len = 0 →
      realmode_inject_hw_exception fuel cs_eip0 vector s = some (X86EMUL_OKAY, s')) ∧
    (∀ vector len, u8 vector = v → u8 len = insn_len →
      realmode_inject_sw_interrupt fuel cs_eip0 vector len s = some (X86EMUL_OKAY, s')) := by
  have hs : s' = hvm_triple_fault s := by
    rcases deliver_cases _ _ _ _ _ _ h with e | ⟨v', l', e⟩
    · exact e
    · rw [e] at ht; exact absurd rfl ht
  refine ⟨hs, by rw [hs]; rfl, by rw [hs]; rfl, by rw [hs]; rfl, by rw [hs]; rfl,
    by rw [hs]; rfl, fun vector hvec hl => ?_, fun vector len hvec hlen => ?_⟩
  · subst hvec; subst hl
    simp [realmode_inject_hw_exception, h]
  · subst hvec; subst hlen
    simp [realmode_inject_sw_interrupt, h]

/-- Witness for C34: with `IDTR.limit = 0`, `INT 80h` injected through the
callback returns ok and leaves registers, snapshot and memory untouched. -/
theorem triple_fault_atomic_witness :
    realmode_inject_sw_interrupt 3 0 0x80 2 (set_idtr_limit int21_machine 0) =
      some (X86EMUL_OKAY, hvm_triple_fault (set_idtr_limit int21_machine 0)) ∧
    (hvm_triple_fault (set_idtr_limit int21_machine 0)).regs =
      (set_idtr_limit int21_machine 0).regs ∧
    (hvm_triple_fault (set_idtr_limit int21_machine 0)).rm_ctxt =
      (set_idtr_limit int21_machine 0).rm_ctxt := by
  have hd : realmode_deliver_exception 3 0 0x80 2 (set_idtr_limit int21_machine 0) =
      some (hvm_triple_fault (set_idtr_limit int21_machine 0)) :=
    deliver_of_loop_triple 3 0 0x80 2 3 (set_idtr_limit int21_machine 0) (by decide)
  have h := triple_fault_atomic 3 0 0x80 2 (set_idtr_limit int21_machine 0) _ hd (by decide)
  exact ⟨h.2.2.2.2.2.2.2 0x80 2 (by decide) (by decide), h.2.2.1, h.2.2.2.1⟩


/-- C36: frame effect of a successful `realmode_deliver_exception` (one that
does not end in the triple fault).  The state returned is the state on entry
with new values for `regs.eip`, `regs.esp`, `regs.eflags`, `CS.sel`, `CS.base`
and guest memory only, and guest memory differs only inside the six frame
bytes; so the other general-purpose registers, `CS.limit` and `CS.attr`, the
other nine segment snapshot entries, `addr_size` and `sp_size`, the prefetch
window and the I/O continuation state are unchanged. -/
theorem deliver_frame_effect (fuel cs_eip0 v insn_len : Nat) (s s' : Machine)
    (h : realmode_deliver_exception fuel cs_eip0 v insn_len s = some s')
    (hd : s'.triple_faults = s.triple_faults) :
    s' = { s with
        regs := { s.regs with
          eip := s'.regs.eip, esp := s'.regs.esp, eflags := s'.regs.eflags }
        rm_ctxt := { s.rm_ctxt with
          seg_reg := fun x =>
            if x = x86_seg_cs then
              { s.rm_ctxt.seg_reg x86_seg_cs with
                sel := (s'.rm_ctxt.seg_reg x86_seg_cs).sel
                base := (s'.rm_ctxt.seg_reg x86_seg_cs).base }
            else s.rm_ctxt.seg_reg x }
        mem := s'.mem } ∧
    s'.mem.ram = s.mem.ram ∧
    (∀ x, x < stack_linear s' ∨ stack_linear s' + 6 ≤ x → s'.mem.byte x = s.mem.byte x) ∧
    (s'.regs.eax = s.regs.eax ∧ s'.regs.ebx = s.regs.ebx ∧ s'.regs.ecx = s.regs.ecx ∧
      s'.regs.edx = s.regs.edx ∧ s'.regs.esi = s.regs.esi ∧ s'.regs.edi = s.regs.edi ∧
      s'.regs.ebp = s.regs.ebp) ∧
    ((s'.rm_ctxt.seg_reg x86_seg_cs).limit = (s.rm_ctxt.seg_reg x86_seg_cs).limit ∧
      (s'.rm_ctxt.seg_reg x86_seg_cs).attr = (s.rm_ctxt.seg_reg x86_seg_cs).attr) ∧
    (∀ x, x ≠ x86_seg_cs → s'.rm_ctxt.seg_reg x = s.rm_ctxt.seg_reg x) ∧
    (s'.rm_ctxt.addr_size = s.rm_ctxt.addr_size ∧ s'.rm_ctxt.sp_size = s.rm_ctxt.sp_size) ∧
    (s'.rm_ctxt.insn_buf = s.rm_ctxt.insn_buf ∧
      s'.rm_ctxt.insn_buf_eip = s.rm_ctxt.insn_buf_eip) ∧
    (s'.hvm_vmx = s.hvm_vmx ∧ s'.ioreqs = s.ioreqs) := by
  rcases deliver_cases _ _ _ _ _ _ h with e | ⟨v', l', e⟩
  · rw [e] at hd
    simp [hvm_triple_fault] at hd
  · subst e
    refine ⟨rfl, ?_, fun x hx => ?_, ⟨rfl, rfl, rfl, rfl, rfl, rfl, rfl⟩, ⟨rfl, rfl⟩,
      fun x hx => ?_, ⟨rfl, rfl⟩, ⟨rfl, rfl⟩, ⟨rfl, rfl⟩⟩
    · rw [deliver_frame_mem]
      exact copy_to_ram 6 _ _ _
    · rw [deliver_frame_mem]
      exact copy_to_byte_outside 6 _ _ _ x hx
    · simp [deliver_frame, hx]

/-- Witness for C36: `INT 21h` on the machine with `0x12340056` at `0x84`
leaves `EAX`, the limit of CS, the SS entry and the I/O state as they were. -/
theorem deliver_frame_effect_witness :
    ∃ s', realmode_deliver_exception 1 0 0x21 2 int21_machine = some s' ∧
      s'.regs.eax = int21_machine.regs.eax ∧
      (s'.rm_ctxt.seg_reg x86_seg_cs).limit = 0xffff ∧
      s'.rm_ctxt.seg_reg x86_seg_ss = int21_machine.rm_ctxt.seg_reg x86_seg_ss ∧
      s'.hvm_vmx = int21_machine.hvm_vmx := by
  have hd := deliver_present 0 0 0x21 2 int21_machine (by decide)
  have h := deliver_frame_effect 1 0 0x21 2 int21_machine _ hd rfl
  refine ⟨_, hd, h.2.2.2.1.1, ?_, h.2.2.2.2.2.1 x86_seg_ss (by decide), h.2.2.2.2.2.2.2.2.1⟩
  rw [h.2.2.2.2.1.1]; rfl

/-- C38: a stored completion is consumed without matching.  Whenever
`io_completed` is set and `io_in_progress` is clear, `realmode_read` on any
address whose first byte lies in a page that is not RAM, and
`realmode_read_io` on any port, return ok with exactly `io_data`, whatever
its size, and clear `io_completed`; the result is the same for every segment,
offset, access kind, port and byte count. -/
theorem stored_completion_unmatched (seg : x86_segment) (offset bytes port pbytes : Nat)
    (access_type : hvm_access_type) (s : Machine)
    (hc : s.hvm_vmx.real_mode_io_completed = true)
    (hi : s.hvm_vmx.real_mode_io_in_progress = false)
    (hb : 0 < bytes)
    (hun : s.mem.ram (u32 ((s.rm_ctxt.seg_reg seg).base + offset) >>> PAGE_SHIFT) = false) :
    realmode_read seg offset bytes access_type s =
      (X86EMUL_OKAY, s.hvm_vmx.real_mode_io_data,
        { s with hvm_vmx := { s.hvm_vmx with real_mode_io_completed := false } }) ∧
    realmode_read_io port pbytes s =
      (X86EMUL_OKAY, some s.hvm_vmx.real_mode_io_data,
        { s with hvm_vmx := { s.hvm_vmx with real_mode_io_completed := false } }) := by
  have hcopy : hvm_copy_from_guest_phys s.mem (le_bytes 8 0)
      (u32 ((s.rm_ctxt.seg_reg seg).base + offset)) bytes = (le_bytes 8 0, bytes) :=
    copy_from_unbacked s.mem bytes _ 0 _ hun
  have hne : bytes ≠ 0 := by omega
  constructor
  · simp [realmode_read, hcopy, hne, hi, hc]
  · simp [realmode_read_io, hi, hc]

/-- Witness for C38: with the completion `0x1234` stored, a one-byte read of
`0xB8000`, a four-byte read of `0xB8010` and a one-byte read of port `0x60`
all return `0x1234`. -/
theorem stored_completion_unmatched_witness :
    (realmode_read x86_seg_ds 0xb8000 1 hvm_access_read wide_completed_machine).2.1 = 0x1234 ∧
    (realmode_read x86_seg_es 0xb8010 4 hvm_access_insn_fetch
      wide_completed_machine).2.1 = 0x1234 ∧
    (realmode_read_io 0x60 1 wide_completed_machine).2.1 = some 0x1234 := by
  have h1 := stored_completion_unmatched x86_seg_ds 0xb8000 1 0x60 1 hvm_access_read
    wide_completed_machine rfl rfl (by decide) (by decide)
  have h2 := stored_completion_unmatched x86_seg_es 0xb8010 4 0x60 1 hvm_access_insn_fetch
    wide_completed_machine rfl rfl (by decide) (by decide)
  refine ⟨?_, ?_, ?_⟩
  · rw [h1.1]; rfl
  · rw [h2.1]; rfl
  · rw [h1.2]; rfl

/-! ## Address and stack sizes -/

theorem deliver_preserves_sizes (fuel cs_eip0 v l : Nat) (s s' : Machine)
    (h : realmode_deliver_exception fuel cs_eip0 v l s = some s') :
    s'.rm_ctxt.addr_size = s.rm_ctxt.addr_size ∧ s'.rm_ctxt.sp_size = s.rm_ctxt.sp_size := by
  rcases deliver_cases _ _ _ _ _ _ h with e | ⟨v', l', e⟩ <;> subst e <;> exact ⟨rfl, rfl⟩

theorem vmx_realmode_loop_sizes (rt : Runtime)
    (hdec : ∀ x, (rt.x86_emulate x).2.rm_ctxt.addr_size = x.rm_ctxt.addr_size ∧
      (rt.x86_emulate x).2.rm_ctxt.sp_size = x.rm_ctxt.sp_size)
    (fuel iter : Nat) (rc : Int) (s : Machine) (steps : List (Int × Machine))
    (r : realmode_exit) (h : vmx_realmode_loop rt fuel iter rc s steps = some r) :
    r.final.rm_ctxt.addr_size = s.rm_ctxt.addr_size ∧
    r.final.rm_ctxt.sp_size = s.rm_ctxt.sp_size := by
  induction fuel generalizing iter rc s steps with
  | zero => simp [vmx_realmode_loop] at h
  | succ fuel ih =>
    have hp : (rt.x86_emulate (prefetch s)).2.rm_ctxt.addr_size = s.rm_ctxt.addr_size ∧
        (rt.x86_emulate (prefetch s)).2.rm_ctxt.sp_size = s.rm_ctxt.sp_size := by
      obtain ⟨h1, h2⟩ := hdec (prefetch s)
      exact ⟨h1, h2⟩
    unfold vmx_realmode_loop at h
    dsimp only at h
    split_ifs at h with hcond hio hun
    · have e := Option.some.inj h; subst e; exact hp
    · have e := Option.some.inj h; subst e; exact hp
    · obtain ⟨h1, h2⟩ := ih _ _ _ _ h
      exact ⟨h1.trans hp.1, h2.trans hp.2⟩
    · have e := Option.some.inj h; subst e; exact ⟨rfl, rfl⟩

/-- C32: `vmx_realmode` derives `addr_size` from the CS entry and `sp_size`
from the SS entry read from the runtime at entry: `addr_size` is 32 if
`CS.attr.db` is set and 16 otherwise, `sp_size` is 32 if `SS.attr.db` is set
and 16 otherwise, so both are always 16 or 32.  They are not recomputed:
`realmode_write_segment` leaves them as they are whatever it stores into CS
or SS, and with a decoder that does not write them the final state of the
invocation still holds the values derived at entry. -/
theorem sizes_derived_at_entry (rt : Runtime) (fuel cs_eip0 : Nat) (s : Machine)
    (r : realmode_exit)
    (hdec : ∀ x, (rt.x86_emulate x).2.rm_ctxt.addr_size = x.rm_ctxt.addr_size ∧
      (rt.x86_emulate x).2.rm_ctxt.sp_size = x.rm_ctxt.sp_size)
    (h : vmx_realmode rt fuel cs_eip0 s = some r) :
    (load_segments s).rm_ctxt.addr_size = (if (s.guest_seg x86_seg_cs).attr.db then 32 else 16) ∧
    (load_segments s).rm_ctxt.sp_size = (if (s.guest_seg x86_seg_ss).attr.db then 32 else 16) ∧
    ((load_segments s).rm_ctxt.addr_size = 16 ∨ (load_segments s).rm_ctxt.addr_size = 32) ∧
    ((load_segments s).rm_ctxt.sp_size = 16 ∨ (load_segments s).rm_ctxt.sp_size = 32) ∧
    (∀ seg v x, (realmode_write_segment seg v x).2.rm_ctxt.addr_size = x.rm_ctxt.addr_size ∧
      (realmode_write_segment seg v x).2.rm_ctxt.sp_size = x.rm_ctxt.sp_size) ∧
    r.final.rm_ctxt.addr_size = (if (s.guest_seg x86_seg_cs).attr.db then 32 else 16) ∧
    r.final.rm_ctxt.sp_size = (if (s.guest_seg x86_seg_ss).attr.db then 32 else 16) := by
  have ha : (load_segments s).rm_ctxt.addr_size =
      (if (s.guest_seg x86_seg_cs).attr.db then 32 else 16) := rfl
  have hsp : (load_segments s).rm_ctxt.sp_size =
      (if (s.guest_seg x86_seg_ss).attr.db then 32 else 16) := rfl
  have hw : ∀ seg v x,
      (realmode_write_segment seg v x).2.rm_ctxt.addr_size = x.rm_ctxt.addr_size ∧
      (realmode_write_segment seg v x).2.rm_ctxt.sp_size = x.rm_ctxt.sp_size := by
    intro seg v x
    unfold realmode_write_segment; dsimp only
    split_ifs <;> exact ⟨rfl, rfl⟩
  have hfin : r.final.rm_ctxt.addr_size = (load_segments s).rm_ctxt.addr_size ∧
      r.final.rm_ctxt.sp_size = (load_segments s).rm_ctxt.sp_size := by
    unfold vmx_realmode at h
    split at h
    · exact absurd h (by simp)
    · rename_i s1 hinj
      split at h
      · exact absurd h (by simp)
      · rename_i r1 hloop
        have e := Option.some.inj h
        subst e
        have hl := vmx_realmode_loop_sizes rt hdec fuel 0 0 s1 [] r1 hloop
        have hs1 : s1.rm_ctxt.addr_size =
              ({ load_segments s with vm_entry_intr_info := 0 } : Machine).rm_ctxt.addr_size ∧
            s1.rm_ctxt.sp_size =
              ({ load_segments s with vm_entry_intr_info := 0 } : Machine).rm_ctxt.sp_size := by
          unfold inject_pending at hinj
          dsimp only at hinj
          split_ifs at hinj
          · exact deliver_preserves_sizes _ _ _ _ _ _ hinj
          · have e := Option.some.inj hinj; rw [← e]; exact ⟨rfl, rfl⟩
        exact ⟨hl.1.trans hs1.1, hl.2.trans hs1.2⟩
  refine ⟨ha, hsp, ?_, ?_, hw, hfin.1.trans ha, hfin.2.trans hsp⟩
  · rw [ha]; split_ifs <;> simp
  · rw [hsp]; split_ifs <;> simp

/-- Witness for C32: the decoder reloads CS with a 32-bit code segment during
the invocation; at exit CS has `db` set while `addr_size` is still 16. -/
theorem sizes_derived_at_entry_witness :
    ∃ r, vmx_realmode reload_cs_decoder 3 0 int21_machine = some r ∧
      (r.final.rm_ctxt.seg_reg x86_seg_cs).attr.db = true ∧
      r.final.rm_ctxt.addr_size = 16 ∧ r.final.rm_ctxt.sp_size = 16 := by
  have h := sizes_derived_at_entry reload_cs_decoder 3 0 int21_machine _
    (fun x => (by
      show (realmode_write_segment x86_seg_cs _ x).2.rm_ctxt.addr_size = _ ∧
        (realmode_write_segment x86_seg_cs _ x).2.rm_ctxt.sp_size = _
      unfold realmode_write_segment; dsimp only
      split_ifs <;> exact ⟨rfl, rfl⟩)) rfl
  exact ⟨_, rfl, by decide, h.2.2.2.2.2.1, h.2.2.2.2.2.2⟩


/-! ## Facts about the prefetch window -/

theorem copy_from_loop_set_comm (m : GuestMem) (n a i j b : Nat) (buf : List Nat)
    (hij : i < j) :
    copy_from_loop m n a j (buf.set i b) =
      ((copy_from_loop m n a j buf).1.set i b, (copy_from_loop m n a j buf).2) := by
  induction n generalizing a j buf with
  | zero => rfl
  | succ n ih =>
    unfold copy_from_loop
    by_cases hr : m.ram (a >>> PAGE_SHIFT) = true
    · rw [if_pos hr, if_pos hr, List.set_comm _ _ _ (by omega : i ≠ j)]
      exact ih (a + 1) (j + 1) _ (by omega)
    · rw [if_neg hr, if_neg hr]

theorem copy_from_loop_idem (m : GuestMem) (n a i : Nat) (buf : List Nat) :
    copy_from_loop m n a i (copy_from_loop m n a i buf).1 = copy_from_loop m n a i buf := by
  induction n generalizing a i buf with
  | zero => rfl
  | succ n ih =>
    by_cases hr : m.ram (a >>> PAGE_SHIFT) = true
    · have hstep : ∀ l : List Nat, copy_from_loop m (n + 1) a i l =
          ((copy_from_loop m n (a + 1) (i + 1) l).1.set i (u8 (m.byte a)),
            (copy_from_loop m n (a + 1) (i + 1) l).2) := by
        intro l
        rw [copy_from_loop, if_pos hr]
        exact copy_from_loop_set_comm m n (a + 1) i (i + 1) _ l (by omega)
      rw [hstep buf, hstep]
      dsimp only
      rw [copy_from_loop_set_comm m n (a + 1) i (i + 1) _ _ (by omega), ih, List.set_set]
    · have hstep : ∀ l : List Nat, copy_from_loop m (n + 1) a i l = (l, n + 1) := by
        intro l
        rw [copy_from_loop, if_neg hr]
      rw [hstep buf, hstep]

theorem copy_from_loop_length (m : GuestMem) (n a i : Nat) (buf : List Nat) :
    (copy_from_loop m n a i buf).1.length = buf.length := by
  induction n generalizing a i buf with
  | zero => rfl
  | succ n ih =>
    unfold copy_from_loop
    by_cases hr : m.ram (a >>> PAGE_SHIFT) = true
    · rw [if_pos hr, ih, List.length_set]
    · rw [if_neg hr]

theorem copy_from_loop_get (m : GuestMem) (n a i : Nat) (buf : List Nat)
    (hb : m.backed a n) (hlen : i + n ≤ buf.length) (k : Nat) (hk : k < n) :
    (copy_from_loop m n a i buf).1[i + k]? = some (u8 (m.byte (a + k))) := by
  induction n generalizing a i buf k with
  | zero => omega
  | succ n ih =>
    obtain ⟨hr, hb'⟩ := backed_succ m a n hb
    unfold copy_from_loop
    rw [if_pos hr, copy_from_loop_set_comm m n (a + 1) i (i + 1) _ buf (by omega)]
    simp only
    cases k with
    | zero =>
      have hl : i < (copy_from_loop m n (a + 1) (i + 1) buf).1.length := by
        rw [copy_from_loop_length]; omega
      simp [hl]
    | succ k =>
      rw [List.getElem?_set_ne (by omega)]
      have := ih (a + 1) (i + 1) buf hb' (by omega) k (by omega)
      rw [show i + (k + 1) = i + 1 + k by omega, this, show a + (k + 1) = a + 1 + k by omega]

theorem le_value_window (m : GuestMem) (R : List Nat) (A d b : Nat)
    (h : ∀ k, k < b → R[d + k]? = some (u8 (m.byte (A + d + k)))) :
    le_value ((R.drop d).take b) = m.load (A + d) b := by
  induction b generalizing d with
  | zero => simp [le_value, GuestMem.load]
  | succ b ih =>
    have h0 := h 0 (by omega)
    simp only [Nat.add_zero] at h0
    obtain ⟨hd, hx⟩ := List.getElem?_eq_some_iff.1 h0
    rw [List.drop_eq_getElem_cons hd, List.take_succ_cons, hx]
    unfold le_value GuestMem.load
    rw [ih (d + 1) (fun k hk => by
      have := h (k + 1) (by omega)
      rw [show d + 1 + k = d + (k + 1) by omega, this,
        show A + (d + 1) + k = A + d + (k + 1) by omega])]
    rfl


/-! ## Prefetch window and frame placement: claims -/

/-- C31: prefetch idempotence.  The window refill sets `insn_buf_eip` to
`regs.eip` and computes the window from `regs.eip`, `CS.base`, guest memory
and the previous window only; so a second refill at the same IP, with `CS.base`
and guest memory unchanged and the window as the first refill left it, yields
the same window contents and the same `insn_buf_eip = regs.eip` (whether or
not the window crosses a page boundary). -/
theorem prefetch_idempotent (s t : Machine) :
    (prefetch s).rm_ctxt.insn_buf_eip = s.regs.eip ∧
    (t.regs.eip = s.regs.eip →
      (t.rm_ctxt.seg_reg x86_seg_cs).base = (s.rm_ctxt.seg_reg x86_seg_cs).base →
      t.mem = s.mem → t.rm_ctxt.insn_buf = s.rm_ctxt.insn_buf →
      (prefetch t).rm_ctxt.insn_buf = (prefetch s).rm_ctxt.insn_buf ∧
        (prefetch t).rm_ctxt.insn_buf_eip = (prefetch s).rm_ctxt.insn_buf_eip) ∧
    (t.regs.eip = s.regs.eip →
      (t.rm_ctxt.seg_reg x86_seg_cs).base = (s.rm_ctxt.seg_reg x86_seg_cs).base →
      t.mem = s.mem → t.rm_ctxt.insn_buf = (prefetch s).rm_ctxt.insn_buf →
      (prefetch t).rm_ctxt.insn_buf = (prefetch s).rm_ctxt.insn_buf ∧
        (prefetch t).rm_ctxt.insn_buf_eip = s.regs.eip) ∧
    prefetch (prefetch s) = prefetch s := by
  have hidem : (hvm_copy_from_guest_phys s.mem
        (hvm_copy_from_guest_phys s.mem s.rm_ctxt.insn_buf
          (u32 ((s.rm_ctxt.seg_reg x86_seg_cs).base + s.regs.eip)) 16).1
        (u32 ((s.rm_ctxt.seg_reg x86_seg_cs).base + s.regs.eip)) 16).1 =
      (hvm_copy_from_guest_phys s.mem s.rm_ctxt.insn_buf
        (u32 ((s.rm_ctxt.seg_reg x86_seg_cs).base + s.regs.eip)) 16).1 := by
    unfold hvm_copy_from_guest_phys
    rw [copy_from_loop_idem]
  refine ⟨rfl, fun h1 h2 h3 h4 => ?_, fun h1 h2 h3 h4 => ?_, ?_⟩
  · simp only [prefetch, h1, h2, h3, h4, and_self]
  · simp only [prefetch, h1, h2, h3, h4, and_true]
    exact hidem
  · simp only [prefetch]
    rw [hidem]

/-- Witness for C31: two refills one after the other on the machine holding
`CD 21` at `F000:0100` give the same window, anchored at `0x100`. -/
theorem prefetch_idempotent_witness :
    (prefetch (prefetch int21_code_machine)).rm_ctxt.insn_buf =
      (prefetch int21_code_machine).rm_ctxt.insn_buf ∧
    (prefetch (prefetch int21_code_machine)).rm_ctxt.insn_buf_eip = 0x100 := by
  have h := (prefetch_idempotent int21_code_machine (prefetch int21_code_machine)).2.2.1
    rfl rfl rfl rfl
  exact ⟨h.1, h.2⟩

/-- C35 (counterexample): two successful deliveries of `INT 21h` with old
`SP ≥ 4` after which the flags word `0x0202` is not at `SS.base + SP_old`.
With `SS.base = 0`, `SP = 7FFE` and the stack page not RAM, no byte of guest
memory changes, so the two bytes at `7FFE` are not overwritten.  With
`addr_size = 32`, `SS.base = 0xFFFF0`, `ESP = 0xFFF00020` and all of memory
RAM, `SS.base + SP_old` is `0x100000010` but the frame is stored at
`0xC..0x11`, the 32-bit truncation of `SS.base + SP_old - 4`, and the bytes at
`0x10000000C..0x100000011` stay zero. -/
theorem frame_misses_stack_top :
    (4 * 0x21 + 3 ≤ (unbacked_stack_machine.rm_ctxt.seg_reg x86_seg_idtr).limit ∧
      4 ≤ stack_pointer unbacked_stack_machine ∧
      (unbacked_stack_machine.rm_ctxt.seg_reg x86_seg_ss).base +
        stack_pointer unbacked_stack_machine = 0x7ffe ∧
      (unbacked_stack_machine.regs.eflags &&& not_ulong X86_EFLAGS_RF) % 2 ^ 16 = 0x202 ∧
      ∃ s', realmode_deliver_exception 1 0 0x21 2 unbacked_stack_machine = some s' ∧
        stack_pointer s' = 0x7ffa ∧
        (∀ a, s'.mem.byte a = unbacked_stack_machine.mem.byte a) ∧
        s'.mem.load 0x7ffe 2 = 0) ∧
    (4 * 0x21 + 3 ≤ (wrapped_stack_machine.rm_ctxt.seg_reg x86_seg_idtr).limit ∧
      4 ≤ stack_pointer wrapped_stack_machine ∧
      (wrapped_stack_machine.rm_ctxt.seg_reg x86_seg_ss).base +
        stack_pointer wrapped_stack_machine = 0x100000010 ∧
      wrapped_stack_machine.mem.backed 0x10000000c 6 ∧
      (wrapped_stack_machine.regs.eflags &&& not_ulong X86_EFLAGS_RF) % 2 ^ 16 = 0x202 ∧
      ∃ s', realmode_deliver_exception 1 0 0x21 2 wrapped_stack_machine = some s' ∧
        stack_pointer s' = 0xfff0001c ∧ stack_linear s' = 0xc ∧
        s'.mem.load 0xc 2 = 0x102 ∧ s'.mem.load 0xe 2 = 0xf000 ∧ s'.mem.load 0x10 2 = 0x202 ∧
        s'.mem.load 0x10000000c 2 = 0 ∧ s'.mem.load 0x10000000e 2 = 0 ∧
        s'.mem.load 0x100000010 2 = 0) := by
  refine ⟨⟨by decide, by decide, by decide, by decide,
    deliver_frame 0 0x21 2 unbacked_stack_machine,
    deliver_present 0 0 0x21 2 unbacked_stack_machine (by decide), by decide, fun _ => rfl,
    by decide⟩,
    by decide, by decide, by decide, fun _ _ => rfl, by decide,
    deliver_frame 0 0x21 2 wrapped_stack_machine,
    deliver_present 0 0 0x21 2 wrapped_stack_machine (by decide), by decide, ?_, ?_⟩
  · rw [deliver_frame_stack_linear]; decide
  · refine ⟨?_, ?_, ?_, ?_, ?_, ?_⟩ <;> decide

/-- C35 (amended): frame and stack overlap.  A successful delivery with old
`SP ≥ 4` leaves `SP = SP_old - 4` and copies the six frame bytes to the linear
address `(SS.base + SP_old - 4) mod 2^32` (guest memory afterwards is the
result of that copy, whatever the backing); when the six bytes there are RAM
the flags word lies two words above the start.  When `SS.base + SP_old - 4` is
below `2^32` the frame thus occupies `[SS.base + SP_old - 4, SS.base + SP_old
+ 2)`, and when those bytes are RAM the flags word is stored at `SS.base +
SP_old`, in place of the two bytes that were at the top of the guest stack
before delivery, while every byte outside the frame is unchanged. -/
theorem frame_overlaps_stack_top (fuel cs_eip0 v insn_len : Nat) (s : Machine)
    (hv : v ≤ 255)
    (hlim : 4 * v + 3 ≤ (s.rm_ctxt.seg_reg x86_seg_idtr).limit)
    (hsp : 4 ≤ stack_pointer s) :
    ∃ s', realmode_deliver_exception (fuel + 1) cs_eip0 v insn_len s = some s' ∧
      stack_pointer s' = stack_pointer s - 4 ∧
      stack_linear s' = ((s.rm_ctxt.seg_reg x86_seg_ss).base + stack_pointer s - 4) % 2 ^ 32 ∧
      s'.mem = (hvm_copy_to_guest_phys s.mem
        (((s.rm_ctxt.seg_reg x86_seg_ss).base + stack_pointer s - 4) % 2 ^ 32)
        (le_bytes 2 (u16 (s.regs.eip + insn_len)) ++
          le_bytes 2 (s.rm_ctxt.seg_reg x86_seg_cs).sel ++
          le_bytes 2 (u16 (s.regs.eflags &&& not_ulong X86_EFLAGS_RF))) 6).1 ∧
      (s.mem.backed (stack_linear s') 6 →
        s'.mem.load (stack_linear s' + 4) 2 =
          (s.regs.eflags &&& not_ulong X86_EFLAGS_RF) % 2 ^ 16) ∧
      ((s.rm_ctxt.seg_reg x86_seg_ss).base + stack_pointer s - 4 < 2 ^ 32 →
        stack_linear s' = (s.rm_ctxt.seg_reg x86_seg_ss).base + stack_pointer s - 4 ∧
        stack_linear s' + 6 = (s.rm_ctxt.seg_reg x86_seg_ss).base + stack_pointer s + 2 ∧
        (s.mem.backed ((s.rm_ctxt.seg_reg x86_seg_ss).base + stack_pointer s - 4) 6 →
          s'.mem.load ((s.rm_ctxt.seg_reg x86_seg_ss).base + stack_pointer s) 2 =
            (s.regs.eflags &&& not_ulong X86_EFLAGS_RF) % 2 ^ 16 ∧
          ∀ x, x < (s.rm_ctxt.seg_reg x86_seg_ss).base + stack_pointer s - 4 ∨
              (s.rm_ctxt.seg_reg x86_seg_ss).base + stack_pointer s + 2 ≤ x →
            s'.mem.byte x = s.mem.byte x)) := by
  have hlo : u16 (u64 (s.regs.esp + 2 ^ 64 - 4)) < 2 ^ 16 := Nat.mod_lt _ (by norm_num)
  have hsp' : stack_pointer (deliver_frame cs_eip0 v insn_len s) = stack_pointer s - 4 := by
    by_cases h32 : s.rm_ctxt.addr_size = 32
    · have e : stack_pointer (deliver_frame cs_eip0 v insn_len s) =
          u32 (u64 (s.regs.esp + 2 ^ 64 - 4)) := by
        simp only [stack_pointer, deliver_frame, h32, if_true]
      rw [e]
      simp only [stack_pointer, h32, if_true] at hsp ⊢
      unfold u32 u64 at *
      omega
    · have e : stack_pointer (deliver_frame cs_eip0 v insn_len s) =
          u16 (u64 (s.regs.esp + 2 ^ 64 - 4)) := by
        simp only [stack_pointer, deliver_frame, h32, if_false]
        exact low16_of_merge _ _ hlo
      rw [e]
      simp only [stack_pointer, h32, if_false] at hsp ⊢
      unfold u16 u64 at *
      omega
  have hlin : stack_linear (deliver_frame cs_eip0 v insn_len s) =
      ((s.rm_ctxt.seg_reg x86_seg_ss).base + stack_pointer s - 4) % 2 ^ 32 := by
    have e : stack_linear (deliver_frame cs_eip0 v insn_len s) =
        u32 ((s.rm_ctxt.seg_reg x86_seg_ss).base +
          stack_pointer (deliver_frame cs_eip0 v insn_len s)) := by
      unfold stack_linear
      rw [show ((deliver_frame cs_eip0 v insn_len s).rm_ctxt.seg_reg x86_seg_ss).base =
        (s.rm_ctxt.seg_reg x86_seg_ss).base by simp [deliver_frame]]
    rw [e, hsp']
    unfold u32
    congr 1
    omega
  have hflags : s.mem.backed (stack_linear (deliver_frame cs_eip0 v insn_len s)) 6 →
      (deliver_frame cs_eip0 v insn_len s).mem.load
        (stack_linear (deliver_frame cs_eip0 v insn_len s) + 4) 2 =
        (s.regs.eflags &&& not_ulong X86_EFLAGS_RF) % 2 ^ 16 := by
    intro hb
    have hf := frame_in_memory s.mem (stack_linear (deliver_frame cs_eip0 v insn_len s))
      (u16 (s.regs.eip + insn_len)) (s.rm_ctxt.seg_reg x86_seg_cs).sel
      (u16 (s.regs.eflags &&& not_ulong X86_EFLAGS_RF)) hb
    rw [← deliver_frame_mem] at hf
    rw [hf.2.2.1]; unfold u16; omega
  refine ⟨deliver_frame cs_eip0 v insn_len s, ?_, hsp', hlin, ?_, hflags, fun hnw => ?_⟩
  · exact deliver_present fuel cs_eip0 v insn_len s (by rw [u32_last_byte v hv]; exact hlim)
  · rw [← hlin]; exact deliver_frame_mem cs_eip0 v insn_len s
  · have hl' : stack_linear (deliver_frame cs_eip0 v insn_len s) =
        (s.rm_ctxt.seg_reg x86_seg_ss).base + stack_pointer s - 4 := by
      rw [hlin]; exact Nat.mod_eq_of_lt hnw
    refine ⟨hl', by omega, fun hb => ⟨?_, fun x hx => ?_⟩⟩
    · have := hflags (by rw [hl']; exact hb)
      rw [hl'] at this
      rw [← this]
      congr 1
      omega
    · rw [deliver_frame_mem]
      apply copy_to_byte_outside
      rw [hl']
      omega

/-- Witness for C35 (amended): with `SS.base = 0`, `SP = 7FFE` and the stack
in RAM, `INT 21h` stores the flags word `0x0202` at `7FFE`, the old top of the
stack. -/
theorem frame_overlaps_stack_top_witness :
    ∃ s', realmode_deliver_exception 1 0 0x21 2 int21_machine = some s' ∧
      stack_pointer s' = 0x7ffa ∧ stack_linear s' = 0x7ffa ∧
      s'.mem.load 0x7ffe 2 = 0x202 := by
  obtain ⟨s', h, h1, h2, _, _, h4⟩ :=
    frame_overlaps_stack_top 0 0 0x21 2 int21_machine (by decide) (by decide) (by decide)
  refine ⟨s', h, ?_, ?_, ?_⟩
  · rw [h1]; decide
  · rw [h2]; decide
  · have := ((h4 (by decide)).2.2 (fun _ _ => rfl)).1
    have e : (int21_machine.rm_ctxt.seg_reg x86_seg_ss).base + stack_pointer int21_machine =
        0x7ffe := by decide
    rw [e] at this
    rw [this]; decide


theorem backed_sub (m : GuestMem) (a n d b : Nat) (hb : m.backed a n) (h : d + b ≤ n) :
    m.backed (a + d) b := by
  intro j hj
  have := hb (d + j) (by omega)
  rw [show a + d + j = a + (d + j) by omega]
  exact this

theorem read_of_backed (seg : x86_segment) (offset bytes : Nat)
    (access_type : hvm_access_type) (s : Machine) (h8 : bytes ≤ 8)
    (hb : s.mem.backed (u32 ((s.rm_ctxt.seg_reg seg).base + offset)) bytes) :
    realmode_read seg offset bytes access_type s =
      (X86EMUL_OKAY, s.mem.load (u32 ((s.rm_ctxt.seg_reg seg).base + offset)) bytes, s) := by
  by_cases h0 : bytes = 0
  · subst h0
    simp [realmode_read, hvm_copy_from_guest_phys, copy_from_loop, GuestMem.load, le_bytes,
      le_value, u8]
  · obtain ⟨hc, hval⟩ := copy_from_backed_value s.mem _ bytes (by omega) h8 hb
    simp only [realmode_read]
    rw [hc]
    simp only [ne_eq, not_true_eq_false, if_false]
    rw [hval]

/-- C37 (counterexample): on the machine holding `CD 21` at `F000:0100`, the
window is refilled at `F000:0100` (all 16 bytes copied, no wrap past `2^32`)
and CS is then reloaded with base 0, guest memory, the window and its anchor
staying as the refill left them.  For `seg = CS`, `bytes = 2` and `offset =
0x100 = insn_buf_eip`, every stated condition holds, yet
`realmode_emulate_insn_fetch` returns ok with `0x21CD` from the window while
`realmode_read` returns ok with `0`, the two bytes at linear address `0x100`. -/
theorem window_stale_after_cs_reload :
    int21_code_machine.rm_ctxt.insn_buf.length = 16 ∧
    (hvm_copy_from_guest_phys int21_code_machine.mem int21_code_machine.rm_ctxt.insn_buf
      (u32 ((int21_code_machine.rm_ctxt.seg_reg x86_seg_cs).base +
        int21_code_machine.regs.eip)) 16).2 = 0 ∧
    cs_reloaded_machine.rm_ctxt.insn_buf = (prefetch int21_code_machine).rm_ctxt.insn_buf ∧
    cs_reloaded_machine.rm_ctxt.insn_buf_eip =
      (prefetch int21_code_machine).rm_ctxt.insn_buf_eip ∧
    cs_reloaded_machine.mem = int21_code_machine.mem ∧
    u32 ((int21_code_machine.rm_ctxt.seg_reg x86_seg_cs).base + int21_code_machine.regs.eip)
      + 16 ≤ 2 ^ 32 ∧
    2 ≤ 8 ∧ cs_reloaded_machine.rm_ctxt.insn_buf_eip ≤ 0x100 ∧
    0x100 + 2 ≤ cs_reloaded_machine.rm_ctxt.insn_buf_eip + 16 ∧
    (int21_code_machine.rm_ctxt.seg_reg x86_seg_cs).base = 0xf0000 ∧
    (cs_reloaded_machine.rm_ctxt.seg_reg x86_seg_cs).base = 0 ∧
    (realmode_emulate_insn_fetch x86_seg_cs 0x100 2 cs_reloaded_machine).1 = X86EMUL_OKAY ∧
    (realmode_emulate_insn_fetch x86_seg_cs 0x100 2 cs_reloaded_machine).2.1 = 0x21cd ∧
    (realmode_read x86_seg_cs 0x100 2 hvm_access_insn_fetch cs_reloaded_machine).1 =
      X86EMUL_OKAY ∧
    (realmode_read x86_seg_cs 0x100 2 hvm_access_insn_fetch cs_reloaded_machine).2.1 = 0 := by
  refine ⟨by decide, by decide, rfl, rfl, rfl, by decide, by decide, by decide, by decide,
    rfl, rfl, by decide, by decide, by decide, by decide⟩

/-- C37 (amended): prefetch-window coherence.  Let the last refill, made in
state `s0` with a 16-byte window, have copied all 16 bytes, and let the
window, its anchor, guest memory and also `CS.base` be now as that refill left
them, the window not wrapping past `2^32`.  Then for `seg = CS`, `bytes ≤ 8` and
`insn_buf_eip ≤ offset`, `offset + bytes ≤ insn_buf_eip + 16`,
`realmode_emulate_insn_fetch` returns ok with the same zero-extended value as
`realmode_read` with access kind `insn_fetch`, both leaving the state
unchanged; and on such a window hit the result is the same for every `seg`
argument. -/
theorem window_coherent (seg : x86_segment) (offset bytes : Nat) (s0 t : Machine)
    (hlen : s0.rm_ctxt.insn_buf.length = 16)
    (hfull : (hvm_copy_from_guest_phys s0.mem s0.rm_ctxt.insn_buf
      (u32 ((s0.rm_ctxt.seg_reg x86_seg_cs).base + s0.regs.eip)) 16).2 = 0)
    (hwin : t.rm_ctxt.insn_buf = (prefetch s0).rm_ctxt.insn_buf)
    (heip : t.rm_ctxt.insn_buf_eip = (prefetch s0).rm_ctxt.insn_buf_eip)
    (hmem : t.mem = s0.mem)
    (hcs : (t.rm_ctxt.seg_reg x86_seg_cs).base = (s0.rm_ctxt.seg_reg x86_seg_cs).base)
    (hwrap : u32 ((s0.rm_ctxt.seg_reg x86_seg_cs).base + s0.regs.eip) + 16 ≤ 2 ^ 32)
    (hseg : seg = x86_seg_cs) (h8 : bytes ≤ 8)
    (hlo : t.rm_ctxt.insn_buf_eip ≤ offset)
    (hhi : offset + bytes ≤ t.rm_ctxt.insn_buf_eip + 16) :
    realmode_emulate_insn_fetch seg offset bytes t =
      (X86EMUL_OKAY, t.mem.load (u32 ((t.rm_ctxt.seg_reg seg).base + offset)) bytes, t) ∧
    realmode_read seg offset bytes hvm_access_insn_fetch t =
      (X86EMUL_OKAY, t.mem.load (u32 ((t.rm_ctxt.seg_reg seg).base + offset)) bytes, t) ∧
    realmode_emulate_insn_fetch seg offset bytes t =
      realmode_read seg offset bytes hvm_access_insn_fetch t ∧
    ∀ seg', realmode_emulate_insn_fetch seg' offset bytes t =
      realmode_emulate_insn_fetch seg offset bytes t := by
  subst hseg
  have heip' : t.rm_ctxt.insn_buf_eip = s0.regs.eip := heip
  have hback : s0.mem.backed (u32 ((s0.rm_ctxt.seg_reg x86_seg_cs).base + s0.regs.eip)) 16 :=
    (copy_from_residual_zero_iff s0.mem 16 _ 0 _).1 hfull
  have hwin' : t.rm_ctxt.insn_buf = (copy_from_loop s0.mem 16
      (u32 ((s0.rm_ctxt.seg_reg x86_seg_cs).base + s0.regs.eip)) 0 s0.rm_ctxt.insn_buf).1 := hwin
  -- distance of the request from the window anchor
  obtain ⟨d, hd⟩ : ∃ d, offset = t.rm_ctxt.insn_buf_eip + d := ⟨offset - t.rm_ctxt.insn_buf_eip,
    by omega⟩
  have hdb : d + bytes ≤ 16 := by omega
  have hoff : u32 (u64 (offset + 2 ^ 64 - t.rm_ctxt.insn_buf_eip)) = d := by
    unfold u32 u64; omega
  have hhit : ¬ (u32 (u32 (u64 (offset + 2 ^ 64 - t.rm_ctxt.insn_buf_eip)) + bytes) > 16) := by
    rw [hoff]; unfold u32; omega
  have hfetch : ∀ seg', realmode_emulate_insn_fetch seg' offset bytes t =
      (X86EMUL_OKAY, le_value ((t.rm_ctxt.insn_buf.drop d).take bytes), t) := by
    intro seg'
    unfold realmode_emulate_insn_fetch
    dsimp only
    rw [if_neg hhit, hoff]
  have hval : le_value ((t.rm_ctxt.insn_buf.drop d).take bytes) =
      s0.mem.load (u32 ((s0.rm_ctxt.seg_reg x86_seg_cs).base + s0.regs.eip) + d) bytes := by
    rw [hwin']
    apply le_value_window
    intro k hk
    have := copy_from_loop_get s0.mem 16 _ 0 s0.rm_ctxt.insn_buf hback (by omega) (d + k)
      (by omega)
    rw [Nat.zero_add] at this
    rw [this, Nat.add_assoc]
  by_cases h0 : bytes = 0
  · subst h0
    have hr := read_of_backed x86_seg_cs offset 0 hvm_access_insn_fetch t (by omega)
      (fun j hj => absurd hj (by omega))
    have hf : ∀ seg', realmode_emulate_insn_fetch seg' offset 0 t =
        (X86EMUL_OKAY, t.mem.load (u32 ((t.rm_ctxt.seg_reg x86_seg_cs).base + offset)) 0, t) := by
      intro seg'
      rw [hfetch seg']
      simp [le_value, GuestMem.load]
    exact ⟨hf _, hr, by rw [hf, hr], fun seg' => by rw [hf, hf]⟩
  · have haddr : u32 ((t.rm_ctxt.seg_reg x86_seg_cs).base + offset) =
        u32 ((s0.rm_ctxt.seg_reg x86_seg_cs).base + s0.regs.eip) + d := by
      rw [hcs, hd, heip']
      unfold u32 at hwrap ⊢
      omega
    have hbt : t.mem.backed (u32 ((t.rm_ctxt.seg_reg x86_seg_cs).base + offset)) bytes := by
      rw [haddr, hmem]
      exact backed_sub s0.mem _ 16 d bytes hback hdb
    have hr := read_of_backed x86_seg_cs offset bytes hvm_access_insn_fetch t h8 hbt
    have hf : ∀ seg', realmode_emulate_insn_fetch seg' offset bytes t =
        (X86EMUL_OKAY, t.mem.load (u32 ((t.rm_ctxt.seg_reg x86_seg_cs).base + offset)) bytes,
          t) := by
      intro seg'
      rw [hfetch seg', hval, haddr, hmem]
    exact ⟨hf _, hr, by rw [hf, hr], fun seg' => by rw [hf, hf]⟩

/-- Witness for C37 (amended): after the refill on the machine holding `CD
21` at `F000:0100`, the two-byte fetch at offset `0x100` returns `0x21CD` from
the window, as `realmode_read` does from memory. -/
theorem window_coherent_witness :
    realmode_emulate_insn_fetch x86_seg_cs 0x100 2 (prefetch int21_code_machine) =
      realmode_read x86_seg_cs 0x100 2 hvm_access_insn_fetch (prefetch int21_code_machine) ∧
    (realmode_emulate_insn_fetch x86_seg_cs 0x100 2 (prefetch int21_code_machine)).2.1 =
      0x21cd := by
  have h := window_coherent x86_seg_cs 0x100 2 int21_code_machine (prefetch int21_code_machine)
    (by decide) (by decide) rfl rfl rfl rfl (by decide) rfl (by decide) (by decide) (by decide)
  refine ⟨h.2.2.1, ?_⟩
  rw [h.1]
  decide

end Realmode
